import Mathlib

/-!
# GEVGDriver: event generation driver and cross-section aggregation

A shallow embedding of `src/EVGDrivers/GEVGDriver.cxx`.

* `double` quantities (energies, cross sections) are exact rationals.
* `assert(...)` is a fatal abort: every operation that can abort returns an
  `Except Fatal _`, the aborting branch carrying the reason.
* The collaborators whose code is outside the translation unit (interaction
  selector, responsibility chain, event generators, cross-section algorithms,
  PDG helpers, numerical library) are fields of `Env`; theorems quantify over
  every `Env`.
* Stochastic collaborators thread an explicit world state `W` (random number
  generator, geometry, ...).

The last definitions embed the species selection of
`src/FluxDrivers/GCylindTH1Flux.cxx` and the graph builder of
`src/validation/NuXSec/NuXSecData.cxx`; there the value of a random draw is an
argument and a null pointer is `none`.
-/

namespace Genie

/-! ## Data model -/

/-- ROOT four-vector `(Px, Py, Pz, E)`. -/
structure TLorentzVector where
  Px : ℚ
  Py : ℚ
  Pz : ℚ
  E : ℚ
deriving DecidableEq

/-- The accessor `TLorentzVector::Energy()`. -/
def TLorentzVector.Energy (p : TLorentzVector) : ℚ := p.E

/-- The setter `TLorentzVector::SetPxPyPzE`. -/
def TLorentzVector.SetPxPyPzE (_p : TLorentzVector) (px py pz e : ℚ) : TLorentzVector :=
  ⟨px, py, pz, e⟩

/-- Nuclear target `Target(Z, A)`. -/
structure Target where
  Z : Int
  A : Int
deriving DecidableEq

/-- Initial state: target, probe species code, probe 4-momentum. -/
structure InitialState where
  fTarget : Target
  fProbePdgC : Int
  fProbeP4 : TLorentzVector
deriving DecidableEq

/-- The constructor `InitialState(target, probe_pdgc)`; the probe 4-momentum is
not yet bound. -/
def InitialState.create (tgt : Target) (pdgc : Int) : InitialState :=
  ⟨tgt, pdgc, ⟨0, 0, 0, 0⟩⟩

/-- The setter `InitialState::SetProbeP4`. -/
def InitialState.SetProbeP4 (s : InitialState) (p4 : TLorentzVector) : InitialState :=
  { s with fProbeP4 := p4 }

/-- Interaction summary: initial state plus process identifier. -/
structure Interaction where
  fInitialState : InitialState
  fProcInfo : Nat
deriving DecidableEq

/-- The call `interaction->GetInitialStatePtr()->SetProbeP4(p4)`. -/
def Interaction.SetProbeP4 (i : Interaction) (p4 : TLorentzVector) : Interaction :=
  { i with fInitialState := i.fInitialState.SetProbeP4 p4 }

/-- Event record: the selected interaction, the particles added during
construction, and the physicality flag read by `IsUnphysical()`. -/
structure EventRecord where
  fInteraction : Interaction
  fParticles : List Int
  fIsUnphysical : Bool
deriving DecidableEq

/-- The accessor `EventRecord::GetInteraction()`. -/
def EventRecord.GetInteraction (r : EventRecord) : Interaction := r.fInteraction

/-- The accessor `EventRecord::IsUnphysical()`. -/
def EventRecord.IsUnphysical (r : EventRecord) : Bool := r.fIsUnphysical

/-- Interaction filter handle; its contents are read by the selector only. -/
structure InteractionFilter where
  fCode : Nat
deriving DecidableEq

/-- Interpolating curve built from arrays of knots, `Spline(nk, E, xsec)`. -/
structure Spline where
  knots : List (ℚ × ℚ)
deriving DecidableEq

/-- Cross-section algorithm: identity and the direct computation `XSec`. -/
structure XSecAlgorithmI where
  Id : String
  XSec : Interaction → ℚ

/-- Event generator: identity, interaction-list generator, cross-section
algorithm, validity context and event-construction visitor. -/
structure EventGeneratorI (W : Type) where
  Id : String
  CreateInteractionList : InitialState → Option (List Interaction)
  CrossSectionAlg : XSecAlgorithmI
  Emin : ℚ
  Emax : ℚ
  ProcessEventRecord : EventRecord → W → EventRecord × W

/-- Reasons for a fatal abort (a failed `assert`). -/
inductive Fatal where
  | invalidInitState
  | invalidTarget
  | noInteractionSelected
  | noEventGenerator
  | recursiveModeMaxDepth
  | noSplinesLoaded
  | badSplineRange
  | badEnergyRange
deriving DecidableEq

/-- Everything the driver borrows: the generator list assembled by
`Configure`, the selector, the chain, the constant `kRecursiveModeMaxDepth`
of `Conventions/Controls.h`, the PDG and target predicates, and the numerical
helpers. -/
structure Env (W : Type) where
  fEvGenList : List (EventGeneratorI W)
  SelectInteraction : Option InteractionFilter → InitialState → W → Option EventRecord × W
  FindGenerator : Interaction → Option (EventGeneratorI W)
  kRecursiveModeMaxDepth : Nat
  IsNeutrino : Int → Bool
  IsAntiNeutrino : Int → Bool
  IsValidNucleus : Target → Bool
  IsFreeNucleon : Target → Bool
  Evaluate : Spline → ℚ → ℚ
  BuildSpline : XSecAlgorithmI → Interaction → Int → ℚ → ℚ → Bool → Spline
  Log : ℚ → ℚ
  Exp : ℚ → ℚ

/-- The mutable data members of `GEVGDriver`. The retry counter `fNRecLevel`
starts at 0 and is only incremented or reset, so it is a natural number. -/
structure GEVGDriver where
  fCurrentRecord : Option EventRecord
  fNuclTarget : Option Target
  fNuPDG : Int
  fFilter : Option InteractionFilter
  fUseSplines : Bool
  fNRecLevel : Nat
  fXSecSumSpl : Option Spline
  fFilterUnphysical : Bool
deriving DecidableEq

/-! ## Spline cache -/

/-- Cache key: algorithm identity and interaction channel identity (probe
species, target, process), without the probe 4-momentum. -/
structure SplineKey where
  alg : String
  probe : Int
  Z : Int
  A : Int
  proc : Nat
deriving DecidableEq

/-- Modelled from the spec: the key builder of `XSecSplineList`, whose code is
not in the translation unit. Keys are identity pairs (algorithm identity,
interaction channel identity), not compared by floating parameters. -/
def BuildSplineKey (alg : XSecAlgorithmI) (i : Interaction) : SplineKey :=
  ⟨alg.Id, i.fInitialState.fProbePdgC, i.fInitialState.fTarget.Z,
    i.fInitialState.fTarget.A, i.fProcInfo⟩

/-- Modelled from the spec: the class `XSecSplineList` (Utils/XSecSplineList.h),
a keyed store of interpolating curves with the log-energy switch set by
`SetLogE`. The first binding of a key is the one looked up. -/
structure XSecSplineList where
  fUseLogE : Bool
  fSplineMap : List (SplineKey × Spline)
deriving DecidableEq

/-- Modelled from the spec: `XSecSplineList::GetSpline`, lookup by key. -/
def XSecSplineList.GetSpline (xsl : XSecSplineList) (alg : XSecAlgorithmI)
    (i : Interaction) : Option Spline :=
  xsl.fSplineMap.lookup (BuildSplineKey alg i)

/-- Modelled from the spec: `XSecSplineList::SplineExists`, the existence check. -/
def XSecSplineList.SplineExists (xsl : XSecSplineList) (alg : XSecAlgorithmI)
    (i : Interaction) : Bool :=
  (xsl.GetSpline alg i).isSome

/-- Modelled from the spec: `XSecSplineList::SetLogE`. -/
def XSecSplineList.SetLogE (xsl : XSecSplineList) (toggle : Bool) : XSecSplineList :=
  { xsl with fUseLogE := toggle }

/-- Modelled from the spec: `XSecSplineList::CreateSpline`, which builds a
curve and stores it under the key of `(alg, interaction)`. It does not guard
against an existing key: the new binding then shadows the old one. -/
def XSecSplineList.CreateSpline {W : Type} (env : Env W) (xsl : XSecSplineList)
    (alg : XSecAlgorithmI) (i : Interaction) (nknots : Int) (Emin Emax : ℚ) :
    XSecSplineList :=
  { xsl with
    fSplineMap :=
      (BuildSplineKey alg i, env.BuildSpline alg i nknots Emin Emax xsl.fUseLogE)
        :: xsl.fSplineMap }

/-! ## Driver: configuration -/

/-- The method `GEVGDriver::Initialize`. The species code is not assigned by
the constructor, so its initial value `nu0` is arbitrary. -/
def GEVGDriver.Initialize (nu0 : Int) : GEVGDriver :=
  { fCurrentRecord := none
    fNuclTarget := none
    fNuPDG := nu0
    fFilter := none
    fUseSplines := false
    fNRecLevel := 0
    fXSecSumSpl := none
    fFilterUnphysical := true }

/-- The method `GEVGDriver::SetInitialState(nu_pdgc, Z, A)`. -/
def GEVGDriver.SetInitialState {W : Type} (env : Env W) (d : GEVGDriver)
    (nu_pdgc Z A : Int) : Except Fatal GEVGDriver :=
  let tgt : Target := ⟨Z, A⟩
  if env.IsValidNucleus tgt || env.IsFreeNucleon tgt then
    .ok { d with fNuPDG := nu_pdgc, fNuclTarget := some tgt }
  else .error .invalidTarget

/-- The method `GEVGDriver::SetFilter`. -/
def GEVGDriver.SetFilter (d : GEVGDriver) (filter : InteractionFilter) : GEVGDriver :=
  { d with fFilter := some filter }

/-- The method `GEVGDriver::FilterUnphysical`. -/
def GEVGDriver.FilterUnphysical (d : GEVGDriver) (on_off : Bool) : GEVGDriver :=
  { d with fFilterUnphysical := on_off }

/-- The method `GEVGDriver::IsValidInitState`. -/
def GEVGDriver.IsValidInitState {W : Type} (env : Env W) (d : GEVGDriver) : Bool :=
  match d.fNuclTarget with
  | none => false
  | some _ =>
    let isnu := env.IsNeutrino d.fNuPDG || env.IsAntiNeutrino d.fNuPDG
    if !isnu then false else true

/-- The method `GEVGDriver::AssertIsValidInitState`. -/
def GEVGDriver.AssertIsValidInitState {W : Type} (env : Env W) (d : GEVGDriver) :
    Except Fatal Unit :=
  let valid := d.IsValidInitState env
  if valid then .ok () else .error .invalidInitState

/-! ## Driver: event generation -/

/-- Calls made on the collaborators during event generation, in order. -/
inductive Call where
  | select (init_state : InitialState)
  | find (interaction : Interaction)
  | process (evgen : String) (record : EventRecord)
deriving DecidableEq

/-- What a `GenerateEvent` call leaves behind: the driver, the world, the
collaborator calls it made, and either the returned record or the abort. -/
structure GenResult (W : Type) where
  driver : GEVGDriver
  world : W
  calls : List Call
  ret : Except Fatal EventRecord

/-- The method `GEVGDriver::GenerateEvent`, with the recursion depth bounded by
`fuel`; `none` means the fuel ran out before the call finished. -/
def GEVGDriver.GenerateEventFuel {W : Type} (env : Env W) (nu4p : TLorentzVector) :
    Nat → GEVGDriver → W → Option (GenResult W)
  | 0, _, _ => none
  | fuel + 1, d, w =>
    match d.AssertIsValidInitState env, d.fNuclTarget with
    | .ok (), some tgt =>
      let init_state := (InitialState.create tgt d.fNuPDG).SetProbeP4 nu4p
      match env.SelectInteraction d.fFilter init_state w with
      | (none, w1) =>
        some ⟨{ d with fCurrentRecord := none }, w1, [.select init_state],
          .error .noInteractionSelected⟩
      | (some rec0, w1) =>
        let interaction := rec0.GetInteraction
        match env.FindGenerator interaction with
        | none =>
          some ⟨{ d with fCurrentRecord := some rec0 }, w1,
            [.select init_state, .find interaction], .error .noEventGenerator⟩
        | some evgen =>
          let out := evgen.ProcessEventRecord rec0 w1
          let calls := [Call.select init_state, .find interaction, .process evgen.Id rec0]
          let d1 := { d with fCurrentRecord := some out.1 }
          if !d1.fFilterUnphysical then some ⟨d1, out.2, calls, .ok out.1⟩
          else
            let unphys := out.1.IsUnphysical
            if unphys then
              let d2 := { d1 with fCurrentRecord := none, fNRecLevel := d1.fNRecLevel + 1 }
              if d2.fNRecLevel ≤ env.kRecursiveModeMaxDepth then
                (GenerateEventFuel env nu4p fuel d2 out.2).map
                  (fun r => { r with calls := calls ++ r.calls })
              else some ⟨d2, out.2, calls, .error .recursiveModeMaxDepth⟩
            else some ⟨{ d1 with fNRecLevel := 0 }, out.2, calls, .ok out.1⟩
    | _, _ => some ⟨d, w, [], .error .invalidInitState⟩

/-- The method `GEVGDriver::GenerateEvent`: the fuel covers every recursion the
depth test of the source can allow from the current level. -/
def GEVGDriver.GenerateEvent {W : Type} (env : Env W) (d : GEVGDriver) (w : W)
    (nu4p : TLorentzVector) : Option (GenResult W) :=
  GEVGDriver.GenerateEventFuel env nu4p (env.kRecursiveModeMaxDepth + 1 - d.fNRecLevel + 1) d w

/-- Number of times the Interaction Selector was consulted. -/
def selectCount (calls : List Call) : Nat :=
  calls.countP (fun c => match c with
    | .select _ => true
    | _ => false)

/-- Number of `ProcessEventRecord` calls. -/
def processCount (calls : List Call) : Nat :=
  calls.countP (fun c => match c with
    | .process _ _ => true
    | _ => false)

/-- One generation attempt as the algorithm describes it (steps 1 to 5):
assert a valid initial state, build the initial state with the supplied
4-momentum, select, resolve the generator, dispatch construction. `none` when
the assertion, the selection or the resolution fails. -/
def attemptOnce {W : Type} (env : Env W) (d : GEVGDriver) (nu4p : TLorentzVector)
    (w : W) : Option (EventRecord × W) :=
  if d.IsValidInitState env then
    match d.fNuclTarget with
    | none => none
    | some tgt =>
      match env.SelectInteraction d.fFilter
          ((InitialState.create tgt d.fNuPDG).SetProbeP4 nu4p) w with
      | (none, _) => none
      | (some rec0, w1) =>
        match env.FindGenerator rec0.GetInteraction with
        | none => none
        | some evgen => some (evgen.ProcessEventRecord rec0 w1)
  else none

/-- The attempt number `k` (counting from 0) of a run of successive attempts
started in world `w`, each attempt starting where the previous one left the
world. `none` when an earlier attempt or this one fails. -/
def nthAttempt {W : Type} (env : Env W) (d : GEVGDriver) (nu4p : TLorentzVector) :
    Nat → W → Option (EventRecord × W)
  | 0, w => attemptOnce env d nu4p w
  | k + 1, w =>
    match attemptOnce env d nu4p w with
    | none => none
    | some out => nthAttempt env d nu4p k out.2

/-- Attempt `k` succeeds in building a record and the record is unphysical. -/
def unphysicalAt {W : Type} (env : Env W) (d : GEVGDriver) (nu4p : TLorentzVector)
    (w : W) (k : Nat) : Prop :=
  ∃ out, nthAttempt env d nu4p k w = some out ∧ out.1.IsUnphysical = true

/-! ## Driver: cross sections and splines -/

/-- The method `GEVGDriver::XSecSum`. -/
def GEVGDriver.XSecSum {W : Type} (env : Env W) (d : GEVGDriver) (xssl : XSecSplineList)
    (nup4 : TLorentzVector) : Except Fatal ℚ :=
  match d.AssertIsValidInitState env, d.fNuclTarget with
  | .ok (), some tgt =>
    let init_state := InitialState.create tgt d.fNuPDG
    .ok (env.fEvGenList.foldl (fun xsec_sum evgen =>
      match evgen.CreateInteractionList init_state with
      | none => xsec_sum
      | some ilst =>
        let xsec_alg := evgen.CrossSectionAlg
        ilst.foldl (fun xsec_sum interaction0 =>
          let interaction := interaction0.SetProbeP4 nup4
          let spline_exists := xssl.SplineExists xsec_alg interaction
          let xsec :=
            if spline_exists && d.fUseSplines then
              let E := nup4.Energy
              match xssl.GetSpline xsec_alg interaction with
              | some spl => env.Evaluate spl E
              | none => 0
            else xsec_alg.XSec interaction
          xsec_sum + xsec) xsec_sum) 0)
  | _, _ => .error .invalidInitState

/-- The term one interaction contributes to the cross-section sum, as the
interface describes it: the cached curve at the probe energy when spline mode
is on and the cache has an entry, the direct computation otherwise. -/
def xsecTerm {W : Type} (env : Env W) (d : GEVGDriver) (xssl : XSecSplineList)
    (nup4 : TLorentzVector) (evgen : EventGeneratorI W) (i : Interaction) : ℚ :=
  match (if d.fUseSplines then xssl.GetSpline evgen.CrossSectionAlg i else none) with
  | some spl => env.Evaluate spl nup4.Energy
  | none => evgen.CrossSectionAlg.XSec (i.SetProbeP4 nup4)

/-- The cross-section sum as the interface describes it: one term for every
interaction of every non-null interaction list. -/
def xsecSumSpec {W : Type} (env : Env W) (d : GEVGDriver) (xssl : XSecSplineList)
    (nup4 : TLorentzVector) (init_state : InitialState) : ℚ :=
  ((env.fEvGenList.map (fun evgen =>
    match evgen.CreateInteractionList init_state with
    | none => []
    | some ilst => ilst.map (xsecTerm env d xssl nup4 evgen))).flatten).sum

/-- The interaction loop of `UseSplines` (lines 433 to 446): the flag, and
whether the method returned from inside the loop. -/
def GEVGDriver.UseSplinesInteractions (xsl : XSecSplineList) (alg : XSecAlgorithmI) :
    List Interaction → Bool → Bool × Bool
  | [], fUseSplines => (fUseSplines, false)
  | interaction :: rest, fUseSplines =>
    let spl_exists := xsl.SplineExists alg interaction
    let fUseSplines1 := fUseSplines && spl_exists
    if !spl_exists then (fUseSplines1, true)
    else UseSplinesInteractions xsl alg rest fUseSplines1

/-- The generator loop of `UseSplines` (lines 419 to 449). -/
def GEVGDriver.UseSplinesGenerators {W : Type} (xsl : XSecSplineList)
    (init_state : InitialState) : List (EventGeneratorI W) → Bool → Bool × Bool
  | [], fUseSplines => (fUseSplines, false)
  | evgen :: rest, fUseSplines =>
    match evgen.CreateInteractionList init_state with
    | none => UseSplinesGenerators xsl init_state rest fUseSplines
    | some ilst =>
      let r := GEVGDriver.UseSplinesInteractions xsl evgen.CrossSectionAlg ilst fUseSplines
      if r.2 then r else UseSplinesGenerators xsl init_state rest r.1

/-- Driver after `UseSplines`, and the warnings it logged. -/
structure UseSplinesResult where
  driver : GEVGDriver
  warnings : List String
deriving DecidableEq

/-- The method `GEVGDriver::UseSplines`. -/
def GEVGDriver.UseSplines {W : Type} (env : Env W) (d : GEVGDriver) (xsl : XSecSplineList) :
    Except Fatal UseSplinesResult :=
  match d.AssertIsValidInitState env, d.fNuclTarget with
  | .ok (), some tgt =>
    let init_state := InitialState.create tgt d.fNuPDG
    let d1 := { d with fUseSplines := true }
    if d1.fUseSplines then
      let r := GEVGDriver.UseSplinesGenerators xsl init_state env.fEvGenList d1.fUseSplines
      .ok ⟨{ d1 with fUseSplines := r.1 },
        if r.2 then ["At least a spline does not exist. Reverting back to not using splines"]
        else []⟩
    else .ok ⟨d1, []⟩
  | _, _ => .error .invalidInitState

/-- One `CreateSpline` call made on the cache: the cache at the moment of the
call and the arguments. -/
structure CreateSplineCall where
  cache : XSecSplineList
  key : SplineKey
  nknots : Int
  Emin : ℚ
  Emax : ℚ
deriving DecidableEq

/-- The cache and the `CreateSpline` calls made so far. -/
structure SplineJob where
  xsl : XSecSplineList
  created : List CreateSplineCall
deriving DecidableEq

/-- The interaction loop of `CreateSplines` (lines 498 to 515). -/
def GEVGDriver.CreateSplinesInteractions {W : Type} (env : Env W) (alg : XSecAlgorithmI)
    (Emin Emax : ℚ) (ilst : List Interaction) (job : SplineJob) : SplineJob :=
  ilst.foldl (fun job interaction =>
    let spl_exists := job.xsl.SplineExists alg interaction
    if !spl_exists then
      ⟨job.xsl.CreateSpline env alg interaction 40 Emin Emax,
        job.created ++ [⟨job.xsl, BuildSplineKey alg interaction, 40, Emin, Emax⟩]⟩
    else job) job

/-- The generator loop of `CreateSplines` (lines 473 to 518). -/
def GEVGDriver.CreateSplinesGenerators {W : Type} (env : Env W) (init_state : InitialState)
    (evgl : List (EventGeneratorI W)) (job : SplineJob) : SplineJob :=
  evgl.foldl (fun job evgen =>
    match evgen.CreateInteractionList init_state with
    | none => job
    | some ilst =>
      let alg := evgen.CrossSectionAlg
      let Emin := max (1 / 100) evgen.Emin
      let Emax := evgen.Emax
      GEVGDriver.CreateSplinesInteractions env alg Emin Emax ilst job) job

/-- Driver and cache after `CreateSplines`, and the `CreateSpline` calls made. -/
structure CreateSplinesResult where
  driver : GEVGDriver
  xsl : XSecSplineList
  created : List CreateSplineCall
deriving DecidableEq

/-- The method `GEVGDriver::CreateSplines`. -/
def GEVGDriver.CreateSplines {W : Type} (env : Env W) (d : GEVGDriver) (xsl : XSecSplineList)
    (useLogE : Bool) : Except Fatal CreateSplinesResult :=
  match d.AssertIsValidInitState env, d.fNuclTarget with
  | .ok (), some tgt =>
    let init_state := InitialState.create tgt d.fNuPDG
    let xsl1 := xsl.SetLogE useLogE
    let job := GEVGDriver.CreateSplinesGenerators env init_state env.fEvGenList ⟨xsl1, []⟩
    .ok ⟨{ d with fUseSplines := true }, job.xsl, job.created⟩
  | _, _ => .error .invalidInitState

/-- The method `GEVGDriver::CreateXSecSumSpline`. -/
def GEVGDriver.CreateXSecSumSpline {W : Type} (env : Env W) (d : GEVGDriver)
    (xssl : XSecSplineList) (nk : Int) (Emin Emax : ℚ) (inlogE : Bool) :
    Except Fatal GEVGDriver :=
  if !d.fUseSplines then .error .noSplinesLoaded
  else if !(decide (Emin < Emax) && decide (Emin > 0) && decide (nk > 2)) then
    .error .badSplineRange
  else
    let logEmin : ℚ := if inlogE then env.Log Emin else 0
    let logEmax : ℚ := if inlogE then env.Log Emax else 0
    let dE : ℚ := if inlogE then (logEmax - logEmin) / (nk - 1) else (Emax - Emin) / (nk - 1)
    let p4 : TLorentzVector := ⟨0, 0, 0, 0⟩
    match (List.range nk.toNat).mapM (fun (i : Nat) =>
        let e : ℚ := if inlogE then env.Exp (logEmin + i * dE) else Emin + i * dE
        (d.XSecSum env xssl (p4.SetPxPyPzE 0 0 e e)).map (fun xs => (e, xs))) with
    | .ok knots => .ok { d with fXSecSumSpl := some ⟨knots⟩ }
    | .error f => .error f

/-! ## The driver as a state machine -/

/-- The public operations of the driver, and the insertion of an entry into
the process-wide cache by another of its clients. -/
inductive Op where
  | SetInitialState (nu_pdgc Z A : Int)
  | SetFilter (filter : InteractionFilter)
  | FilterUnphysical (on_off : Bool)
  | UseSplines
  | CreateSplines (useLogE : Bool)
  | XSecSum (nup4 : TLorentzVector)
  | CreateXSecSumSpline (nk : Int) (Emin Emax : ℚ) (inlogE : Bool)
  | GenerateEvent (nu4p : TLorentzVector)
  | cacheInsert (key : SplineKey) (spl : Spline)

/-- Driver, process-wide cache and world between two operations. -/
structure Sys (W : Type) where
  driver : GEVGDriver
  xsl : XSecSplineList
  world : W

/-- One operation; `none` when the operation aborts. -/
def Sys.step {W : Type} (env : Env W) (s : Sys W) : Op → Option (Sys W)
  | .SetInitialState nu_pdgc Z A =>
    match s.driver.SetInitialState env nu_pdgc Z A with
    | .ok d => some { s with driver := d }
    | .error _ => none
  | .SetFilter filter => some { s with driver := s.driver.SetFilter filter }
  | .FilterUnphysical on_off => some { s with driver := s.driver.FilterUnphysical on_off }
  | .UseSplines =>
    match s.driver.UseSplines env s.xsl with
    | .ok r => some { s with driver := r.driver }
    | .error _ => none
  | .CreateSplines useLogE =>
    match s.driver.CreateSplines env s.xsl useLogE with
    | .ok r => some { s with driver := r.driver, xsl := r.xsl }
    | .error _ => none
  | .XSecSum nup4 =>
    match s.driver.XSecSum env s.xsl nup4 with
    | .ok _ => some s
    | .error _ => none
  | .CreateXSecSumSpline nk Emin Emax inlogE =>
    match s.driver.CreateXSecSumSpline env s.xsl nk Emin Emax inlogE with
    | .ok d => some { s with driver := d }
    | .error _ => none
  | .GenerateEvent nu4p =>
    match s.driver.GenerateEvent env s.world nu4p with
    | some r =>
      match r.ret with
      | .ok _ => some { s with driver := r.driver, world := r.world }
      | .error _ => none
    | none => none
  | .cacheInsert key spl =>
    some { s with xsl := { s.xsl with fSplineMap := (key, spl) :: s.xsl.fSplineMap } }

/-- A sequence of operations, each starting where the previous one returned. -/
def Sys.run {W : Type} (env : Env W) : List Op → Sys W → Option (Sys W)
  | [], s => some s
  | op :: ops, s =>
    match s.step env op with
    | none => none
    | some s1 => Sys.run env ops s1

/-- A freshly constructed driver next to a cache and a world. -/
def Sys.fresh {W : Type} (nu0 : Int) (xsl : XSecSplineList) (w : W) : Sys W :=
  ⟨GEVGDriver.Initialize nu0, xsl, w⟩

/-- Every channel the registered generators produce for the driver's current
initial state has a cache entry. -/
def Sys.AllSplinesExist {W : Type} (env : Env W) (s : Sys W) : Prop :=
  ∀ tgt, s.driver.fNuclTarget = some tgt →
    ∀ evgen ∈ env.fEvGenList, ∀ ilst,
      evgen.CreateInteractionList (InitialState.create tgt s.driver.fNuPDG) = some ilst →
        ∀ interaction ∈ ilst, s.xsl.SplineExists evgen.CrossSectionAlg interaction = true

/-- The operation is a `SetInitialState`. -/
def Op.isSetInitialState : Op → Bool
  | .SetInitialState _ _ _ => true
  | _ => false

/-- Along the run of the sequence from `s`, `SetInitialState` is called only
while the use-splines flag is false. -/
def Sys.retargetsOnlyDirect {W : Type} (env : Env W) : List Op → Sys W → Bool
  | [], _ => true
  | op :: ops, s =>
    (!op.isSetInitialState || !s.driver.fUseSplines) &&
      match s.step env op with
      | none => true
      | some s1 => Sys.retargetsOnlyDirect env ops s1

/-- Every entry of `a` is an entry of `b`, with the same curve. -/
def XSecSplineList.Extends (a b : XSecSplineList) : Prop :=
  ∀ k spl, a.fSplineMap.lookup k = some spl → b.fSplineMap.lookup k = some spl

/-- What holds of the cache and of the `CreateSpline` calls made so far while
`CreateSplines` runs on the cache `xsl0`: entries are kept, every call was made
for a key without an entry at that moment, no key was created twice, and every
call added one entry. -/
def SplineJob.Sound (xsl0 : XSecSplineList) (job : SplineJob) : Prop :=
  xsl0.Extends job.xsl ∧
  (∀ c ∈ job.created, c.cache.fSplineMap.lookup c.key = none ∧
    xsl0.fSplineMap.lookup c.key = none ∧ job.xsl.fSplineMap.lookup c.key ≠ none ∧
    xsl0.Extends c.cache) ∧
  (job.created.map (fun c => c.key)).Nodup ∧
  job.xsl.fUseLogE = xsl0.fUseLogE ∧
  job.xsl.fSplineMap.length = xsl0.fSplineMap.length + job.created.length

/-- The channels of the generator list for an initial state all have a cache
entry for their generator's cross-section algorithm. -/
def AllChannelsCached {W : Type} (env : Env W) (xsl : XSecSplineList)
    (init_state : InitialState) : Prop :=
  ∀ evgen ∈ env.fEvGenList, ∀ ilst, evgen.CreateInteractionList init_state = some ilst →
    ∀ interaction ∈ ilst, xsl.SplineExists evgen.CrossSectionAlg interaction = true

/-! ## A small configuration used to evaluate the definitions -/

/-- Cross-section algorithm of the demonstration configuration: the cross
section of a channel is its process number. -/
def demoAlg : XSecAlgorithmI := ⟨"DemoXSec", fun i => (i.fProcInfo : ℚ)⟩

/-- A generator with three candidate interactions, two of them the same
channel. Its visitor marks a record unphysical while the world counter is
below 10. -/
def demoGen : EventGeneratorI Nat :=
  { Id := "DemoGen"
    CreateInteractionList := fun init => some [⟨init, 1⟩, ⟨init, 2⟩, ⟨init, 1⟩]
    CrossSectionAlg := demoAlg
    Emin := 0
    Emax := 100
    ProcessEventRecord := fun r w =>
      ({ r with fParticles := [14, 2212], fIsUnphysical := decide (w < 10) }, w + 1) }

/-- A generator that has no interaction list for any initial state. -/
def idleGen : EventGeneratorI Nat :=
  { Id := "IdleGen"
    CreateInteractionList := fun _ => none
    CrossSectionAlg := ⟨"IdleXSec", fun _ => 0⟩
    Emin := 1
    Emax := 50
    ProcessEventRecord := fun r w => (r, w) }

/-- The demonstration configuration over a counter world. The selector picks
the process named by the filter (process 1 without a filter, nothing for
filter 0); the chain resolves process 1 only; two regenerations are allowed. -/
def demoEnv : Env Nat :=
  { fEvGenList := [idleGen, demoGen]
    SelectInteraction := fun filter init w =>
      match filter with
      | none => (some ⟨⟨init, 1⟩, [], false⟩, w + 1)
      | some ⟨0⟩ => (none, w + 1)
      | some ⟨c + 1⟩ => (some ⟨⟨init, c + 1⟩, [], false⟩, w + 1)
    FindGenerator := fun i => if i.fProcInfo = 1 then some demoGen else none
    kRecursiveModeMaxDepth := 2
    IsNeutrino := fun c => c = 12 || c = 14 || c = 16
    IsAntiNeutrino := fun c => c = -12 || c = -14 || c = -16
    IsValidNucleus := fun t => decide (0 < t.Z) && decide (t.Z ≤ t.A)
    IsFreeNucleon := fun t => t.A = 1 && (t.Z = 0 || t.Z = 1)
    Evaluate := fun spl _ => (spl.knots.length : ℚ)
    BuildSpline := fun _ _ _ Emin Emax _ => ⟨[(Emin, 0), (Emax, 0)]⟩
    Log := fun x => x
    Exp := fun x => x }

/-- A driver configured for muon neutrinos on carbon. -/
def demoDriver : GEVGDriver :=
  { GEVGDriver.Initialize 0 with fNuPDG := 14, fNuclTarget := some ⟨6, 12⟩ }

/-- A probe 4-momentum of 1 GeV along z. -/
def demoP4 : TLorentzVector := ⟨0, 0, 1, 1⟩

/-- An empty cache. -/
def emptyCache : XSecSplineList := ⟨false, []⟩

/-! ## Driver: valid energy range -/

/-- Energy range `Range1D_t`. -/
structure Range1D_t where
  min : ℚ
  max : ℚ
deriving DecidableEq

/-- The generator loop of `ValidEnergyRange` (lines 543 to 553), started from
the range `E`. -/
def GEVGDriver.ValidEnergyRangeLoop {W : Type} (evgl : List (EventGeneratorI W))
    (E : Range1D_t) : Range1D_t :=
  evgl.foldl (fun E evgen =>
    let Emin := max (1 / 100) evgen.Emin
    let Emax := evgen.Emax
    ⟨min E.min Emin, max E.max Emax⟩) E

/-- The method `GEVGDriver::ValidEnergyRange`. -/
def GEVGDriver.ValidEnergyRange {W : Type} (env : Env W) (d : GEVGDriver) :
    Except Fatal Range1D_t :=
  match d.AssertIsValidInitState env, d.fNuclTarget with
  | .ok (), some _ =>
    let E := GEVGDriver.ValidEnergyRangeLoop env.fEvGenList ⟨9999, -9999⟩
    if E.min < E.max ∧ E.min ≥ 0 then .ok E else .error .badEnergyRange
  | _, _ => .error .invalidInitState

/-! ## Reachable channels -/

/-- Every (generator, interaction) pair of the non-null interaction lists the
registered generators produce for an initial state, in loop order. -/
def reachableChannels {W : Type} (env : Env W) (init_state : InitialState) :
    List (EventGeneratorI W × Interaction) :=
  (env.fEvGenList.map (fun evgen =>
    match evgen.CreateInteractionList init_state with
    | none => []
    | some ilst => ilst.map (fun i => (evgen, i)))).flatten

/-! ## Driver: the sum spline, with its `XSecSum` calls logged -/

/-- The knot energy number `i` as the interface describes it, over any field
with an exponential and a logarithm: linear spacing `Emin + i*(Emax-Emin)/(nk-1)`
or logarithmic spacing `exp(ln Emin + i*(ln Emax - ln Emin)/(nk-1))`. -/
def knotEnergyIn {K : Type} [Field K] (Exp Log : K → K) (nk : Int) (Emin Emax : K)
    (inlogE : Bool) (i : Nat) : K :=
  if inlogE then Exp (Log Emin + i * (Log Emax - Log Emin) / (nk - 1))
  else Emin + i * (Emax - Emin) / (nk - 1)

/-- The knot energy number `i` with the exponential and logarithm of the
configuration. -/
def knotEnergy {W : Type} (env : Env W) (nk : Int) (Emin Emax : ℚ) (inlogE : Bool)
    (i : Nat) : ℚ :=
  knotEnergyIn env.Exp env.Log nk Emin Emax inlogE i

/-- The arrays `E`, `xsec` filled so far (as knots), the 4-momenta `XSecSum`
was called with, and the abort if one of these calls aborted. -/
structure SumSplineScan where
  knots : List (ℚ × ℚ)
  sampled : List TLorentzVector
  abort : Option Fatal
deriving DecidableEq

/-- The sampling loop of `CreateXSecSumSpline` (lines 378 to 387) over the
indices still to visit. -/
def GEVGDriver.CreateXSecSumSplineLoop {W : Type} (env : Env W) (d : GEVGDriver)
    (xssl : XSecSplineList) (inlogE : Bool) (Emin logEmin dE : ℚ) :
    List Nat → SumSplineScan → SumSplineScan
  | [], scan => scan
  | i :: rest, scan =>
    let e : ℚ := if inlogE then env.Exp (logEmin + i * dE) else Emin + i * dE
    let p4 := (⟨0, 0, 0, 0⟩ : TLorentzVector).SetPxPyPzE 0 0 e e
    match d.XSecSum env xssl p4 with
    | .ok xs =>
      CreateXSecSumSplineLoop env d xssl inlogE Emin logEmin dE rest
        ⟨scan.knots ++ [(e, xs)], scan.sampled ++ [p4], none⟩
    | .error f => ⟨scan.knots, scan.sampled ++ [p4], some f⟩

/-- What a `CreateXSecSumSpline` call leaves behind: the driver, the 4-momenta
of the `XSecSum` calls it made, and whether it returned or aborted. -/
structure SumSplineRun where
  driver : GEVGDriver
  sampled : List TLorentzVector
  ret : Except Fatal Unit

/-- The method `GEVGDriver::CreateXSecSumSpline`, with its `XSecSum` calls
logged and the driver kept on an abort. -/
def GEVGDriver.CreateXSecSumSplineRun {W : Type} (env : Env W) (d : GEVGDriver)
    (xssl : XSecSplineList) (nk : Int) (Emin Emax : ℚ) (inlogE : Bool) : SumSplineRun :=
  if !d.fUseSplines then ⟨d, [], .error .noSplinesLoaded⟩
  else if !(decide (Emin < Emax) && decide (Emin > 0) && decide (nk > 2)) then
    ⟨d, [], .error .badSplineRange⟩
  else
    let logEmin : ℚ := if inlogE then env.Log Emin else 0
    let logEmax : ℚ := if inlogE then env.Log Emax else 0
    let dE : ℚ := if inlogE then (logEmax - logEmin) / (nk - 1) else (Emax - Emin) / (nk - 1)
    let scan := GEVGDriver.CreateXSecSumSplineLoop env d xssl inlogE Emin logEmin dE
      (List.range nk.toNat) ⟨[], [], none⟩
    match scan.abort with
    | none => ⟨{ d with fXSecSumSpl := some ⟨scan.knots⟩ }, scan.sampled, .ok ()⟩
    | some f => ⟨d, scan.sampled, .error f⟩

/-! ## More of the demonstration configuration -/

/-- The demonstration configuration with a piecewise-linear stand-in for the
exponential and its inverse for the logarithm. -/
def kinkEnv : Env Nat :=
  { demoEnv with
    Exp := fun x => if x ≤ 1 then x else 2 * x - 1
    Log := fun y => if y ≤ 1 then y else (y + 1) / 2 }

/-- A configuration with one generator valid between 1 GeV and 1 GeV only. -/
def pointEnv : Env Nat :=
  { demoEnv with fEvGenList := [{ demoGen with Emin := 1, Emax := 1 }] }

/-! ## GCylindTH1Flux (FluxDrivers/GCylindTH1Flux.cxx) -/

/-- ROOT histogram, as far as the flux driver observes it: the number of bins,
the low edge and width of a bin, the bin an energy falls in and a bin's
content. The class belongs to ROOT, so its methods are fields. -/
structure TH1D where
  GetNbinsX : Nat
  GetBinLowEdge : Nat → ℚ
  GetBinWidth : Nat → ℚ
  FindBin : ℚ → Nat
  GetBinContent : Nat → ℚ

/-- Bin-wise sum, `TH1D::Add(const TH1 *)` with the default weight 1. -/
def TH1D.Add (h o : TH1D) : TH1D :=
  { h with GetBinContent := fun b => h.GetBinContent b + o.GetBinContent b }

/-- The list of flux-particle codes, a `vector<int>`. `PDG/PDGCodeList.h` is not among the
sources, so its `push_back` is a parameter of `AddEnergySpectrum`. -/
abbrev PDGCodeList := List Int

/-- The members of `GCylindTH1Flux` that `Initialize`, `AddEnergySpectrum`, `AddAllFluxes`
and `SelectNeutrino` read or write. The beam geometry (`fDirVec`, `fBeamSpot`, `fRt`,
`fRtDep`, `fgX4`) is left out. -/
structure GCylindTH1Flux where
  fMaxEv : ℚ
  fPdgCList : PDGCodeList
  fTotSpectrum : Option TH1D
  fSpectrum : List TH1D
  fgPdgC : Int
  fgP4 : TLorentzVector

/-- `GCylindTH1Flux::ResetSelection` (lines 138-144). -/
def GCylindTH1Flux.ResetSelection (flux : GCylindTH1Flux) : GCylindTH1Flux :=
  { flux with fgPdgC := 0, fgP4 := ⟨0, 0, 0, 0⟩ }

/-- `GCylindTH1Flux::Initialize` (lines 121-136), the whole of the constructor: an empty
code list, no combined spectrum; `fSpectrum` is default-constructed, hence empty. -/
def GCylindTH1Flux.Initialize : GCylindTH1Flux :=
  GCylindTH1Flux.ResetSelection
    { fMaxEv := 0, fPdgCList := [], fTotSpectrum := none, fSpectrum := [],
      fgPdgC := 0, fgP4 := ⟨0, 0, 0, 0⟩ }

/-- `GCylindTH1Flux::AddAllFluxes` (lines 214-231): the combined spectrum is a copy of the
first stored spectrum to which the others are added in order. With no stored spectrum the
old histogram is deleted and nothing replaces it. -/
def GCylindTH1Flux.AddAllFluxes (flux : GCylindTH1Flux) : GCylindTH1Flux :=
  match flux.fSpectrum with
  | [] => { flux with fTotSpectrum := none }
  | spectrum :: rest => { flux with fTotSpectrum := some (rest.foldl TH1D.Add spectrum) }

/-- `GCylindTH1Flux::AddEnergySpectrum` (lines 184-201). The code is pushed on the code list
first; the spectrum is stored when the list then holds the code exactly once, and ignored
(with a warning) otherwise. -/
def GCylindTH1Flux.AddEnergySpectrum (push_back : PDGCodeList → Int → PDGCodeList)
    (flux : GCylindTH1Flux) (nu_pdgc : Int) (spectrum : TH1D) : GCylindTH1Flux :=
  let flux1 := { flux with fPdgCList := push_back flux.fPdgCList nu_pdgc }
  let accepted := decide (flux1.fPdgCList.count nu_pdgc = 1)
  if !accepted then
    flux1
  else
    let flux2 := { flux1 with fSpectrum := flux1.fSpectrum ++ [spectrum] }
    let nb := spectrum.GetNbinsX
    let max := spectrum.GetBinLowEdge nb + spectrum.GetBinWidth nb
    GCylindTH1Flux.AddAllFluxes { flux2 with fMaxEv := Max.max flux2.fMaxEv max }

/-- What stops `SelectNeutrino` short of returning an index: the `assert(false)` of line 262,
or an access to the local array `fraction[n]` that C++ leaves undefined (a write past its
end in the filling loop, a read of an entry the filling loop never wrote). -/
inductive FluxFault where
  | couldNotSelect
  | fractionOverrun
  | fractionUninitialised
  deriving DecidableEq, Repr

/-- Filling loop of `SelectNeutrino` (lines 240-245): the `inu`-th stored spectrum writes its
bin content at `Ev` to `fraction[inu]`. An entry never written is `none`. -/
def GCylindTH1Flux.SelectNeutrinoFill (Ev : ℚ) :
    List TH1D → Nat → List (Option ℚ) → Except FluxFault (List (Option ℚ))
  | [], _, fraction => .ok fraction
  | spectrum :: rest, inu, fraction =>
      if inu < fraction.length then
        GCylindTH1Flux.SelectNeutrinoFill Ev rest (inu + 1)
          (fraction.set inu (some (spectrum.GetBinContent (spectrum.FindBin Ev))))
      else .error .fractionOverrun

/-- Summing loop of `SelectNeutrino` (lines 247-252): every entry is replaced by the running
sum; the result is the array of running sums and the total. -/
def GCylindTH1Flux.SelectNeutrinoSum :
    List (Option ℚ) → ℚ → Except FluxFault (List ℚ × ℚ)
  | [], sum => .ok ([], sum)
  | none :: _, _ => .error .fractionUninitialised
  | some f :: rest, sum =>
      match GCylindTH1Flux.SelectNeutrinoSum rest (sum + f) with
      | .ok (cumul, total) => .ok ((sum + f) :: cumul, total)
      | .error e => .error e

/-- Selection loop of `SelectNeutrino` (line 259): the first index whose running sum
exceeds `R`. -/
def GCylindTH1Flux.SelectNeutrinoScan (R : ℚ) : List ℚ → Nat → Option Nat
  | [], _ => none
  | c :: rest, inu =>
      if R < c then some inu else GCylindTH1Flux.SelectNeutrinoScan R rest (inu + 1)

/-- `GCylindTH1Flux::SelectNeutrino` (lines 233-265). `rndm` is the value drawn from
`RandomGen::Random2().Rndm()`. The array `fraction` has one entry per listed code. -/
def GCylindTH1Flux.SelectNeutrino (flux : GCylindTH1Flux) (Ev rndm : ℚ) :
    Except FluxFault Nat :=
  let n := flux.fPdgCList.length
  match GCylindTH1Flux.SelectNeutrinoFill Ev flux.fSpectrum 0 (List.replicate n none) with
  | .error e => .error e
  | .ok fraction =>
    match GCylindTH1Flux.SelectNeutrinoSum fraction 0 with
    | .error e => .error e
    | .ok (cumul, sum) =>
      let R := sum * rndm
      match GCylindTH1Flux.SelectNeutrinoScan R cumul 0 with
      | some inu => .ok inu
      | none => .error .couldNotSelect

/-- The per-species bin contents at `Ev`, in the order of the stored spectra. -/
def GCylindTH1Flux.binContents (flux : GCylindTH1Flux) (Ev : ℚ) : List ℚ :=
  flux.fSpectrum.map (fun spectrum => spectrum.GetBinContent (spectrum.FindBin Ev))

/-- A `push_back` that always appends, as `std::vector<int>::push_back` does. -/
def vectorPushBack : PDGCodeList → Int → PDGCodeList :=
  fun l c => l ++ [c]

/-- A `push_back` that appends a code the list does not hold yet and rejects a repeated
one. -/
def uniquePushBack : PDGCodeList → Int → PDGCodeList :=
  fun l c => if l.contains c then l else l ++ [c]

/-- A histogram on [0, 10) with one bin per unit of energy, every bin holding `c`. -/
def flatSpectrum (c : ℚ) : TH1D :=
  { GetNbinsX := 10
    GetBinLowEdge := fun b => (b : ℚ) - 1
    GetBinWidth := fun _ => 1
    FindBin := fun x => if x < 0 then 0 else if 10 ≤ x then 11 else (Int.toNat ⌊x⌋) + 1
    GetBinContent := fun b => if 1 ≤ b ∧ b ≤ 10 then c else 0 }

/-- A flux of three species with bin contents 2, 0 and 6 everywhere on [0, 10). -/
def demoFlux : GCylindTH1Flux :=
  GCylindTH1Flux.AddEnergySpectrum vectorPushBack
    (GCylindTH1Flux.AddEnergySpectrum vectorPushBack
      (GCylindTH1Flux.AddEnergySpectrum vectorPushBack GCylindTH1Flux.Initialize
        14 (flatSpectrum 2))
      (-14) (flatSpectrum 0))
    12 (flatSpectrum 6)

/-! ## NuXSecData (validation/NuXSec/NuXSecData.cxx) -/

/-- One entry of the `nuxsnt` tree: the branches that `NuXSecData::Read` binds
(lines 54-61). -/
structure NuXSecDataEntry where
  fDataset : String
  fCitation : String
  fE : ℚ
  fEmin : ℚ
  fEmax : ℚ
  fXSec : ℚ
  fXSecErrP : ℚ
  fXSecErrM : ℚ

/-- The arguments of one `utils::style::Format` call: line colour, style and width, marker
colour, style and size. -/
structure GraphFormat where
  lcol : Int
  lsty : Int
  lwid : Int
  mcol : Int
  msty : Int
  msiz : ℚ

/-- ROOT graph with asymmetric errors, as `NuXSecData::Data` builds it: the point arrays
copied by the constructor, the title, and the format applied to it. -/
structure TGraphAsymmErrors where
  fNpoints : Nat
  fX : List ℚ
  fY : List ℚ
  fEXlow : List ℚ
  fEXhigh : List ℚ
  fEYlow : List ℚ
  fEYhigh : List ℚ
  fTitle : String
  fFormat : Option GraphFormat

/-- The members of `NuXSecData` that `Data` reads: the tree (null until `Read` succeeds),
as the list of its entries. -/
structure NuXSecData where
  fNuXSecDataTree : Option (List NuXSecDataEntry)

/-- `NuXSecData::Init` (lines 112-127). -/
def NuXSecData.Init : NuXSecData :=
  { fNuXSecDataTree := none }

/-- ROOT line style `kSolid`. -/
def kSolid : Int := 1

/-- Modelled from the spec: `utils::str::Split` (Utils/StringUtils is not among the
sources), on the characters of the string. The input is cut at every delimiter character,
so n delimiter-separated keys give n parts. -/
def SplitChars (delimiter : List Char) : List Char → List (List Char)
  | [] => [[]]
  | c :: rest =>
      if c ∈ delimiter then [] :: SplitChars delimiter rest
      else
        match SplitChars delimiter rest with
        | [] => [[c]]
        | part :: parts => (c :: part) :: parts

/-- Modelled from the spec: `utils::str::Split(input, delimiter)` (Utils/StringUtils is not
among the sources): the parts of `input` between delimiter characters. -/
def Split (input delimiter : String) : List String :=
  (SplitChars delimiter.data input.data).map String.mk

/-- Body of the dataset loop of `NuXSecData::Data` (lines 76-105) for the key `key` at
position `idataset`: `npoints` is the number of entries the selection `dataset=="key"`
keeps, the arrays are filled from the entries whose dataset name compares equal to the key,
the label comes from the first of them. The tables `kDataPointStyle` and `kDataPointColor`
are declared outside the sources and are parameters. -/
def NuXSecData.DataGraph (kDataPointStyle kDataPointColor : Nat → Int)
    (tree : List NuXSecDataEntry) (key : String) (idataset : Nat) : TGraphAsymmErrors :=
  let npoints := (tree.filter (fun e => decide (e.fDataset = key))).length
  let sel := tree.filter (fun e => decide (e.fDataset = key))
  let label :=
    match sel with
    | [] => ""
    | e :: _ => e.fDataset ++ " [" ++ e.fCitation ++ "]"
  let x := sel.map (fun e => e.fE)
  let dxl := sel.map (fun e => if e.fEmin > 0 then Max.max 0 (e.fE - e.fEmin) else 0)
  let dxh := sel.map (fun e => if e.fEmin > 0 then Max.max 0 (e.fEmax - e.fE) else 0)
  let y := sel.map (fun e => e.fXSec)
  let dyl := sel.map (fun e => e.fXSecErrM)
  let dyh := sel.map (fun e => e.fXSecErrP)
  let sty := kDataPointStyle idataset
  let col := kDataPointColor idataset
  { fNpoints := npoints
    fX := x.take npoints
    fY := y.take npoints
    fEXlow := dxl.take npoints
    fEXhigh := dxh.take npoints
    fEYlow := dyl.take npoints
    fEYhigh := dyh.take npoints
    fTitle := label
    fFormat := some ⟨col, kSolid, 1, col, sty, 3 / 2⟩ }

/-- `NuXSecData::Data` (lines 66-110). A null graph pointer is `none`. The vector `data` is
constructed with `ndatasets` entries (line 72), which are null pointers, and every graph is
added with `push_back` (line 106). The energy window is not used by the body. The result is
`none` when the tree pointer is null. -/
def NuXSecData.Data (kDataPointStyle kDataPointColor : Nat → Int) (self : NuXSecData)
    (keys : String) (_Emin _Emax : ℚ) : Option (List (Option TGraphAsymmErrors)) :=
  let keyv := Split keys ";"
  let ndatasets := keyv.length
  let data : List (Option TGraphAsymmErrors) := List.replicate ndatasets none
  match self.fNuXSecDataTree with
  | none => none
  | some tree =>
    some ((List.range ndatasets).foldl
      (fun data idataset =>
        data ++ [some (NuXSecData.DataGraph kDataPointStyle kDataPointColor tree
          (keyv.getD idataset "") idataset)])
      data)

/-- The key string made of the given dataset keys, separated by ';'. -/
def joinKeys : List String → String
  | [] => ""
  | [key] => key
  | key :: rest => key ++ ";" ++ joinKeys rest

/-- The data points of a graph as a list of (x, y, exl, exh, eyl, eyh). -/
def TGraphAsymmErrors.points (gr : TGraphAsymmErrors) : List (ℚ × ℚ × ℚ × ℚ × ℚ × ℚ) :=
  List.zip gr.fX (List.zip gr.fY (List.zip gr.fEXlow
    (List.zip gr.fEXhigh (List.zip gr.fEYlow gr.fEYhigh))))

/-- The data point that an entry of the tree contributes (lines 92-97). -/
def NuXSecDataEntry.point (e : NuXSecDataEntry) : ℚ × ℚ × ℚ × ℚ × ℚ × ℚ :=
  (e.fE, e.fXSec,
    (if e.fEmin > 0 then Max.max 0 (e.fE - e.fEmin) else 0),
    (if e.fEmin > 0 then Max.max 0 (e.fEmax - e.fE) else 0),
    e.fXSecErrM, e.fXSecErrP)

/-- A tree of three entries in two datasets. -/
def demoTree : List NuXSecDataEntry :=
  [ ⟨"a", "ref1", 1, 1 / 2, 2, 10, 1, 1⟩,
    ⟨"b", "ref2", 2, 0, 0, 20, 2, 3⟩,
    ⟨"a", "ref1", 3, 2, 5, 30, 4, 2⟩ ]

/-- A data holder whose tree is `demoTree`. -/
def demoData : NuXSecData :=
  { fNuXSecDataTree := some demoTree }

/-- Marker styles 20, 21, ... by position. -/
def demoStyle : Nat → Int :=
  fun i => 20 + i

/-- Colours 1, 2, ... by position. -/
def demoColor : Nat → Int :=
  fun i => 1 + i

/-- The running sums `sum + f_0`, `sum + f_0 + f_1`, ... of a list, started from `sum`. -/
def runningSums : ℚ → List ℚ → List ℚ
  | _, [] => []
  | sum, f :: rest => (sum + f) :: runningSums (sum + f) rest

end Genie

namespace Genie
open GEVGDriver

/-! ## Event generation: one attempt -/

theorem attemptOnce_congr {W : Type} (env : Env W) (d d1 : GEVGDriver) (nu4p : TLorentzVector)
    (w : W) (ht : d1.fNuclTarget = d.fNuclTarget) (hp : d1.fNuPDG = d.fNuPDG)
    (hf : d1.fFilter = d.fFilter) :
    attemptOnce env d1 nu4p w = attemptOnce env d nu4p w := by
  simp only [attemptOnce, GEVGDriver.IsValidInitState, ht, hp, hf]

theorem nthAttempt_congr {W : Type} (env : Env W) (d d1 : GEVGDriver) (nu4p : TLorentzVector)
    (ht : d1.fNuclTarget = d.fNuclTarget) (hp : d1.fNuPDG = d.fNuPDG)
    (hf : d1.fFilter = d.fFilter) (k : Nat) (w : W) :
    nthAttempt env d1 nu4p k w = nthAttempt env d nu4p k w := by
  induction k generalizing w with
  | zero => simp only [nthAttempt, attemptOnce_congr env d d1 nu4p w ht hp hf]
  | succ k ih =>
    simp only [nthAttempt, attemptOnce_congr env d d1 nu4p w ht hp hf]
    cases attemptOnce env d nu4p w with
    | none => rfl
    | some out => exact ih out.2

/-- An attempt that fails before construction aborts the call at once. -/
theorem GenerateEventFuel_attempt_none {W : Type} (env : Env W) (nu4p : TLorentzVector)
    (d : GEVGDriver) (w : W) (h : attemptOnce env d nu4p w = none) :
    ∃ r f, (∀ n, GenerateEventFuel env nu4p (n + 1) d w = some r) ∧ r.ret = .error f ∧
      f ≠ .recursiveModeMaxDepth ∧ processCount r.calls = 0 ∧ selectCount r.calls ≤ 1 ∧
      r.driver.fNRecLevel = d.fNRecLevel ∧
      r.driver = { d with fCurrentRecord := r.driver.fCurrentRecord } ∧
      (d.IsValidInitState env = true → selectCount r.calls = 1) := by
  unfold attemptOnce at h
  cases hv : d.IsValidInitState env
  · refine ⟨⟨d, w, [], .error .invalidInitState⟩, _, fun n => ?_, rfl, by decide, rfl,
      by simp [selectCount], rfl, rfl, fun h => by cases h⟩
    rw [GenerateEventFuel]
    simp only [AssertIsValidInitState, hv]
    rfl
  · rw [hv] at h
    simp only [if_true] at h
    rcases Option.eq_none_or_eq_some d.fNuclTarget with ht | ⟨tgt, ht⟩
    · refine ⟨⟨d, w, [], .error .invalidInitState⟩, _, fun n => ?_, rfl, by decide, rfl,
        by simp [selectCount], rfl, rfl,
        fun _ => by simp [IsValidInitState, ht] at hv⟩
      rw [GenerateEventFuel]
      simp only [AssertIsValidInitState, hv, ht, ↓reduceIte]
    · rw [ht] at h
      simp only at h
      rcases hs : env.SelectInteraction d.fFilter
          ((InitialState.create tgt d.fNuPDG).SetProbeP4 nu4p) w with ⟨_ | rec0, w1⟩
      · refine ⟨⟨{ d with fCurrentRecord := none }, w1,
          [.select ((InitialState.create tgt d.fNuPDG).SetProbeP4 nu4p)],
          .error .noInteractionSelected⟩, _, fun n => ?_, rfl, by decide, rfl,
          by simp [selectCount], rfl, rfl, fun _ => by simp [selectCount]⟩
        rw [GenerateEventFuel]
        simp only [AssertIsValidInitState, hv, ht, hs, ↓reduceIte]
      · rw [hs] at h
        simp only at h
        cases hg : env.FindGenerator rec0.GetInteraction with
        | none =>
          refine ⟨⟨{ d with fCurrentRecord := some rec0 }, w1,
            [.select ((InitialState.create tgt d.fNuPDG).SetProbeP4 nu4p),
              .find rec0.GetInteraction],
            .error .noEventGenerator⟩, _, fun n => ?_, rfl, by decide, rfl,
            by simp [selectCount], rfl, rfl, fun _ => by simp [selectCount]⟩
          rw [GenerateEventFuel]
          simp only [AssertIsValidInitState, hv, ht, hs, hg, ↓reduceIte]
        | some evgen =>
          rw [hg] at h
          simp at h

/-- An attempt that builds a record: what the call does next. -/
theorem GenerateEventFuel_attempt_some {W : Type} (env : Env W) (nu4p : TLorentzVector)
    (d : GEVGDriver) (w : W) (out : EventRecord × W)
    (h : attemptOnce env d nu4p w = some out) :
    ∃ calls, selectCount calls = 1 ∧ processCount calls = 1 ∧
      ∀ n, GenerateEventFuel env nu4p (n + 1) d w =
        if !d.fFilterUnphysical then
          some ⟨{ d with fCurrentRecord := some out.1 }, out.2, calls, .ok out.1⟩
        else if out.1.IsUnphysical then
          if d.fNRecLevel + 1 ≤ env.kRecursiveModeMaxDepth then
            (GenerateEventFuel env nu4p n
              { d with fCurrentRecord := none, fNRecLevel := d.fNRecLevel + 1 } out.2).map
              (fun r => { r with calls := calls ++ r.calls })
          else
            some ⟨{ d with fCurrentRecord := none, fNRecLevel := d.fNRecLevel + 1 }, out.2,
              calls, .error .recursiveModeMaxDepth⟩
        else some ⟨{ d with fCurrentRecord := some out.1, fNRecLevel := 0 }, out.2, calls,
          .ok out.1⟩ := by
  unfold attemptOnce at h
  cases hv : d.IsValidInitState env
  · rw [hv] at h
    simp at h
  · rw [hv] at h
    simp only [if_true] at h
    cases ht : d.fNuclTarget with
    | none =>
      rw [ht] at h
      simp at h
    | some tgt =>
      rw [ht] at h
      simp only at h
      rcases hs : env.SelectInteraction d.fFilter
          ((InitialState.create tgt d.fNuPDG).SetProbeP4 nu4p) w with ⟨_ | rec0, w1⟩
      · rw [hs] at h
        simp at h
      · rw [hs] at h
        simp only at h
        cases hg : env.FindGenerator rec0.GetInteraction with
        | none =>
          rw [hg] at h
          simp at h
        | some evgen =>
          rw [hg] at h
          simp only [Option.some.injEq] at h
          subst h
          refine ⟨[Call.select ((InitialState.create tgt d.fNuPDG).SetProbeP4 nu4p),
            .find rec0.GetInteraction, .process evgen.Id rec0],
            by simp [selectCount], by simp [processCount], fun n => ?_⟩
          rw [GenerateEventFuel]
          simp only [AssertIsValidInitState, hv, ht, hs, hg, ↓reduceIte]

/-! ## Event generation: termination -/

/-- Enough fuel always produces a result: the recursion stops by itself. -/
theorem GenerateEventFuel_total {W : Type} (env : Env W) (nu4p : TLorentzVector) (n : Nat) :
    ∀ (d : GEVGDriver) (w : W), env.kRecursiveModeMaxDepth + 1 - d.fNRecLevel < n →
      ∃ r, GenerateEventFuel env nu4p n d w = some r := by
  induction n with
  | zero => intro d w h; omega
  | succ n ih =>
    intro d w h
    cases ha : attemptOnce env d nu4p w with
    | none =>
      obtain ⟨r, _, hr, _⟩ := GenerateEventFuel_attempt_none env nu4p d w ha
      exact ⟨r, hr n⟩
    | some out =>
      obtain ⟨calls, _, _, hr⟩ := GenerateEventFuel_attempt_some env nu4p d w out ha
      rw [hr]
      by_cases hf : (!d.fFilterUnphysical) = true
      · rw [if_pos hf]; exact ⟨_, rfl⟩
      · rw [if_neg hf]
        by_cases hu : out.1.IsUnphysical = true
        · rw [if_pos hu]
          by_cases hl : d.fNRecLevel + 1 ≤ env.kRecursiveModeMaxDepth
          · rw [if_pos hl]
            obtain ⟨r1, hr1⟩ := ih { d with fCurrentRecord := none, fNRecLevel := d.fNRecLevel + 1 }
              out.2 (by simp only; omega)
            rw [hr1]
            exact ⟨_, rfl⟩
          · rw [if_neg hl]; exact ⟨_, rfl⟩
        · rw [if_neg hu]; exact ⟨_, rfl⟩

/-- More fuel does not change a result. -/
theorem GenerateEventFuel_mono {W : Type} (env : Env W) (nu4p : TLorentzVector) (n : Nat) :
    ∀ (d : GEVGDriver) (w : W) (r : GenResult W), GenerateEventFuel env nu4p n d w = some r →
      ∀ m, n ≤ m → GenerateEventFuel env nu4p m d w = some r := by
  induction n with
  | zero => intro d w r h; simp [GenerateEventFuel] at h
  | succ n ih =>
    intro d w r h m hm
    obtain ⟨m, rfl⟩ : ∃ k, m = k + 1 := ⟨m - 1, by omega⟩
    cases ha : attemptOnce env d nu4p w with
    | none =>
      obtain ⟨r1, _, hr1, _⟩ := GenerateEventFuel_attempt_none env nu4p d w ha
      rw [hr1 n] at h
      rw [hr1 m, h]
    | some out =>
      obtain ⟨calls, _, _, hr⟩ := GenerateEventFuel_attempt_some env nu4p d w out ha
      rw [hr n] at h
      rw [hr m]
      by_cases hf : (!d.fFilterUnphysical) = true
      · rw [if_pos hf] at h ⊢; exact h
      · rw [if_neg hf] at h ⊢
        by_cases hu : out.1.IsUnphysical = true
        · rw [if_pos hu] at h ⊢
          by_cases hl : d.fNRecLevel + 1 ≤ env.kRecursiveModeMaxDepth
          · rw [if_pos hl] at h ⊢
            cases hr1 : GenerateEventFuel env nu4p n
                { d with fCurrentRecord := none, fNRecLevel := d.fNRecLevel + 1 } out.2 with
            | none => rw [hr1] at h; simp at h
            | some r1 =>
              rw [hr1] at h
              rw [ih _ _ r1 hr1 m (by omega)]
              exact h
          · rw [if_neg hl] at h ⊢; exact h
        · rw [if_neg hu] at h ⊢; exact h

/-! ## Event generation: filtering and the retry budget -/

/-- With filtering on, an attempt that builds a record either returns it
(physical), regenerates (unphysical, depth left) or aborts. -/
theorem GenerateEventFuel_attempt_filtered {W : Type} (env : Env W) (nu4p : TLorentzVector)
    (d : GEVGDriver) (w : W) (out : EventRecord × W)
    (hf : d.fFilterUnphysical = true) (h : attemptOnce env d nu4p w = some out) :
    ∃ calls, selectCount calls = 1 ∧ processCount calls = 1 ∧
      ∀ n, GenerateEventFuel env nu4p (n + 1) d w =
        if out.1.IsUnphysical then
          if d.fNRecLevel + 1 ≤ env.kRecursiveModeMaxDepth then
            (GenerateEventFuel env nu4p n
              { d with fCurrentRecord := none, fNRecLevel := d.fNRecLevel + 1 } out.2).map
              (fun r => { r with calls := calls ++ r.calls })
          else
            some ⟨{ d with fCurrentRecord := none, fNRecLevel := d.fNRecLevel + 1 }, out.2,
              calls, .error .recursiveModeMaxDepth⟩
        else some ⟨{ d with fCurrentRecord := some out.1, fNRecLevel := 0 }, out.2, calls,
          .ok out.1⟩ := by
  obtain ⟨calls, h1, h2, hr⟩ := GenerateEventFuel_attempt_some env nu4p d w out h
  have hnf : ¬ ((!d.fFilterUnphysical) = true) := by simp [hf]
  refine ⟨calls, h1, h2, fun n => ?_⟩
  rw [hr n, if_neg hnf]

/-- With filtering on, a returned record is never flagged unphysical. -/
theorem GenerateEventFuel_physical {W : Type} (env : Env W) (nu4p : TLorentzVector) (n : Nat) :
    ∀ (d : GEVGDriver) (w : W) (r : GenResult W), d.fFilterUnphysical = true →
      GenerateEventFuel env nu4p n d w = some r →
        ∀ rec, r.ret = .ok rec → rec.IsUnphysical = false := by
  induction n with
  | zero => intro d w r _ h; simp [GenerateEventFuel] at h
  | succ n ih =>
    intro d w r hf h rec hrec
    cases ha : attemptOnce env d nu4p w with
    | none =>
      obtain ⟨r1, f, hr1, hret, _⟩ := GenerateEventFuel_attempt_none env nu4p d w ha
      rw [hr1 n] at h
      cases h
      rw [hret] at hrec
      cases hrec
    | some out =>
      obtain ⟨calls, _, _, hr⟩ := GenerateEventFuel_attempt_filtered env nu4p d w out hf ha
      rw [hr n] at h
      by_cases hu : out.1.IsUnphysical = true
      · rw [if_pos hu] at h
        by_cases hl : d.fNRecLevel + 1 ≤ env.kRecursiveModeMaxDepth
        · rw [if_pos hl] at h
          cases hr1 : GenerateEventFuel env nu4p n
              { d with fCurrentRecord := none, fNRecLevel := d.fNRecLevel + 1 } out.2 with
          | none => rw [hr1] at h; simp at h
          | some r1 =>
            rw [hr1] at h
            simp only [Option.map_some', Option.some.injEq] at h
            subst h
            exact ih _ _ r1 (by exact hf) hr1 rec hrec
        · rw [if_neg hl] at h
          cases h
          cases hrec
      · rw [if_neg hu] at h
        cases h
        cases hrec
        simpa using hu

theorem nthAttempt_succ_of_some {W : Type} (env : Env W) (d : GEVGDriver)
    (nu4p : TLorentzVector) (w : W) (out : EventRecord × W)
    (h : attemptOnce env d nu4p w = some out) (k : Nat) :
    nthAttempt env d nu4p (k + 1) w = nthAttempt env d nu4p k out.2 := by
  simp only [nthAttempt, h]

theorem unphysicalAt_zero {W : Type} (env : Env W) (d : GEVGDriver)
    (nu4p : TLorentzVector) (w : W) (out : EventRecord × W)
    (h : attemptOnce env d nu4p w = some out) :
    unphysicalAt env d nu4p w 0 ↔ out.1.IsUnphysical = true := by
  simp only [unphysicalAt, nthAttempt, h, Option.some.injEq, exists_eq_left']

theorem unphysicalAt_succ {W : Type} (env : Env W) (d d1 : GEVGDriver)
    (nu4p : TLorentzVector) (w : W) (out : EventRecord × W)
    (h : attemptOnce env d nu4p w = some out)
    (ht : d1.fNuclTarget = d.fNuclTarget) (hp : d1.fNuPDG = d.fNuPDG)
    (hf : d1.fFilter = d.fFilter) (k : Nat) :
    unphysicalAt env d nu4p w (k + 1) ↔ unphysicalAt env d1 nu4p out.2 k := by
  simp only [unphysicalAt, nthAttempt_succ_of_some env d nu4p w out h,
    nthAttempt_congr env d d1 nu4p ht hp hf]

theorem not_unphysicalAt_zero_of_none {W : Type} (env : Env W) (d : GEVGDriver)
    (nu4p : TLorentzVector) (w : W) (h : attemptOnce env d nu4p w = none) :
    ¬ unphysicalAt env d nu4p w 0 := by
  simp [unphysicalAt, nthAttempt, h]

theorem selectCount_append (xs ys : List Call) :
    selectCount (xs ++ ys) = selectCount xs + selectCount ys := by
  simp only [selectCount, List.countP_append]

theorem processCount_append (xs ys : List Call) :
    processCount (xs ++ ys) = processCount xs + processCount ys := by
  simp only [processCount, List.countP_append]

/-- The bounded-retry behaviour from an arbitrary recursion level: with `B`
regenerations left, the call makes at most `B + 1` attempts, returns the first
physical one, and aborts on depth exactly when all `B + 1` are unphysical. -/
theorem GenerateEventFuel_budget {W : Type} (env : Env W) (nu4p : TLorentzVector) (n : Nat) :
    ∀ (d : GEVGDriver) (w : W), d.fFilterUnphysical = true →
      d.fNRecLevel ≤ env.kRecursiveModeMaxDepth →
      env.kRecursiveModeMaxDepth - d.fNRecLevel < n →
      ∃ r, GenerateEventFuel env nu4p n d w = some r ∧
        selectCount r.calls ≤ env.kRecursiveModeMaxDepth - d.fNRecLevel + 1 ∧
        (∀ k out, k ≤ env.kRecursiveModeMaxDepth - d.fNRecLevel →
          (∀ j, j < k → unphysicalAt env d nu4p w j) →
          nthAttempt env d nu4p k w = some out → out.1.IsUnphysical = false →
            r.ret = .ok out.1 ∧ selectCount r.calls = k + 1 ∧ r.driver.fNRecLevel = 0) ∧
        (r.ret = .error .recursiveModeMaxDepth ↔
          ∀ k, k ≤ env.kRecursiveModeMaxDepth - d.fNRecLevel → unphysicalAt env d nu4p w k) ∧
        (∀ f, r.ret = .error f → f ≠ .recursiveModeMaxDepth →
          ∃ k, k ≤ env.kRecursiveModeMaxDepth - d.fNRecLevel ∧
            nthAttempt env d nu4p k w = none ∧ ∀ j, j < k → unphysicalAt env d nu4p w j) := by
  induction n with
  | zero => intro d w _ _ h; omega
  | succ n ih =>
    intro d w hf hle hfuel
    cases ha : attemptOnce env d nu4p w with
    | none =>
      obtain ⟨r, f, hr, hret, hne, _, hsel, _⟩ := GenerateEventFuel_attempt_none env nu4p d w ha
      have h0 := not_unphysicalAt_zero_of_none env d nu4p w ha
      refine ⟨r, hr n, by omega, ?_, ?_, ?_⟩
      · intro k out _ hall hk _
        exfalso
        cases k with
        | zero => simp [nthAttempt, ha] at hk
        | succ k => exact h0 (hall 0 (by omega))
      · constructor
        · intro h
          rw [hret] at h
          cases h
          exact absurd rfl hne
        · intro h
          exact absurd (h 0 (by omega)) h0
      · intro _ _ _
        exact ⟨0, by omega, by simp [nthAttempt, ha], by intro j hj; omega⟩
    | some out =>
      obtain ⟨calls, hsel, _, hr⟩ := GenerateEventFuel_attempt_filtered env nu4p d w out hf ha
      have hz := unphysicalAt_zero env d nu4p w out ha
      by_cases hu : out.1.IsUnphysical = true
      · by_cases hl : d.fNRecLevel + 1 ≤ env.kRecursiveModeMaxDepth
        · obtain ⟨r1, hr1, hc1, hfirst1, hiff1, hfail1⟩ :=
            ih { d with fCurrentRecord := none, fNRecLevel := d.fNRecLevel + 1 } out.2
              (by exact hf) (by exact hl) (by simp only; omega)
          have hs := fun k => unphysicalAt_succ env d
            { d with fCurrentRecord := none, fNRecLevel := d.fNRecLevel + 1 } nu4p w out ha
            rfl rfl rfl k
          have hn := fun k => (nthAttempt_succ_of_some env d nu4p w out ha k).trans
            (nthAttempt_congr env d
              { d with fCurrentRecord := none, fNRecLevel := d.fNRecLevel + 1 } nu4p
              rfl rfl rfl k out.2).symm
          simp only at hc1 hfirst1 hiff1 hfail1
          refine ⟨{ r1 with calls := calls ++ r1.calls }, ?_, ?_, ?_, ?_, ?_⟩
          · rw [hr n, if_pos hu, if_pos hl, hr1]
            rfl
          · simp only [selectCount_append, hsel]
            omega
          · intro k out1 hk hall hk1 hphys
            cases k with
            | zero =>
              simp only [nthAttempt, ha, Option.some.injEq] at hk1
              subst hk1
              rw [hu] at hphys
              cases hphys
            | succ k =>
              rw [hn k] at hk1
              obtain ⟨h1, h2, h3⟩ := hfirst1 k out1 (by omega)
                (fun j hj => (hs j).mp (hall (j + 1) (by omega))) hk1 hphys
              refine ⟨h1, ?_, h3⟩
              simp only [selectCount_append, hsel, h2]
              omega
          · constructor
            · intro h k hk
              cases k with
              | zero => exact hz.mpr hu
              | succ k => exact (hs k).mpr (hiff1.mp h k (by omega))
            · intro h
              exact hiff1.mpr (fun k hk => (hs k).mp (h (k + 1) (by omega)))
          · intro f hret hne
            obtain ⟨k, hk, hnone, hall⟩ := hfail1 f hret hne
            refine ⟨k + 1, by omega, by rw [hn k]; exact hnone, ?_⟩
            intro j hj
            cases j with
            | zero => exact hz.mpr hu
            | succ j => exact (hs j).mpr (hall j (by omega))
        · refine ⟨_, by rw [hr n, if_pos hu, if_neg hl], ?_, ?_, ?_, ?_⟩
          · simp only [hsel]
            omega
          · intro k out1 hk _ hk1 hphys
            obtain rfl : k = 0 := by omega
            simp only [nthAttempt, ha, Option.some.injEq] at hk1
            subst hk1
            rw [hu] at hphys
            cases hphys
          · constructor
            · intro _ k hk
              obtain rfl : k = 0 := by omega
              exact hz.mpr hu
            · intro _
              rfl
          · intro f hret hne
            cases hret
            exact absurd rfl hne
      · refine ⟨_, by rw [hr n, if_neg hu], ?_, ?_, ?_, ?_⟩
        · simp only [hsel]
          omega
        · intro k out1 _ hall hk1 _
          cases k with
          | zero =>
            simp only [nthAttempt, ha, Option.some.injEq] at hk1
            subst hk1
            exact ⟨rfl, by simp only [hsel], rfl⟩
          | succ k => exact absurd (hz.mp (hall 0 (by omega))) hu
        · constructor
          · intro h
            cases h
          · intro h
            exact absurd (hz.mp (h 0 (by omega))) hu
        · intro f hret _
          cases hret

/-! ## Event generation: the contract of `GenerateEvent` -/

/-- C1: with unphysical-filtering enabled, from every driver state and for
every probe 4-momentum, `GenerateEvent` terminates, and it either returns a
record whose `IsUnphysical` flag is false or aborts fatally. The outcome is
the same for every larger recursion allowance. -/
theorem GenerateEvent_filtered_returns_physical {W : Type} (env : Env W) (d : GEVGDriver)
    (w : W) (nu4p : TLorentzVector) (hf : d.fFilterUnphysical = true) :
    ∃ r, d.GenerateEvent env w nu4p = some r ∧
      ((∃ rec, r.ret = .ok rec ∧ rec.IsUnphysical = false) ∨ ∃ f, r.ret = .error f) ∧
      ∀ m, env.kRecursiveModeMaxDepth + 1 - d.fNRecLevel + 1 ≤ m →
        GenerateEventFuel env nu4p m d w = some r := by
  obtain ⟨r, hr⟩ := GenerateEventFuel_total env nu4p
    (env.kRecursiveModeMaxDepth + 1 - d.fNRecLevel + 1) d w (by omega)
  refine ⟨r, hr, ?_, fun m hm => GenerateEventFuel_mono env nu4p _ d w r hr m hm⟩
  cases hret : r.ret with
  | error f => exact Or.inr ⟨f, rfl⟩
  | ok rec => exact Or.inl ⟨rec, rfl, GenerateEventFuel_physical env nu4p _ d w r hf hr rec hret⟩

/-- C1 at the demonstration configuration: two unphysical attempts are
regenerated and the third, physical, record is returned. -/
theorem GenerateEvent_filtered_returns_physical_witness :
    (∃ r, demoDriver.GenerateEvent demoEnv 6 demoP4 = some r ∧
      ((∃ rec, r.ret = .ok rec ∧ rec.IsUnphysical = false) ∨ ∃ f, r.ret = .error f) ∧
      ∀ m, demoEnv.kRecursiveModeMaxDepth + 1 - demoDriver.fNRecLevel + 1 ≤ m →
        GenerateEventFuel demoEnv demoP4 m demoDriver 6 = some r) ∧
    (demoDriver.GenerateEvent demoEnv 6 demoP4).map (fun r => (r.ret, r.world)) =
      some (.ok ⟨⟨⟨⟨6, 12⟩, 14, demoP4⟩, 1⟩, [14, 2212], false⟩, 12) :=
  ⟨GenerateEvent_filtered_returns_physical demoEnv demoDriver 6 demoP4 rfl, rfl⟩

/-- C2: with unphysical-filtering enabled and the retry counter at 0 on entry,
`GenerateEvent` terminates after at most `kRecursiveModeMaxDepth + 1` attempts
(the first and at most `kRecursiveModeMaxDepth` regenerations); it returns the
record of the first physical attempt among them and resets the counter; it
aborts on depth exactly when all `kRecursiveModeMaxDepth + 1` attempts are
unphysical; and when selection and resolution succeed on every attempt, it
aborts exactly in that case. -/
theorem GenerateEvent_bounded_retry {W : Type} (env : Env W) (d : GEVGDriver)
    (w : W) (nu4p : TLorentzVector) (hf : d.fFilterUnphysical = true)
    (h0 : d.fNRecLevel = 0) :
    ∃ r, d.GenerateEvent env w nu4p = some r ∧
      selectCount r.calls ≤ env.kRecursiveModeMaxDepth + 1 ∧
      (∀ k out, k ≤ env.kRecursiveModeMaxDepth →
        (∀ j, j < k → unphysicalAt env d nu4p w j) →
        nthAttempt env d nu4p k w = some out → out.1.IsUnphysical = false →
          r.ret = .ok out.1 ∧ selectCount r.calls = k + 1 ∧ r.driver.fNRecLevel = 0) ∧
      (r.ret = .error .recursiveModeMaxDepth ↔
        ∀ k, k ≤ env.kRecursiveModeMaxDepth → unphysicalAt env d nu4p w k) ∧
      ((∀ k, k ≤ env.kRecursiveModeMaxDepth → nthAttempt env d nu4p k w ≠ none) →
        ((∃ f, r.ret = .error f) ↔
          ∀ k, k ≤ env.kRecursiveModeMaxDepth → unphysicalAt env d nu4p w k)) := by
  obtain ⟨r, hr, hc, hfirst, hiff, hfail⟩ := GenerateEventFuel_budget env nu4p
    (env.kRecursiveModeMaxDepth + 1 - d.fNRecLevel + 1) d w hf (by omega) (by omega)
  rw [h0] at hc hfirst hiff hfail
  simp only [Nat.sub_zero] at hc hfirst hiff hfail
  refine ⟨r, hr, hc, hfirst, hiff, fun hall => ⟨?_, fun h => ⟨_, hiff.mpr h⟩⟩⟩
  rintro ⟨f, hret⟩
  by_cases hne : f = .recursiveModeMaxDepth
  · subst hne
    exact hiff.mp hret
  · obtain ⟨k, hk, hnone, _⟩ := hfail f hret hne
    exact absurd hnone (hall k hk)

/-- C2 at the demonstration configuration (two regenerations allowed): from
world 6 the third attempt is the first physical one and is returned; from
world 0 all three attempts are unphysical and the call aborts. -/
theorem GenerateEvent_bounded_retry_witness :
    (∃ r, demoDriver.GenerateEvent demoEnv 6 demoP4 = some r ∧
      selectCount r.calls ≤ demoEnv.kRecursiveModeMaxDepth + 1 ∧
      (∀ k out, k ≤ demoEnv.kRecursiveModeMaxDepth →
        (∀ j, j < k → unphysicalAt demoEnv demoDriver demoP4 6 j) →
        nthAttempt demoEnv demoDriver demoP4 k 6 = some out → out.1.IsUnphysical = false →
          r.ret = .ok out.1 ∧ selectCount r.calls = k + 1 ∧ r.driver.fNRecLevel = 0) ∧
      (r.ret = .error .recursiveModeMaxDepth ↔
        ∀ k, k ≤ demoEnv.kRecursiveModeMaxDepth → unphysicalAt demoEnv demoDriver demoP4 6 k) ∧
      ((∀ k, k ≤ demoEnv.kRecursiveModeMaxDepth →
          nthAttempt demoEnv demoDriver demoP4 k 6 ≠ none) →
        ((∃ f, r.ret = .error f) ↔
          ∀ k, k ≤ demoEnv.kRecursiveModeMaxDepth →
            unphysicalAt demoEnv demoDriver demoP4 6 k))) ∧
    (demoDriver.GenerateEvent demoEnv 6 demoP4).map
        (fun r => (selectCount r.calls, r.driver.fNRecLevel)) = some (3, 0) ∧
    (nthAttempt demoEnv demoDriver demoP4 2 6).map (fun out => out.1.IsUnphysical) =
      some false ∧
    (demoDriver.GenerateEvent demoEnv 0 demoP4).map
        (fun r => (selectCount r.calls, r.ret)) = some (3, .error .recursiveModeMaxDepth) :=
  ⟨GenerateEvent_bounded_retry demoEnv demoDriver 6 demoP4 rfl rfl, by decide, by decide, rfl⟩

/-- C3: after `FilterUnphysical(false)`, `GenerateEvent` consults the selector
at most once, exactly once when the initial state is valid, and leaves the
retry counter unchanged; when the single attempt builds a record, that
processed record is returned, physical or not, after exactly one selection and
one `ProcessEventRecord`; when it fails, the call aborts without any
`ProcessEventRecord`. -/
theorem GenerateEvent_unfiltered_single_attempt {W : Type} (env : Env W) (d : GEVGDriver)
    (w : W) (nu4p : TLorentzVector) :
    ∃ r, (d.FilterUnphysical false).GenerateEvent env w nu4p = some r ∧
      selectCount r.calls ≤ 1 ∧ (d.IsValidInitState env = true → selectCount r.calls = 1) ∧
      r.driver.fNRecLevel = d.fNRecLevel ∧
      (∀ out, attemptOnce env d nu4p w = some out →
        r.ret = .ok out.1 ∧ r.world = out.2 ∧ selectCount r.calls = 1 ∧
          processCount r.calls = 1) ∧
      (attemptOnce env d nu4p w = none →
        ∃ f, r.ret = .error f ∧ processCount r.calls = 0) := by
  have hc : attemptOnce env (d.FilterUnphysical false) nu4p w = attemptOnce env d nu4p w :=
    attemptOnce_congr env d (d.FilterUnphysical false) nu4p w rfl rfl rfl
  unfold GenerateEvent
  cases ha : attemptOnce env d nu4p w with
  | none =>
    obtain ⟨r, f, hr, hret, _, hp, hsel, hl, _, hone⟩ :=
      GenerateEventFuel_attempt_none env nu4p (d.FilterUnphysical false) w (hc.trans ha)
    refine ⟨r, hr _, hsel, hone, hl, ?_, fun _ => ⟨f, hret, hp⟩⟩
    intro out hout
    cases hout
  | some out =>
    obtain ⟨calls, hsel, hp, hr⟩ :=
      GenerateEventFuel_attempt_some env nu4p (d.FilterUnphysical false) w out (hc.trans ha)
    refine ⟨_, by rw [hr]; rfl, by simp only [hsel, le_refl], fun _ => hsel, rfl, ?_, ?_⟩
    · intro out1 hout
      cases hout
      exact ⟨rfl, rfl, hsel, hp⟩
    · intro h
      cases h

/-- C3 at the demonstration configuration: with filtering off the single
attempt made from world 0 is unphysical and is returned all the same. -/
theorem GenerateEvent_unfiltered_single_attempt_witness :
    ((demoDriver.FilterUnphysical false).GenerateEvent demoEnv 0 demoP4).map
        (fun r => (r.ret, r.calls, r.driver.fNRecLevel, r.world)) =
      some (.ok ⟨⟨⟨⟨6, 12⟩, 14, demoP4⟩, 1⟩, [14, 2212], true⟩,
        [.select ⟨⟨6, 12⟩, 14, demoP4⟩, .find ⟨⟨⟨6, 12⟩, 14, demoP4⟩, 1⟩,
          .process "DemoGen" ⟨⟨⟨⟨6, 12⟩, 14, demoP4⟩, 1⟩, [], false⟩], 0, 2) ∧
    ∃ r, (demoDriver.FilterUnphysical false).GenerateEvent demoEnv 0 demoP4 = some r ∧
      selectCount r.calls ≤ 1 ∧
      (demoDriver.IsValidInitState demoEnv = true → selectCount r.calls = 1) ∧
      r.driver.fNRecLevel = demoDriver.fNRecLevel ∧
      (∀ out, attemptOnce demoEnv demoDriver demoP4 0 = some out →
        r.ret = .ok out.1 ∧ r.world = out.2 ∧ selectCount r.calls = 1 ∧
          processCount r.calls = 1) ∧
      (attemptOnce demoEnv demoDriver demoP4 0 = none →
        ∃ f, r.ret = .error f ∧ processCount r.calls = 0) :=
  ⟨rfl, GenerateEvent_unfiltered_single_attempt demoEnv demoDriver 0 demoP4⟩

/-- C4: `GenerateEvent` aborts, without any `ProcessEventRecord` call in that
attempt, when the initial state is invalid (before the selector is consulted:
no collaborator call at all), when the selector returns no record, and when
the chain finds no generator for the selected interaction. This holds at every
recursion level and with filtering on or off. -/
theorem GenerateEvent_fatal_before_construction {W : Type} (env : Env W) (d : GEVGDriver)
    (w : W) (nu4p : TLorentzVector) :
    (d.IsValidInitState env = false →
      ∃ r, d.GenerateEvent env w nu4p = some r ∧ r.ret = .error .invalidInitState ∧
        r.calls = []) ∧
    (∀ tgt w1, d.IsValidInitState env = true → d.fNuclTarget = some tgt →
      env.SelectInteraction d.fFilter ((InitialState.create tgt d.fNuPDG).SetProbeP4 nu4p) w
        = (none, w1) →
      ∃ r, d.GenerateEvent env w nu4p = some r ∧ r.ret = .error .noInteractionSelected ∧
        r.calls = [.select ((InitialState.create tgt d.fNuPDG).SetProbeP4 nu4p)] ∧
        processCount r.calls = 0) ∧
    (∀ tgt rec0 w1, d.IsValidInitState env = true → d.fNuclTarget = some tgt →
      env.SelectInteraction d.fFilter ((InitialState.create tgt d.fNuPDG).SetProbeP4 nu4p) w
        = (some rec0, w1) →
      env.FindGenerator rec0.GetInteraction = none →
      ∃ r, d.GenerateEvent env w nu4p = some r ∧ r.ret = .error .noEventGenerator ∧
        r.calls = [.select ((InitialState.create tgt d.fNuPDG).SetProbeP4 nu4p),
          .find rec0.GetInteraction] ∧
        processCount r.calls = 0) := by
  refine ⟨fun hv => ?_, fun tgt w1 hv ht hs => ?_, fun tgt rec0 w1 hv ht hs hg => ?_⟩
  · refine ⟨⟨d, w, [], .error .invalidInitState⟩, ?_, rfl, rfl⟩
    unfold GenerateEvent
    rw [GenerateEventFuel]
    simp only [AssertIsValidInitState, hv]
    rfl
  · refine ⟨⟨{ d with fCurrentRecord := none }, w1,
      [.select ((InitialState.create tgt d.fNuPDG).SetProbeP4 nu4p)],
      .error .noInteractionSelected⟩, ?_, rfl, rfl, rfl⟩
    unfold GenerateEvent
    rw [GenerateEventFuel]
    simp only [AssertIsValidInitState, hv, ht, hs, ↓reduceIte]
  · refine ⟨⟨{ d with fCurrentRecord := some rec0 }, w1,
      [.select ((InitialState.create tgt d.fNuPDG).SetProbeP4 nu4p),
        .find rec0.GetInteraction],
      .error .noEventGenerator⟩, ?_, rfl, rfl, rfl⟩
    unfold GenerateEvent
    rw [GenerateEventFuel]
    simp only [AssertIsValidInitState, hv, ht, hs, hg, ↓reduceIte]

/-- C4 at the demonstration configuration: an antimuon as probe (invalid
initial state), a filter that excludes everything, and a filter selecting a
process no generator claims. -/
theorem GenerateEvent_fatal_before_construction_witness :
    (∃ r, ({ demoDriver with fNuPDG := -13 }).GenerateEvent demoEnv 0 demoP4 = some r ∧
      r.ret = .error .invalidInitState ∧ r.calls = []) ∧
    (∃ r, (demoDriver.SetFilter ⟨0⟩).GenerateEvent demoEnv 0 demoP4 = some r ∧
      r.ret = .error .noInteractionSelected ∧
      r.calls = [.select ((InitialState.create ⟨6, 12⟩ 14).SetProbeP4 demoP4)] ∧
      processCount r.calls = 0) ∧
    (∃ r, (demoDriver.SetFilter ⟨2⟩).GenerateEvent demoEnv 0 demoP4 = some r ∧
      r.ret = .error .noEventGenerator ∧
      r.calls = [.select ((InitialState.create ⟨6, 12⟩ 14).SetProbeP4 demoP4),
        .find ⟨(InitialState.create ⟨6, 12⟩ 14).SetProbeP4 demoP4, 2⟩] ∧
      processCount r.calls = 0) :=
  ⟨(GenerateEvent_fatal_before_construction demoEnv { demoDriver with fNuPDG := -13 } 0
      demoP4).1 (by decide),
    (GenerateEvent_fatal_before_construction demoEnv (demoDriver.SetFilter ⟨0⟩) 0
      demoP4).2.1 ⟨6, 12⟩ 1 (by decide) rfl rfl,
    (GenerateEvent_fatal_before_construction demoEnv (demoDriver.SetFilter ⟨2⟩) 0
      demoP4).2.2 ⟨6, 12⟩ ⟨⟨(InitialState.create ⟨6, 12⟩ 14).SetProbeP4 demoP4, 2⟩, [], false⟩ 1
      (by decide) rfl rfl rfl⟩

/-! ## `UseSplines` -/

theorem UseSplinesInteractions_true (xsl : XSecSplineList) (alg : XSecAlgorithmI)
    (ilst : List Interaction) :
    UseSplinesInteractions xsl alg ilst true =
      (ilst.all (fun i => xsl.SplineExists alg i),
        !(ilst.all (fun i => xsl.SplineExists alg i))) := by
  induction ilst with
  | nil => rfl
  | cons i rest ih =>
    rw [UseSplinesInteractions]
    cases h : xsl.SplineExists alg i
    · simp [h]
    · simp [h, ih]

/-- The generator list has every channel cached (as a boolean). -/
theorem UseSplinesGenerators_true {W : Type} (xsl : XSecSplineList)
    (init_state : InitialState) (evgl : List (EventGeneratorI W)) :
    UseSplinesGenerators xsl init_state evgl true =
      (evgl.all (fun g => match g.CreateInteractionList init_state with
          | none => true
          | some ilst => ilst.all (fun i => xsl.SplineExists g.CrossSectionAlg i)),
        !(evgl.all (fun g => match g.CreateInteractionList init_state with
          | none => true
          | some ilst => ilst.all (fun i => xsl.SplineExists g.CrossSectionAlg i)))) := by
  induction evgl with
  | nil => rfl
  | cons g rest ih =>
    rw [UseSplinesGenerators]
    cases hl : g.CreateInteractionList init_state with
    | none => simp [hl, ih]
    | some ilst =>
      simp only [UseSplinesInteractions_true, List.all_cons, hl]
      cases h : ilst.all (fun i => xsl.SplineExists g.CrossSectionAlg i)
      · simp
      · simp [ih]

theorem all_cached_iff {W : Type} (env : Env W) (xsl : XSecSplineList)
    (init_state : InitialState) :
    (env.fEvGenList.all (fun g => match g.CreateInteractionList init_state with
        | none => true
        | some ilst => ilst.all (fun i => xsl.SplineExists g.CrossSectionAlg i))) = true ↔
      AllChannelsCached env xsl init_state := by
  simp only [List.all_eq_true, AllChannelsCached]
  constructor
  · intro h g hg ilst hl i hi
    have := h g hg
    rw [hl] at this
    exact List.all_eq_true.mp this i hi
  · intro h g hg
    cases hl : g.CreateInteractionList init_state with
    | none => rfl
    | some ilst => exact List.all_eq_true.mpr (fun i hi => h g hg ilst hl i hi)

/-- The result of `UseSplines` on a valid initial state, written out. -/
theorem UseSplines_eq {W : Type} (env : Env W) (d : GEVGDriver) (xsl : XSecSplineList)
    (tgt : Target) (hv : d.IsValidInitState env = true) (ht : d.fNuclTarget = some tgt) :
    d.UseSplines env xsl =
      .ok ⟨{ d with fUseSplines :=
          (UseSplinesGenerators xsl (InitialState.create tgt d.fNuPDG) env.fEvGenList true).1 },
        if (UseSplinesGenerators xsl (InitialState.create tgt d.fNuPDG) env.fEvGenList true).2
        then ["At least a spline does not exist. Reverting back to not using splines"]
        else []⟩ := by
  unfold UseSplines
  simp only [AssertIsValidInitState, hv, ht, ↓reduceIte]

/-- The flag `UseSplines` leaves behind says whether every channel is cached. -/
theorem UseSplines_flag {W : Type} (env : Env W) (d : GEVGDriver)
    (xsl : XSecSplineList) (tgt : Target) :
    (UseSplinesGenerators xsl (InitialState.create tgt d.fNuPDG) env.fEvGenList true).1 = true ↔
      AllChannelsCached env xsl (InitialState.create tgt d.fNuPDG) := by
  simp only [UseSplinesGenerators_true]
  exact all_cached_iff env xsl (InitialState.create tgt d.fNuPDG)

/-- C5: on a valid initial state and whatever the flag was before,
`UseSplines` returns with the use-splines flag true if and only if every
interaction of every non-null interaction list produced for the current
initial state has a cache entry for its generator's cross-section algorithm;
the warning is logged exactly when the flag ends false (and then once); no
other data member changes. -/
theorem UseSplines_flag_iff_all_cached {W : Type} (env : Env W) (d : GEVGDriver)
    (xsl : XSecSplineList) (tgt : Target) (hv : d.IsValidInitState env = true)
    (ht : d.fNuclTarget = some tgt) :
    ∃ r, d.UseSplines env xsl = .ok r ∧
      (r.driver.fUseSplines = true ↔
        ∀ evgen ∈ env.fEvGenList, ∀ ilst,
          evgen.CreateInteractionList (InitialState.create tgt d.fNuPDG) = some ilst →
            ∀ interaction ∈ ilst,
              xsl.SplineExists evgen.CrossSectionAlg interaction = true) ∧
      (r.warnings ≠ [] ↔ r.driver.fUseSplines = false) ∧
      r.warnings.length ≤ 1 ∧
      r.driver = { d with fUseSplines := r.driver.fUseSplines } := by
  refine ⟨_, UseSplines_eq env d xsl tgt hv ht, UseSplines_flag env d xsl tgt, ?_, ?_, rfl⟩
  · simp only [UseSplinesGenerators_true]
    cases env.fEvGenList.all (fun g =>
      match g.CreateInteractionList (InitialState.create tgt d.fNuPDG) with
      | none => true
      | some ilst => ilst.all (fun i => xsl.SplineExists g.CrossSectionAlg i)) <;> simp
  · simp only [UseSplinesGenerators_true]
    cases env.fEvGenList.all (fun g =>
      match g.CreateInteractionList (InitialState.create tgt d.fNuPDG) with
      | none => true
      | some ilst => ilst.all (fun i => xsl.SplineExists g.CrossSectionAlg i)) <;> simp

/-- C5 at the demonstration configuration: on the empty cache a driver that
had the flag on ends with the flag off and one warning; on a cache holding
both channels it ends with the flag on and no warning. -/
theorem UseSplines_flag_iff_all_cached_witness :
    (∃ r, ({ demoDriver with fUseSplines := true }).UseSplines demoEnv emptyCache = .ok r ∧
      (r.driver.fUseSplines = true ↔
        ∀ evgen ∈ demoEnv.fEvGenList, ∀ ilst,
          evgen.CreateInteractionList (InitialState.create ⟨6, 12⟩ 14) = some ilst →
            ∀ interaction ∈ ilst,
              emptyCache.SplineExists evgen.CrossSectionAlg interaction = true) ∧
      (r.warnings ≠ [] ↔ r.driver.fUseSplines = false) ∧
      r.warnings.length ≤ 1 ∧
      r.driver = { ({ demoDriver with fUseSplines := true } : GEVGDriver) with
        fUseSplines := r.driver.fUseSplines }) ∧
    ({ demoDriver with fUseSplines := true }).UseSplines demoEnv emptyCache =
      .ok ⟨demoDriver,
        ["At least a spline does not exist. Reverting back to not using splines"]⟩ ∧
    demoDriver.UseSplines demoEnv
        ⟨false, [(⟨"DemoXSec", 14, 6, 12, 2⟩, ⟨[]⟩), (⟨"DemoXSec", 14, 6, 12, 1⟩, ⟨[]⟩)]⟩ =
      .ok ⟨{ demoDriver with fUseSplines := true }, []⟩ :=
  ⟨UseSplines_flag_iff_all_cached demoEnv { demoDriver with fUseSplines := true } emptyCache
      ⟨6, 12⟩ (by decide) rfl, rfl, rfl⟩

/-! ## The spline cache -/

theorem lookup_CreateSpline_self {W : Type} (env : Env W) (xsl : XSecSplineList)
    (alg : XSecAlgorithmI) (i : Interaction) (nk : Int) (a b : ℚ) :
    (xsl.CreateSpline env alg i nk a b).fSplineMap.lookup (BuildSplineKey alg i) =
      some (env.BuildSpline alg i nk a b xsl.fUseLogE) := by
  simp [XSecSplineList.CreateSpline, List.lookup]

theorem lookup_CreateSpline_ne {W : Type} (env : Env W) (xsl : XSecSplineList)
    (alg : XSecAlgorithmI) (i : Interaction) (nk : Int) (a b : ℚ) (k : SplineKey)
    (h : k ≠ BuildSplineKey alg i) :
    (xsl.CreateSpline env alg i nk a b).fSplineMap.lookup k = xsl.fSplineMap.lookup k := by
  have hb : (k == BuildSplineKey alg i) = false := by simpa using h
  simp [XSecSplineList.CreateSpline, List.lookup, hb]

theorem SplineExists_eq_false_iff (xsl : XSecSplineList) (alg : XSecAlgorithmI)
    (i : Interaction) :
    xsl.SplineExists alg i = false ↔ xsl.fSplineMap.lookup (BuildSplineKey alg i) = none := by
  simp [XSecSplineList.SplineExists, XSecSplineList.GetSpline]

theorem SplineExists_eq_true_iff (xsl : XSecSplineList) (alg : XSecAlgorithmI)
    (i : Interaction) :
    xsl.SplineExists alg i = true ↔ xsl.fSplineMap.lookup (BuildSplineKey alg i) ≠ none := by
  simp [XSecSplineList.SplineExists, XSecSplineList.GetSpline, Option.isSome_iff_ne_none]

theorem Extends_refl (a : XSecSplineList) : a.Extends a := fun _ _ h => h

theorem Extends_trans (a b c : XSecSplineList) (hab : a.Extends b) (hbc : b.Extends c) :
    a.Extends c := fun k spl h => hbc k spl (hab k spl h)

theorem Extends_SplineExists (a b : XSecSplineList) (h : a.Extends b) (alg : XSecAlgorithmI)
    (i : Interaction) (he : a.SplineExists alg i = true) : b.SplineExists alg i = true := by
  rw [SplineExists_eq_true_iff] at he ⊢
  cases hl : a.fSplineMap.lookup (BuildSplineKey alg i) with
  | none => exact absurd hl he
  | some spl => rw [h _ _ hl]; simp

/-- Creating a spline for a key without an entry keeps every entry. -/
theorem Extends_CreateSpline {W : Type} (env : Env W) (xsl : XSecSplineList)
    (alg : XSecAlgorithmI) (i : Interaction) (nk : Int) (a b : ℚ)
    (hn : xsl.SplineExists alg i = false) :
    xsl.Extends (xsl.CreateSpline env alg i nk a b) := by
  intro k spl hk
  rw [SplineExists_eq_false_iff] at hn
  have hne : k ≠ BuildSplineKey alg i := by
    intro h
    rw [h, hn] at hk
    cases hk
  rw [lookup_CreateSpline_ne env xsl alg i nk a b k hne]
  exact hk

/-! ## `CreateSplines` -/

theorem CreateSplinesInteractions_cons {W : Type} (env : Env W) (alg : XSecAlgorithmI)
    (a b : ℚ) (i : Interaction) (rest : List Interaction) (job : SplineJob) :
    CreateSplinesInteractions env alg a b (i :: rest) job =
      CreateSplinesInteractions env alg a b rest
        (if !job.xsl.SplineExists alg i then
          ⟨job.xsl.CreateSpline env alg i 40 a b,
            job.created ++ [⟨job.xsl, BuildSplineKey alg i, 40, a, b⟩]⟩
        else job) := rfl

theorem CreateSplinesInteractions_cons_missing {W : Type} (env : Env W)
    (alg : XSecAlgorithmI) (a b : ℚ) (i : Interaction) (rest : List Interaction)
    (job : SplineJob) (he : job.xsl.SplineExists alg i = false) :
    CreateSplinesInteractions env alg a b (i :: rest) job =
      CreateSplinesInteractions env alg a b rest
        ⟨job.xsl.CreateSpline env alg i 40 a b,
          job.created ++ [⟨job.xsl, BuildSplineKey alg i, 40, a, b⟩]⟩ := by
  rw [CreateSplinesInteractions_cons, he]
  rfl

theorem CreateSplinesInteractions_cons_exists {W : Type} (env : Env W)
    (alg : XSecAlgorithmI) (a b : ℚ) (i : Interaction) (rest : List Interaction)
    (job : SplineJob) (he : job.xsl.SplineExists alg i = true) :
    CreateSplinesInteractions env alg a b (i :: rest) job =
      CreateSplinesInteractions env alg a b rest job := by
  rw [CreateSplinesInteractions_cons, he]
  rfl

theorem CreateSplinesGenerators_cons {W : Type} (env : Env W) (init_state : InitialState)
    (g : EventGeneratorI W) (rest : List (EventGeneratorI W)) (job : SplineJob) :
    CreateSplinesGenerators env init_state (g :: rest) job =
      CreateSplinesGenerators env init_state rest
        (match g.CreateInteractionList init_state with
        | none => job
        | some ilst =>
          CreateSplinesInteractions env g.CrossSectionAlg (max (1 / 100) g.Emin) g.Emax
            ilst job) := rfl

/-- One `CreateSpline` call on a missing key keeps the job sound. -/
theorem Sound_step {W : Type} (env : Env W) (xsl0 : XSecSplineList) (job : SplineJob)
    (alg : XSecAlgorithmI) (i : Interaction) (nk : Int) (a b : ℚ)
    (hs : job.Sound xsl0) (hn : job.xsl.SplineExists alg i = false) :
    SplineJob.Sound xsl0 ⟨job.xsl.CreateSpline env alg i nk a b,
      job.created ++ [⟨job.xsl, BuildSplineKey alg i, nk, a, b⟩]⟩ := by
  obtain ⟨hext, hcalls, hnodup, hlog, hlen⟩ := hs
  have hnone := (SplineExists_eq_false_iff job.xsl alg i).mp hn
  have hstep := Extends_CreateSpline env job.xsl alg i nk a b hn
  have h0 : xsl0.fSplineMap.lookup (BuildSplineKey alg i) = none := by
    cases hl : xsl0.fSplineMap.lookup (BuildSplineKey alg i) with
    | none => rfl
    | some spl => rw [hext _ _ hl] at hnone; cases hnone
  refine ⟨Extends_trans _ _ _ hext hstep, ?_, ?_, hlog, ?_⟩
  · intro c hc
    rcases List.mem_append.mp hc with hc | hc
    · obtain ⟨h1, h2, h3, h4⟩ := hcalls c hc
      refine ⟨h1, h2, ?_, h4⟩
      have hne : c.key ≠ BuildSplineKey alg i := by
        intro h
        rw [h] at h3
        exact h3 hnone
      show (job.xsl.CreateSpline env alg i nk a b).fSplineMap.lookup c.key ≠ none
      rw [lookup_CreateSpline_ne env job.xsl alg i nk a b c.key hne]
      exact h3
    · rw [List.mem_singleton] at hc
      subst hc
      refine ⟨hnone, h0, ?_, hext⟩
      show (job.xsl.CreateSpline env alg i nk a b).fSplineMap.lookup (BuildSplineKey alg i)
        ≠ none
      rw [lookup_CreateSpline_self]
      simp
  · show ((job.created ++ [(⟨job.xsl, BuildSplineKey alg i, nk, a, b⟩ : CreateSplineCall)]).map
      (fun c => c.key)).Nodup
    rw [List.map_append, List.nodup_append]
    refine ⟨hnodup, by simp, ?_⟩
    intro k hk hk1
    simp only [List.map_cons, List.map_nil, List.mem_singleton] at hk1
    subst hk1
    obtain ⟨c, hc, hkey⟩ := List.mem_map.mp hk
    exact (hcalls c hc).2.2.1 (by rw [hkey]; exact hnone)
  · show (job.xsl.CreateSpline env alg i nk a b).fSplineMap.length =
      xsl0.fSplineMap.length + (job.created ++ [_]).length
    simp only [XSecSplineList.CreateSpline, List.length_cons, List.length_append,
      List.length_nil, hlen]
    omega

theorem CreateSplinesInteractions_sound {W : Type} (env : Env W) (alg : XSecAlgorithmI)
    (a b : ℚ) (xsl0 : XSecSplineList) (ilst : List Interaction) :
    ∀ job : SplineJob, job.Sound xsl0 →
      (CreateSplinesInteractions env alg a b ilst job).Sound xsl0 := by
  induction ilst with
  | nil => intro job h; exact h
  | cons i rest ih =>
    intro job h
    cases he : job.xsl.SplineExists alg i
    · rw [CreateSplinesInteractions_cons_missing env alg a b i rest job he]
      exact ih _ (Sound_step env xsl0 job alg i 40 a b h he)
    · rw [CreateSplinesInteractions_cons_exists env alg a b i rest job he]
      exact ih _ h

theorem CreateSplinesInteractions_extends {W : Type} (env : Env W) (alg : XSecAlgorithmI)
    (a b : ℚ) (ilst : List Interaction) :
    ∀ job : SplineJob, job.xsl.Extends (CreateSplinesInteractions env alg a b ilst job).xsl := by
  induction ilst with
  | nil => intro job; exact Extends_refl _
  | cons i rest ih =>
    intro job
    cases he : job.xsl.SplineExists alg i
    · rw [CreateSplinesInteractions_cons_missing env alg a b i rest job he]
      exact Extends_trans _ _ _ (Extends_CreateSpline env job.xsl alg i 40 a b he)
        (ih ⟨job.xsl.CreateSpline env alg i 40 a b,
          job.created ++ [⟨job.xsl, BuildSplineKey alg i, 40, a, b⟩]⟩)
    · rw [CreateSplinesInteractions_cons_exists env alg a b i rest job he]
      exact ih _

theorem CreateSplinesInteractions_covers {W : Type} (env : Env W) (alg : XSecAlgorithmI)
    (a b : ℚ) (ilst : List Interaction) :
    ∀ job : SplineJob, ∀ i ∈ ilst,
      (CreateSplinesInteractions env alg a b ilst job).xsl.SplineExists alg i = true := by
  induction ilst with
  | nil => intro job i hi; cases hi
  | cons i0 rest ih =>
    intro job i hi
    rcases List.mem_cons.mp hi with rfl | hi
    · cases he : job.xsl.SplineExists alg i
      · rw [CreateSplinesInteractions_cons_missing env alg a b i rest job he]
        apply Extends_SplineExists _ _ (CreateSplinesInteractions_extends env alg a b rest _)
        rw [SplineExists_eq_true_iff]
        show (job.xsl.CreateSpline env alg i 40 a b).fSplineMap.lookup (BuildSplineKey alg i)
          ≠ none
        rw [lookup_CreateSpline_self]
        simp
      · rw [CreateSplinesInteractions_cons_exists env alg a b i rest job he]
        exact Extends_SplineExists _ _ (CreateSplinesInteractions_extends env alg a b rest _)
          _ _ he
    · cases he : job.xsl.SplineExists alg i0
      · rw [CreateSplinesInteractions_cons_missing env alg a b i0 rest job he]
        exact ih _ i hi
      · rw [CreateSplinesInteractions_cons_exists env alg a b i0 rest job he]
        exact ih _ i hi

theorem CreateSplinesInteractions_noop {W : Type} (env : Env W) (alg : XSecAlgorithmI)
    (a b : ℚ) (ilst : List Interaction) (job : SplineJob)
    (h : ∀ i ∈ ilst, job.xsl.SplineExists alg i = true) :
    CreateSplinesInteractions env alg a b ilst job = job := by
  induction ilst with
  | nil => rfl
  | cons i rest ih =>
    rw [CreateSplinesInteractions_cons_exists env alg a b i rest job
      (h i (List.mem_cons_self _ _))]
    exact ih (fun j hj => h j (List.mem_cons_of_mem _ hj))

theorem CreateSplinesGenerators_sound {W : Type} (env : Env W) (init_state : InitialState)
    (xsl0 : XSecSplineList) (evgl : List (EventGeneratorI W)) :
    ∀ job : SplineJob, job.Sound xsl0 →
      (CreateSplinesGenerators env init_state evgl job).Sound xsl0 := by
  induction evgl with
  | nil => intro job h; exact h
  | cons g rest ih =>
    intro job h
    rw [CreateSplinesGenerators_cons]
    cases g.CreateInteractionList init_state with
    | none => exact ih _ h
    | some ilst => exact ih _ (CreateSplinesInteractions_sound env _ _ _ xsl0 ilst job h)

theorem CreateSplinesGenerators_extends {W : Type} (env : Env W) (init_state : InitialState)
    (evgl : List (EventGeneratorI W)) :
    ∀ job : SplineJob, job.xsl.Extends (CreateSplinesGenerators env init_state evgl job).xsl := by
  induction evgl with
  | nil => intro job; exact Extends_refl _
  | cons g rest ih =>
    intro job
    rw [CreateSplinesGenerators_cons]
    cases g.CreateInteractionList init_state with
    | none => exact ih _
    | some ilst =>
      exact Extends_trans _ _ _ (CreateSplinesInteractions_extends env _ _ _ ilst job) (ih _)

theorem CreateSplinesGenerators_covers {W : Type} (env : Env W) (init_state : InitialState)
    (evgl : List (EventGeneratorI W)) :
    ∀ job : SplineJob, ∀ g ∈ evgl, ∀ ilst, g.CreateInteractionList init_state = some ilst →
      ∀ i ∈ ilst,
        (CreateSplinesGenerators env init_state evgl job).xsl.SplineExists
          g.CrossSectionAlg i = true := by
  induction evgl with
  | nil => intro job g hg; cases hg
  | cons g0 rest ih =>
    intro job g hg ilst hl i hi
    rw [CreateSplinesGenerators_cons]
    rcases List.mem_cons.mp hg with rfl | hg
    · rw [hl]
      exact Extends_SplineExists _ _ (CreateSplinesGenerators_extends env init_state rest _) _ _
        (CreateSplinesInteractions_covers env _ _ _ ilst job i hi)
    · exact ih _ g hg ilst hl i hi

theorem CreateSplinesGenerators_noop {W : Type} (env : Env W) (init_state : InitialState)
    (evgl : List (EventGeneratorI W)) (job : SplineJob)
    (h : ∀ g ∈ evgl, ∀ ilst, g.CreateInteractionList init_state = some ilst →
      ∀ i ∈ ilst, job.xsl.SplineExists g.CrossSectionAlg i = true) :
    CreateSplinesGenerators env init_state evgl job = job := by
  induction evgl with
  | nil => rfl
  | cons g rest ih =>
    rw [CreateSplinesGenerators_cons]
    have hrest := ih (fun g1 hg1 => h g1 (List.mem_cons_of_mem _ hg1))
    cases hl : g.CreateInteractionList init_state with
    | none => exact hrest
    | some ilst =>
      simp only
      rw [CreateSplinesInteractions_noop env _ _ _ ilst job
        (h g (List.mem_cons_self _ _) ilst hl)]
      exact hrest

/-- The result of `CreateSplines` on a valid initial state, written out. -/
theorem CreateSplines_eq {W : Type} (env : Env W) (d : GEVGDriver) (xsl : XSecSplineList)
    (useLogE : Bool) (tgt : Target) (hv : d.IsValidInitState env = true)
    (ht : d.fNuclTarget = some tgt) :
    d.CreateSplines env xsl useLogE =
      .ok ⟨{ d with fUseSplines := true },
        (CreateSplinesGenerators env (InitialState.create tgt d.fNuPDG) env.fEvGenList
          ⟨xsl.SetLogE useLogE, []⟩).xsl,
        (CreateSplinesGenerators env (InitialState.create tgt d.fNuPDG) env.fEvGenList
          ⟨xsl.SetLogE useLogE, []⟩).created⟩ := by
  unfold CreateSplines
  simp only [AssertIsValidInitState, hv, ht, ↓reduceIte]

theorem Sound_init (xsl : XSecSplineList) : SplineJob.Sound xsl ⟨xsl, []⟩ := by
  refine ⟨fun _ _ h => h, ?_, List.nodup_nil, rfl, rfl⟩
  intro c hc
  cases hc

/-- C7: on a valid initial state `CreateSplines` returns; afterwards every
interaction of every non-null interaction list produced for the current
initial state has a cache entry for its generator's cross-section algorithm,
the use-splines flag is true whatever it was before and no other data member
changed; an immediately following `UseSplines` keeps the flag true and logs no
warning. -/
theorem CreateSplines_caches_all_channels {W : Type} (env : Env W) (d : GEVGDriver)
    (xsl : XSecSplineList) (useLogE : Bool) (tgt : Target)
    (hv : d.IsValidInitState env = true) (ht : d.fNuclTarget = some tgt) :
    ∃ r, d.CreateSplines env xsl useLogE = .ok r ∧
      (∀ evgen ∈ env.fEvGenList, ∀ ilst,
        evgen.CreateInteractionList (InitialState.create tgt d.fNuPDG) = some ilst →
          ∀ interaction ∈ ilst,
            r.xsl.SplineExists evgen.CrossSectionAlg interaction = true) ∧
      r.driver = { d with fUseSplines := true } ∧
      ∃ u, r.driver.UseSplines env r.xsl = .ok u ∧ u.driver.fUseSplines = true ∧
        u.warnings = [] ∧ u.driver = r.driver := by
  have hcov := CreateSplinesGenerators_covers env (InitialState.create tgt d.fNuPDG)
    env.fEvGenList ⟨xsl.SetLogE useLogE, []⟩
  refine ⟨_, CreateSplines_eq env d xsl useLogE tgt hv ht, hcov, rfl, ?_⟩
  have hall := (all_cached_iff env
    (CreateSplinesGenerators env (InitialState.create tgt d.fNuPDG) env.fEvGenList
      ⟨xsl.SetLogE useLogE, []⟩).xsl (InitialState.create tgt d.fNuPDG)).mpr hcov
  refine ⟨_, UseSplines_eq env { d with fUseSplines := true } _ tgt (by exact hv)
    (by exact ht), ?_, ?_, ?_⟩
  · simp only [UseSplinesGenerators_true]
    exact hall
  · simp only [UseSplinesGenerators_true]
    rw [hall]
    rfl
  · simp only [UseSplinesGenerators_true]
    rw [hall]

/-- C7 at the demonstration configuration: starting from the empty cache with
the flag off, both channels of carbon get an entry and the flag is on. -/
theorem CreateSplines_caches_all_channels_witness :
    (∃ r, demoDriver.CreateSplines demoEnv emptyCache false = .ok r ∧
      (∀ evgen ∈ demoEnv.fEvGenList, ∀ ilst,
        evgen.CreateInteractionList (InitialState.create ⟨6, 12⟩ 14) = some ilst →
          ∀ interaction ∈ ilst,
            r.xsl.SplineExists evgen.CrossSectionAlg interaction = true) ∧
      r.driver = { demoDriver with fUseSplines := true } ∧
      ∃ u, r.driver.UseSplines demoEnv r.xsl = .ok u ∧ u.driver.fUseSplines = true ∧
        u.warnings = [] ∧ u.driver = r.driver) ∧
    (demoDriver.CreateSplines demoEnv emptyCache false).map
        (fun r => (r.driver.fUseSplines, r.xsl.fSplineMap.map Prod.fst)) =
      .ok (true, [⟨"DemoXSec", 14, 6, 12, 2⟩, ⟨"DemoXSec", 14, 6, 12, 1⟩]) :=
  ⟨CreateSplines_caches_all_channels demoEnv demoDriver emptyCache false ⟨6, 12⟩
    (by decide) rfl, rfl⟩

/-- C8: `CreateSplines` calls `CreateSpline` only for keys that have no entry
in the cache at the moment of the call, never twice for the same key (also
when a channel occurs more than once in the interaction lists) and never for
a key that had an entry before; every entry that existed before is still
there with the same curve, and the cache grew by exactly one entry per call. -/
theorem CreateSplines_creates_only_missing {W : Type} (env : Env W) (d : GEVGDriver)
    (xsl : XSecSplineList) (useLogE : Bool) (tgt : Target)
    (hv : d.IsValidInitState env = true) (ht : d.fNuclTarget = some tgt) :
    ∃ r, d.CreateSplines env xsl useLogE = .ok r ∧
      (∀ c ∈ r.created, c.cache.fSplineMap.lookup c.key = none) ∧
      (r.created.map (fun c => c.key)).Nodup ∧
      (∀ c ∈ r.created, xsl.fSplineMap.lookup c.key = none) ∧
      (∀ k spl, xsl.fSplineMap.lookup k = some spl → r.xsl.fSplineMap.lookup k = some spl) ∧
      r.xsl.fSplineMap.length = xsl.fSplineMap.length + r.created.length := by
  obtain ⟨hext, hcalls, hnodup, _, hlen⟩ :=
    CreateSplinesGenerators_sound env (InitialState.create tgt d.fNuPDG) (xsl.SetLogE useLogE)
      env.fEvGenList ⟨xsl.SetLogE useLogE, []⟩ (Sound_init _)
  exact ⟨_, CreateSplines_eq env d xsl useLogE tgt hv ht, fun c hc => (hcalls c hc).1, hnodup,
    fun c hc => (hcalls c hc).2.1, hext, hlen⟩

/-- C8 at the demonstration configuration: the cache already holds a curve for
process 2; the list names process 1 twice; one call is made, for process 1,
and the curve of process 2 is untouched. -/
theorem CreateSplines_creates_only_missing_witness :
    (∃ r, demoDriver.CreateSplines demoEnv
        ⟨false, [(⟨"DemoXSec", 14, 6, 12, 2⟩, ⟨[(1, 7)]⟩)]⟩ true = .ok r ∧
      (∀ c ∈ r.created, c.cache.fSplineMap.lookup c.key = none) ∧
      (r.created.map (fun c => c.key)).Nodup ∧
      (∀ c ∈ r.created,
        (⟨false, [(⟨"DemoXSec", 14, 6, 12, 2⟩, ⟨[(1, 7)]⟩)]⟩ :
          XSecSplineList).fSplineMap.lookup c.key = none) ∧
      (∀ k spl,
        (⟨false, [(⟨"DemoXSec", 14, 6, 12, 2⟩, ⟨[(1, 7)]⟩)]⟩ :
          XSecSplineList).fSplineMap.lookup k = some spl →
          r.xsl.fSplineMap.lookup k = some spl) ∧
      r.xsl.fSplineMap.length =
        (⟨false, [(⟨"DemoXSec", 14, 6, 12, 2⟩, ⟨[(1, 7)]⟩)]⟩ :
          XSecSplineList).fSplineMap.length + r.created.length) ∧
    (demoDriver.CreateSplines demoEnv
        ⟨false, [(⟨"DemoXSec", 14, 6, 12, 2⟩, ⟨[(1, 7)]⟩)]⟩ true).map
        (fun r => (r.created.map (fun c => c.key), r.xsl.fSplineMap.map Prod.fst,
          r.xsl.fSplineMap.lookup ⟨"DemoXSec", 14, 6, 12, 2⟩)) =
      .ok ([⟨"DemoXSec", 14, 6, 12, 1⟩],
        [⟨"DemoXSec", 14, 6, 12, 1⟩, ⟨"DemoXSec", 14, 6, 12, 2⟩], some ⟨[(1, 7)]⟩) :=
  ⟨CreateSplines_creates_only_missing demoEnv demoDriver _ true ⟨6, 12⟩ (by decide) rfl, rfl⟩

theorem SetLogE_self (xsl : XSecSplineList) (b : Bool) (h : xsl.fUseLogE = b) :
    xsl.SetLogE b = xsl := by
  cases xsl
  simp only [XSecSplineList.SetLogE] at h ⊢
  rw [h]

/-- C9: on a valid initial state, a second `CreateSplines` right after a first
one (same initial state, same generators) makes no `CreateSpline` call; the
driver and the cache entries after the second call are those after the first,
the cache's log-energy switch is the one the second call sets, and so with the
same argument the whole cache is equal. -/
theorem CreateSplines_twice {W : Type} (env : Env W) (d : GEVGDriver)
    (xsl : XSecSplineList) (useLogE useLogE2 : Bool) (tgt : Target)
    (hv : d.IsValidInitState env = true) (ht : d.fNuclTarget = some tgt) :
    ∃ r1 r2, d.CreateSplines env xsl useLogE = .ok r1 ∧
      r1.driver.CreateSplines env r1.xsl useLogE2 = .ok r2 ∧
      r2.created = [] ∧ r2.driver = r1.driver ∧
      r2.xsl.fSplineMap = r1.xsl.fSplineMap ∧ r2.xsl = r1.xsl.SetLogE useLogE2 ∧
      (useLogE2 = useLogE → r2.xsl = r1.xsl) := by
  have hcov := CreateSplinesGenerators_covers env (InitialState.create tgt d.fNuPDG)
    env.fEvGenList ⟨xsl.SetLogE useLogE, []⟩
  have hnoop := CreateSplinesGenerators_noop env (InitialState.create tgt d.fNuPDG)
    env.fEvGenList
    ⟨(CreateSplinesGenerators env (InitialState.create tgt d.fNuPDG) env.fEvGenList
      ⟨xsl.SetLogE useLogE, []⟩).xsl.SetLogE useLogE2, []⟩ hcov
  obtain ⟨_, _, _, hlog, _⟩ :=
    CreateSplinesGenerators_sound env (InitialState.create tgt d.fNuPDG) (xsl.SetLogE useLogE)
      env.fEvGenList ⟨xsl.SetLogE useLogE, []⟩ (Sound_init _)
  refine ⟨_, ⟨{ d with fUseSplines := true },
      (CreateSplinesGenerators env (InitialState.create tgt d.fNuPDG) env.fEvGenList
        ⟨xsl.SetLogE useLogE, []⟩).xsl.SetLogE useLogE2, []⟩,
    CreateSplines_eq env d xsl useLogE tgt hv ht, ?_, rfl, rfl, rfl, rfl, ?_⟩
  · rw [CreateSplines_eq env { d with fUseSplines := true } _ useLogE2 tgt (by exact hv)
      (by exact ht)]
    simp only
    rw [hnoop]
  · intro h
    subst h
    exact SetLogE_self _ _ hlog

/-- C9 at the demonstration configuration: the first call fills the empty
cache with two entries, the second call creates nothing and changes nothing. -/
theorem CreateSplines_twice_witness :
    (∃ r1 r2, demoDriver.CreateSplines demoEnv emptyCache true = .ok r1 ∧
      r1.driver.CreateSplines demoEnv r1.xsl true = .ok r2 ∧
      r2.created = [] ∧ r2.driver = r1.driver ∧
      r2.xsl.fSplineMap = r1.xsl.fSplineMap ∧ r2.xsl = r1.xsl.SetLogE true ∧
      (true = true → r2.xsl = r1.xsl)) ∧
    (demoDriver.CreateSplines demoEnv emptyCache true).map
        (fun r => (r.created.length, r.xsl.fSplineMap.length)) = .ok (2, 2) ∧
    ((demoDriver.CreateSplines demoEnv emptyCache true).bind
        (fun r => r.driver.CreateSplines demoEnv r.xsl true)).map
        (fun r => (r.created.length, r.xsl.fSplineMap.length)) = .ok (0, 2) :=
  ⟨CreateSplines_twice demoEnv demoDriver emptyCache true true ⟨6, 12⟩ (by decide) rfl,
    rfl, rfl⟩

/-! ## `XSecSum` -/

theorem foldl_add_eq_sum {α : Type} (f : α → ℚ) (l : List α) :
    ∀ a : ℚ, l.foldl (fun acc x => acc + f x) a = a + (l.map f).sum := by
  induction l with
  | nil => intro a; simp
  | cons x rest ih =>
    intro a
    simp only [List.foldl_cons, List.map_cons, List.sum_cons, ih]
    ring

theorem GetSpline_SetProbeP4 (xssl : XSecSplineList) (alg : XSecAlgorithmI) (i : Interaction)
    (p4 : TLorentzVector) : xssl.GetSpline alg (i.SetProbeP4 p4) = xssl.GetSpline alg i := rfl

/-- The cross section the loop body of `XSecSum` computes for one interaction
is the term of the interface description. -/
theorem XSecSum_body_eq_term {W : Type} (env : Env W) (d : GEVGDriver)
    (xssl : XSecSplineList) (nup4 : TLorentzVector) (evgen : EventGeneratorI W)
    (i : Interaction) :
    (if (xssl.SplineExists evgen.CrossSectionAlg (i.SetProbeP4 nup4) && d.fUseSplines) = true
      then
        match xssl.GetSpline evgen.CrossSectionAlg (i.SetProbeP4 nup4) with
        | some spl => env.Evaluate spl nup4.Energy
        | none => 0
      else evgen.CrossSectionAlg.XSec (i.SetProbeP4 nup4)) =
      xsecTerm env d xssl nup4 evgen i := by
  unfold xsecTerm XSecSplineList.SplineExists
  rw [GetSpline_SetProbeP4]
  cases hf : d.fUseSplines <;> cases hl : xssl.GetSpline evgen.CrossSectionAlg i <;> simp

theorem XSecSum_loop_eq {W : Type} (env : Env W) (d : GEVGDriver) (xssl : XSecSplineList)
    (nup4 : TLorentzVector) (init_state : InitialState) (evgl : List (EventGeneratorI W)) :
    ∀ a : ℚ,
      evgl.foldl (fun xsec_sum evgen =>
        match evgen.CreateInteractionList init_state with
        | none => xsec_sum
        | some ilst =>
          ilst.foldl (fun xsec_sum interaction0 =>
            xsec_sum +
              if (xssl.SplineExists evgen.CrossSectionAlg (interaction0.SetProbeP4 nup4) &&
                  d.fUseSplines) = true then
                match xssl.GetSpline evgen.CrossSectionAlg (interaction0.SetProbeP4 nup4) with
                | some spl => env.Evaluate spl nup4.Energy
                | none => 0
              else evgen.CrossSectionAlg.XSec (interaction0.SetProbeP4 nup4)) xsec_sum) a =
        a + ((evgl.map (fun evgen =>
          match evgen.CreateInteractionList init_state with
          | none => []
          | some ilst => ilst.map (xsecTerm env d xssl nup4 evgen))).flatten).sum := by
  induction evgl with
  | nil => intro a; simp
  | cons g rest ih =>
    intro a
    simp only [List.foldl_cons, List.map_cons, List.flatten_cons, List.sum_append, ih]
    cases hl : g.CreateInteractionList init_state with
    | none => simp
    | some ilst =>
      simp only [XSecSum_body_eq_term, foldl_add_eq_sum]
      ring

/-- C10: on a valid initial state `XSecSum` returns the sum, over every
registered generator with a non-null interaction list for the current initial
state and every interaction of that list, of one term per interaction: the
cached curve evaluated at the probe energy when the use-splines flag is true
and the cache has an entry for the generator's algorithm and the interaction,
otherwise the algorithm's `XSec` of the interaction with the probe 4-momentum
set to the argument. With the flag false the result is the same for every
cache. -/
theorem XSecSum_eq_sum_of_terms {W : Type} (env : Env W) (d : GEVGDriver)
    (xssl : XSecSplineList) (nup4 : TLorentzVector) (tgt : Target)
    (hv : d.IsValidInitState env = true) (ht : d.fNuclTarget = some tgt) :
    d.XSecSum env xssl nup4 =
        .ok (xsecSumSpec env d xssl nup4 (InitialState.create tgt d.fNuPDG)) ∧
      (d.fUseSplines = false →
        ∀ xssl2, d.XSecSum env xssl2 nup4 = d.XSecSum env xssl nup4) := by
  have key : ∀ x : XSecSplineList, d.XSecSum env x nup4 =
      .ok (xsecSumSpec env d x nup4 (InitialState.create tgt d.fNuPDG)) := by
    intro x
    unfold XSecSum xsecSumSpec
    simp only [AssertIsValidInitState, hv, ht, ↓reduceIte]
    rw [XSecSum_loop_eq]
    simp
  refine ⟨key xssl, fun hf xssl2 => ?_⟩
  rw [key, key]
  unfold xsecSumSpec xsecTerm
  simp only [hf, Bool.false_eq_true, ↓reduceIte]

/-- C10 at the demonstration configuration: the cache holds a three-knot curve
for process 2 only. In spline mode the terms are 1 (computed), 3 (the curve)
and 1 (computed); in direct mode they are 1, 2 and 1. -/
theorem XSecSum_eq_sum_of_terms_witness :
    (({ demoDriver with fUseSplines := true } : GEVGDriver).XSecSum demoEnv
        ⟨false, [(⟨"DemoXSec", 14, 6, 12, 2⟩, ⟨[(1, 2), (2, 2), (3, 2)]⟩)]⟩ demoP4 =
        .ok (xsecSumSpec demoEnv { demoDriver with fUseSplines := true }
          ⟨false, [(⟨"DemoXSec", 14, 6, 12, 2⟩, ⟨[(1, 2), (2, 2), (3, 2)]⟩)]⟩ demoP4
          (InitialState.create ⟨6, 12⟩ 14)) ∧
      (({ demoDriver with fUseSplines := true } : GEVGDriver).fUseSplines = false →
        ∀ xssl2, ({ demoDriver with fUseSplines := true } : GEVGDriver).XSecSum demoEnv xssl2
            demoP4 =
          ({ demoDriver with fUseSplines := true } : GEVGDriver).XSecSum demoEnv
            ⟨false, [(⟨"DemoXSec", 14, 6, 12, 2⟩, ⟨[(1, 2), (2, 2), (3, 2)]⟩)]⟩ demoP4)) ∧
    (({ demoDriver with fUseSplines := true } : GEVGDriver).XSecSum demoEnv
        ⟨false, [(⟨"DemoXSec", 14, 6, 12, 2⟩, ⟨[(1, 2), (2, 2), (3, 2)]⟩)]⟩
        demoP4).toOption = some 5 ∧
    (demoDriver.XSecSum demoEnv
        ⟨false, [(⟨"DemoXSec", 14, 6, 12, 2⟩, ⟨[(1, 2), (2, 2), (3, 2)]⟩)]⟩
        demoP4).toOption = some 4 ∧
    (demoDriver.XSecSum demoEnv emptyCache demoP4).toOption = some 4 ∧
    demoDriver.XSecSum demoEnv
        ⟨false, [(⟨"DemoXSec", 14, 6, 12, 2⟩, ⟨[(1, 2), (2, 2), (3, 2)]⟩)]⟩ demoP4 =
      demoDriver.XSecSum demoEnv emptyCache demoP4 :=
  ⟨XSecSum_eq_sum_of_terms demoEnv { demoDriver with fUseSplines := true } _ demoP4 ⟨6, 12⟩
    (by decide) rfl, by with_unfolding_all decide, by with_unfolding_all decide,
    by with_unfolding_all decide,
    (XSecSum_eq_sum_of_terms demoEnv demoDriver emptyCache demoP4 ⟨6, 12⟩ (by decide) rfl).2
      rfl _⟩

/-! ## The use-splines invariant -/

theorem IsValidInitState_target {W : Type} (env : Env W) (d : GEVGDriver)
    (h : d.IsValidInitState env = true) : ∃ tgt, d.fNuclTarget = some tgt := by
  unfold IsValidInitState at h
  cases ht : d.fNuclTarget with
  | none => rw [ht] at h; cases h
  | some tgt => exact ⟨tgt, rfl⟩

theorem UseSplines_ok_valid {W : Type} (env : Env W) (d : GEVGDriver) (xsl : XSecSplineList)
    (r : UseSplinesResult) (h : d.UseSplines env xsl = .ok r) :
    d.IsValidInitState env = true := by
  cases hv : d.IsValidInitState env with
  | true => rfl
  | false =>
    unfold UseSplines at h
    simp only [AssertIsValidInitState, hv] at h
    cases h

theorem CreateSplines_ok_valid {W : Type} (env : Env W) (d : GEVGDriver) (xsl : XSecSplineList)
    (b : Bool) (r : CreateSplinesResult) (h : d.CreateSplines env xsl b = .ok r) :
    d.IsValidInitState env = true := by
  cases hv : d.IsValidInitState env with
  | true => rfl
  | false =>
    unfold CreateSplines at h
    simp only [AssertIsValidInitState, hv] at h
    cases h

theorem CreateXSecSumSpline_frame {W : Type} (env : Env W) (d d1 : GEVGDriver)
    (xsl : XSecSplineList) (nk : Int) (a b : ℚ) (l : Bool)
    (h : d.CreateXSecSumSpline env xsl nk a b l = .ok d1) :
    d1.fNuclTarget = d.fNuclTarget ∧ d1.fNuPDG = d.fNuPDG ∧ d1.fUseSplines = d.fUseSplines := by
  unfold CreateXSecSumSpline at h
  split at h
  · cases h
  · split at h
    · cases h
    · simp only at h
      split at h
      · cases h
        exact ⟨rfl, rfl, rfl⟩
      · cases h

/-- The retry loop touches only the current record and the retry counter. -/
theorem GenerateEventFuel_frame {W : Type} (env : Env W) (nu4p : TLorentzVector) (n : Nat) :
    ∀ (d : GEVGDriver) (w : W) (r : GenResult W), GenerateEventFuel env nu4p n d w = some r →
      r.driver.fNuclTarget = d.fNuclTarget ∧ r.driver.fNuPDG = d.fNuPDG ∧
        r.driver.fUseSplines = d.fUseSplines := by
  induction n with
  | zero => intro d w r h; simp [GenerateEventFuel] at h
  | succ n ih =>
    intro d w r h
    cases ha : attemptOnce env d nu4p w with
    | none =>
      obtain ⟨r1, _, hr1, _, _, _, _, _, hframe, _⟩ :=
        GenerateEventFuel_attempt_none env nu4p d w ha
      rw [hr1 n] at h
      cases h
      rw [hframe]
      exact ⟨rfl, rfl, rfl⟩
    | some out =>
      obtain ⟨calls, _, _, hr⟩ := GenerateEventFuel_attempt_some env nu4p d w out ha
      rw [hr n] at h
      split at h
      · cases h; exact ⟨rfl, rfl, rfl⟩
      · split at h
        · split at h
          · cases hr1 : GenerateEventFuel env nu4p n
                { d with fCurrentRecord := none, fNRecLevel := d.fNRecLevel + 1 } out.2 with
            | none => rw [hr1] at h; simp at h
            | some r1 =>
              rw [hr1] at h
              simp only [Option.map_some', Option.some.injEq] at h
              subst h
              exact ih { d with fCurrentRecord := none, fNRecLevel := d.fNRecLevel + 1 } out.2
                r1 hr1
          · cases h; exact ⟨rfl, rfl, rfl⟩
        · cases h; exact ⟨rfl, rfl, rfl⟩


theorem SplineExists_cons (xsl : XSecSplineList) (key : SplineKey) (spl : Spline)
    (alg : XSecAlgorithmI) (i : Interaction) (h : xsl.SplineExists alg i = true) :
    ({ xsl with fSplineMap := (key, spl) :: xsl.fSplineMap } : XSecSplineList).SplineExists
      alg i = true := by
  unfold XSecSplineList.SplineExists XSecSplineList.GetSpline at h ⊢
  simp only [List.lookup]
  cases hk : (BuildSplineKey alg i == key)
  · exact h
  · rfl

/-- Every operation keeps the invariant, `SetInitialState` provided the flag
is off when it is called. -/
theorem step_preserves {W : Type} (env : Env W) (s s1 : Sys W) (op : Op)
    (hinv : s.driver.fUseSplines = true → s.AllSplinesExist env)
    (hguard : (!op.isSetInitialState || !s.driver.fUseSplines) = true)
    (hstep : s.step env op = some s1) :
    s1.driver.fUseSplines = true → s1.AllSplinesExist env := by
  cases op with
  | SetInitialState nu_pdgc Z A =>
    have hoff : s.driver.fUseSplines = false := by simpa [Op.isSetInitialState] using hguard
    simp only [Sys.step, GEVGDriver.SetInitialState] at hstep
    split at hstep
    · rename_i d1 heq
      split at heq
      · cases heq
        cases hstep
        intro h
        simp only [hoff] at h
        cases h
      · cases heq
    · cases hstep
  | SetFilter filter =>
    simp only [Sys.step] at hstep
    cases hstep
    exact hinv
  | FilterUnphysical on_off =>
    simp only [Sys.step] at hstep
    cases hstep
    exact hinv
  | UseSplines =>
    simp only [Sys.step] at hstep
    split at hstep
    · rename_i r heq
      cases hstep
      have hv := UseSplines_ok_valid env s.driver s.xsl r heq
      obtain ⟨tgt, ht⟩ := IsValidInitState_target env s.driver hv
      have hr1 := UseSplines_eq env s.driver s.xsl tgt hv ht
      rw [heq] at hr1
      cases hr1
      intro hflag tgt1 ht1
      simp only at hflag ht1 ⊢
      rw [ht] at ht1
      cases ht1
      exact (UseSplines_flag env s.driver s.xsl tgt).mp hflag
    · cases hstep
  | CreateSplines useLogE =>
    simp only [Sys.step] at hstep
    split at hstep
    · rename_i r heq
      cases hstep
      have hv := CreateSplines_ok_valid env s.driver s.xsl useLogE r heq
      obtain ⟨tgt, ht⟩ := IsValidInitState_target env s.driver hv
      have hr1 := CreateSplines_eq env s.driver s.xsl useLogE tgt hv ht
      rw [heq] at hr1
      cases hr1
      intro _ tgt1 ht1
      simp only at ht1 ⊢
      rw [ht] at ht1
      cases ht1
      exact CreateSplinesGenerators_covers env (InitialState.create tgt s.driver.fNuPDG)
        env.fEvGenList ⟨s.xsl.SetLogE useLogE, []⟩
    · cases hstep
  | XSecSum nup4 =>
    simp only [Sys.step] at hstep
    split at hstep
    · cases hstep
      exact hinv
    · cases hstep
  | CreateXSecSumSpline nk Emin Emax inlogE =>
    simp only [Sys.step] at hstep
    split at hstep
    · rename_i d1 heq
      cases hstep
      obtain ⟨h1, h2, h3⟩ := CreateXSecSumSpline_frame env s.driver d1 s.xsl nk Emin Emax inlogE heq
      intro hflag tgt ht
      simp only at hflag ht ⊢
      rw [h3] at hflag
      rw [h1] at ht
      rw [h2]
      exact hinv hflag tgt ht
    · cases hstep
  | GenerateEvent nu4p =>
    simp only [Sys.step] at hstep
    split at hstep
    · rename_i r heq
      split at hstep
      · cases hstep
        obtain ⟨h1, h2, h3⟩ := GenerateEventFuel_frame env nu4p _ s.driver s.world r heq
        intro hflag tgt ht
        simp only at hflag ht ⊢
        rw [h3] at hflag
        rw [h1] at ht
        rw [h2]
        exact hinv hflag tgt ht
      · cases hstep
    · cases hstep
  | cacheInsert key spl =>
    simp only [Sys.step] at hstep
    cases hstep
    intro hflag tgt ht evgen hg ilst hl i hi
    exact SplineExists_cons s.xsl key spl _ _ (hinv hflag tgt ht evgen hg ilst hl i hi)

/-- A run keeps the invariant when it retargets the driver only with the flag
off. -/
theorem run_preserves {W : Type} (env : Env W) (ops : List Op) :
    ∀ (s s1 : Sys W), (s.driver.fUseSplines = true → s.AllSplinesExist env) →
      Sys.retargetsOnlyDirect env ops s = true → Sys.run env ops s = some s1 →
        s1.driver.fUseSplines = true → s1.AllSplinesExist env := by
  induction ops with
  | nil =>
    intro s s1 hinv _ hrun
    simp only [Sys.run, Option.some.injEq] at hrun
    subst hrun
    exact hinv
  | cons op rest ih =>
    intro s s1 hinv hguard hrun
    simp only [Sys.run] at hrun
    simp only [Sys.retargetsOnlyDirect, Bool.and_eq_true] at hguard
    cases hstep : s.step env op with
    | none => rw [hstep] at hrun; cases hrun
    | some s2 =>
      rw [hstep] at hrun
      have hg2 := hguard.2
      rw [hstep] at hg2
      exact ih s2 s1 (step_preserves env s s2 op hinv hguard.1 hstep) hg2 hrun

/-- C6, as the code has it: in every state reached from a freshly constructed
driver by a sequence of public operations (and insertions into the cache by
its other clients) that calls `SetInitialState` only while the use-splines
flag is false, over a cache from which entries are never removed: if the
use-splines flag is true, every channel the registered generators produce for
the driver's current initial state has a cache entry. -/
theorem use_splines_invariant_without_retargeting {W : Type} (env : Env W) (nu0 : Int)
    (xsl : XSecSplineList) (w : W) (ops : List Op) (s : Sys W)
    (hguard : Sys.retargetsOnlyDirect env ops (Sys.fresh nu0 xsl w) = true)
    (hrun : Sys.run env ops (Sys.fresh nu0 xsl w) = some s)
    (hflag : s.driver.fUseSplines = true) : s.AllSplinesExist env := by
  refine run_preserves env ops (Sys.fresh nu0 xsl w) s ?_ hguard hrun hflag
  intro h
  cases h

/-- The amended C6 at the demonstration configuration: target set first, then
splines created and used, an event generated and the sum sampled. -/
theorem use_splines_invariant_without_retargeting_witness :
    ∃ s, Sys.run demoEnv
        [.SetInitialState 14 6 12, .cacheInsert ⟨"Other", 12, 1, 1, 7⟩ ⟨[]⟩,
          .CreateSplines false, .UseSplines, .FilterUnphysical true, .SetFilter ⟨1⟩,
          .GenerateEvent demoP4, .XSecSum demoP4, .CreateXSecSumSpline 3 1 2 false]
        (Sys.fresh 0 emptyCache 6) = some s ∧
      s.driver.fUseSplines = true ∧ s.AllSplinesExist demoEnv := by
  have hev : (Sys.run demoEnv
      [.SetInitialState 14 6 12, .cacheInsert ⟨"Other", 12, 1, 1, 7⟩ ⟨[]⟩,
        .CreateSplines false, .UseSplines, .FilterUnphysical true, .SetFilter ⟨1⟩,
        .GenerateEvent demoP4, .XSecSum demoP4, .CreateXSecSumSpline 3 1 2 false]
      (Sys.fresh 0 emptyCache 6)).map (fun s => s.driver.fUseSplines) = some true := by
    with_unfolding_all decide
  cases h : Sys.run demoEnv
      [.SetInitialState 14 6 12, .cacheInsert ⟨"Other", 12, 1, 1, 7⟩ ⟨[]⟩,
        .CreateSplines false, .UseSplines, .FilterUnphysical true, .SetFilter ⟨1⟩,
        .GenerateEvent demoP4, .XSecSum demoP4, .CreateXSecSumSpline 3 1 2 false]
      (Sys.fresh 0 emptyCache 6) with
  | none =>
    rw [h] at hev
    cases hev
  | some s =>
    rw [h] at hev
    have hflag : s.driver.fUseSplines = true := by simpa using hev
    exact ⟨s, rfl, hflag,
      use_splines_invariant_without_retargeting demoEnv 0 emptyCache 6 _ s
        (by with_unfolding_all decide) h hflag⟩

/-- C6 fails as stated: `SetInitialState` keeps the use-splines flag. After
splines were created for carbon, retargeting the driver to oxygen leaves the
flag true although no oxygen channel has a cache entry. -/
theorem use_splines_invariant_counterexample :
    ∃ s, Sys.run demoEnv
        [.SetInitialState 14 6 12, .CreateSplines false, .SetInitialState 14 8 16]
        (Sys.fresh 0 emptyCache 0) = some s ∧
      s.driver.fUseSplines = true ∧ ¬ s.AllSplinesExist demoEnv := by
  have hev : (Sys.run demoEnv
      [.SetInitialState 14 6 12, .CreateSplines false, .SetInitialState 14 8 16]
      (Sys.fresh 0 emptyCache 0)).map (fun s => (s.driver.fUseSplines, s.driver.fNuclTarget,
        s.driver.fNuPDG,
        s.xsl.SplineExists demoAlg ⟨InitialState.create ⟨8, 16⟩ 14, 1⟩)) =
      some (true, some ⟨8, 16⟩, 14, false) := by
    with_unfolding_all decide
  cases h : Sys.run demoEnv
      [.SetInitialState 14 6 12, .CreateSplines false, .SetInitialState 14 8 16]
      (Sys.fresh 0 emptyCache 0) with
  | none =>
    rw [h] at hev
    cases hev
  | some s =>
    rw [h] at hev
    simp only [Option.map_some', Option.some.injEq, Prod.mk.injEq] at hev
    obtain ⟨hflag, htgt, hpdg, hmiss⟩ := hev
    refine ⟨s, rfl, hflag, fun hall => ?_⟩
    have hex := hall ⟨8, 16⟩ htgt demoGen (by simp [demoEnv])
      [⟨InitialState.create ⟨8, 16⟩ 14, 1⟩, ⟨InitialState.create ⟨8, 16⟩ 14, 2⟩,
        ⟨InitialState.create ⟨8, 16⟩ 14, 1⟩] (by rw [hpdg]; rfl)
      ⟨InitialState.create ⟨8, 16⟩ 14, 1⟩ (by simp)
    rw [show demoGen.CrossSectionAlg = demoAlg from rfl, hmiss] at hex
    cases hex

/-! ## `ValidEnergyRange` -/

theorem ValidEnergyRangeLoop_cons {W : Type} (g : EventGeneratorI W)
    (rest : List (EventGeneratorI W)) (E : Range1D_t) :
    ValidEnergyRangeLoop (g :: rest) E =
      ValidEnergyRangeLoop rest ⟨min E.min (max (1 / 100) g.Emin), max E.max g.Emax⟩ := rfl

/-- The scan never raises the lower end nor lowers the upper end, and it
covers every generator's floored validity context. -/
theorem ValidEnergyRangeLoop_bounds {W : Type} (evgl : List (EventGeneratorI W)) :
    ∀ E : Range1D_t,
      (ValidEnergyRangeLoop evgl E).min ≤ E.min ∧ E.max ≤ (ValidEnergyRangeLoop evgl E).max ∧
      ∀ g ∈ evgl, (ValidEnergyRangeLoop evgl E).min ≤ max (1 / 100) g.Emin ∧
        g.Emax ≤ (ValidEnergyRangeLoop evgl E).max := by
  induction evgl with
  | nil =>
    intro E
    exact ⟨le_refl _, le_refl _, fun g hg => by cases hg⟩
  | cons g0 rest ih =>
    intro E
    rw [ValidEnergyRangeLoop_cons]
    obtain ⟨h1, h2, h3⟩ := ih ⟨min E.min (max (1 / 100) g0.Emin), max E.max g0.Emax⟩
    simp only at h1 h2
    refine ⟨le_trans h1 (min_le_left _ _), le_trans (le_max_left _ _) h2, ?_⟩
    intro g hg
    rcases List.mem_cons.mp hg with rfl | hg
    · exact ⟨le_trans h1 (min_le_right _ _), le_trans (le_max_right _ _) h2⟩
    · exact h3 g hg

/-- Each end of the scanned range is the starting value or the corresponding
end of some generator's floored validity context. -/
theorem ValidEnergyRangeLoop_attained {W : Type} (evgl : List (EventGeneratorI W)) :
    ∀ E : Range1D_t,
      ((ValidEnergyRangeLoop evgl E).min = E.min ∨
        ∃ g ∈ evgl, (ValidEnergyRangeLoop evgl E).min = max (1 / 100) g.Emin) ∧
      ((ValidEnergyRangeLoop evgl E).max = E.max ∨
        ∃ g ∈ evgl, (ValidEnergyRangeLoop evgl E).max = g.Emax) := by
  induction evgl with
  | nil =>
    intro E
    exact ⟨Or.inl rfl, Or.inl rfl⟩
  | cons g0 rest ih =>
    intro E
    rw [ValidEnergyRangeLoop_cons]
    obtain ⟨h1, h2⟩ := ih ⟨min E.min (max (1 / 100) g0.Emin), max E.max g0.Emax⟩
    simp only at h1 h2
    constructor
    · rcases h1 with h1 | ⟨g, hg, h1⟩
      · rcases min_choice E.min (max (1 / 100) g0.Emin) with hm | hm
        · exact Or.inl (h1.trans hm)
        · exact Or.inr ⟨g0, List.mem_cons_self _ _, h1.trans hm⟩
      · exact Or.inr ⟨g, List.mem_cons_of_mem _ hg, h1⟩
    · rcases h2 with h2 | ⟨g, hg, h2⟩
      · rcases max_choice E.max g0.Emax with hm | hm
        · exact Or.inl (h2.trans hm)
        · exact Or.inr ⟨g0, List.mem_cons_self _ _, h2.trans hm⟩
      · exact Or.inr ⟨g, List.mem_cons_of_mem _ hg, h2⟩

theorem ValidEnergyRangeLoop_floor {W : Type} (evgl : List (EventGeneratorI W)) :
    ∀ E : Range1D_t, 1 / 100 ≤ E.min → 1 / 100 ≤ (ValidEnergyRangeLoop evgl E).min := by
  induction evgl with
  | nil => intro E h; exact h
  | cons g0 rest ih =>
    intro E h
    rw [ValidEnergyRangeLoop_cons]
    exact ih _ (le_min h (le_max_left _ _))

/-- The result of `ValidEnergyRange` on a valid initial state, written out. -/
theorem ValidEnergyRange_eq {W : Type} (env : Env W) (d : GEVGDriver)
    (hv : d.IsValidInitState env = true) :
    d.ValidEnergyRange env =
      if (ValidEnergyRangeLoop env.fEvGenList ⟨9999, -9999⟩).min <
            (ValidEnergyRangeLoop env.fEvGenList ⟨9999, -9999⟩).max ∧
          (ValidEnergyRangeLoop env.fEvGenList ⟨9999, -9999⟩).min ≥ 0 then
        .ok (ValidEnergyRangeLoop env.fEvGenList ⟨9999, -9999⟩)
      else .error .badEnergyRange := by
  obtain ⟨tgt, ht⟩ := IsValidInitState_target env d hv
  unfold ValidEnergyRange
  simp only [AssertIsValidInitState, hv, ht, ↓reduceIte]

/-- A returned range is the scanned one and passed the final assertion. -/
theorem ValidEnergyRange_ok {W : Type} (env : Env W) (d : GEVGDriver) (r : Range1D_t)
    (h : d.ValidEnergyRange env = .ok r) :
    r = ValidEnergyRangeLoop env.fEvGenList ⟨9999, -9999⟩ ∧ r.min < r.max ∧ 0 ≤ r.min := by
  cases hv : d.IsValidInitState env with
  | false =>
    unfold ValidEnergyRange at h
    simp only [AssertIsValidInitState, hv] at h
    cases h
  | true =>
    rw [ValidEnergyRange_eq env d hv] at h
    split at h
    · rename_i hc
      cases h
      exact ⟨rfl, hc.1, hc.2⟩
    · cases h

/-- C14, as the code has it: when `ValidEnergyRange` returns, the maximum of
the range is the largest validity-context `Emax` over the registered
generators, and its minimum is the smallest of the generators' `Emin` raised
to the floor 0.01, `max(0.01, Emin)`, provided one of these is at most the
starting value 9999 of the scan. -/
theorem ValidEnergyRange_is_floored_union {W : Type} (env : Env W) (d : GEVGDriver)
    (r : Range1D_t) (h : d.ValidEnergyRange env = .ok r) :
    ((∀ g ∈ env.fEvGenList, g.Emax ≤ r.max) ∧ ∃ g ∈ env.fEvGenList, r.max = g.Emax) ∧
      ((∃ g ∈ env.fEvGenList, max (1 / 100) g.Emin ≤ 9999) →
        (∀ g ∈ env.fEvGenList, r.min ≤ max (1 / 100) g.Emin) ∧
          ∃ g ∈ env.fEvGenList, r.min = max (1 / 100) g.Emin) := by
  obtain ⟨hr, hlt, hpos⟩ := ValidEnergyRange_ok env d r h
  obtain ⟨hmin, _, hall⟩ := ValidEnergyRangeLoop_bounds env.fEvGenList ⟨9999, -9999⟩
  obtain ⟨hamin, hamax⟩ := ValidEnergyRangeLoop_attained env.fEvGenList ⟨9999, -9999⟩
  rw [← hr] at hmin hall hamin hamax
  simp only at hmin hamin hamax
  refine ⟨⟨fun g hg => (hall g hg).2, ?_⟩, fun ⟨g0, hg0, h0⟩ => ⟨fun g hg => (hall g hg).1, ?_⟩⟩
  · rcases hamax with hm | hm
    · exfalso
      rw [hm] at hlt
      linarith
    · exact hm
  · rcases hamin with hm | hm
    · exact ⟨g0, hg0, le_antisymm (hall g0 hg0).1 (by rw [hm]; exact h0)⟩
    · exact hm

/-- The amended C14 at the demonstration configuration: the range returned
for carbon is [0.01, 100]; 100 is the largest `Emax`, 0.01 is the floored
`Emin` of the generator whose validity context starts at 0. -/
theorem ValidEnergyRange_is_floored_union_witness :
    demoDriver.ValidEnergyRange demoEnv = .ok ⟨1 / 100, 100⟩ ∧
    ((∀ g ∈ demoEnv.fEvGenList, g.Emax ≤ (⟨1 / 100, 100⟩ : Range1D_t).max) ∧
        ∃ g ∈ demoEnv.fEvGenList, (⟨1 / 100, 100⟩ : Range1D_t).max = g.Emax) ∧
      ((∃ g ∈ demoEnv.fEvGenList, max (1 / 100) g.Emin ≤ 9999) →
        (∀ g ∈ demoEnv.fEvGenList,
          (⟨1 / 100, 100⟩ : Range1D_t).min ≤ max (1 / 100) g.Emin) ∧
          ∃ g ∈ demoEnv.fEvGenList,
            (⟨1 / 100, 100⟩ : Range1D_t).min = max (1 / 100) g.Emin) :=
  ⟨by with_unfolding_all rfl,
    ValidEnergyRange_is_floored_union demoEnv demoDriver ⟨1 / 100, 100⟩
      (by with_unfolding_all rfl)⟩

/-- C14 fails as stated: the returned minimum is not the smallest
validity-context `Emin`. For carbon in the demonstration configuration the
range returned is [0.01, 100] although a registered generator has `Emin = 0`. -/
theorem ValidEnergyRange_union_counterexample :
    demoEnv.fEvGenList ≠ [] ∧ demoDriver.IsValidInitState demoEnv = true ∧
    ∃ r, demoDriver.ValidEnergyRange demoEnv = .ok r ∧
      ∃ g ∈ demoEnv.fEvGenList, g.Emin < r.min := by
  refine ⟨by simp [demoEnv], by decide, ⟨1 / 100, 100⟩, by with_unfolding_all rfl, demoGen,
    by simp [demoEnv], ?_⟩
  show (0 : ℚ) < 1 / 100
  norm_num

/-- C15: `ValidEnergyRange` aborts when the generator list is empty and
whenever the scanned range has its minimum at or above its maximum; a range it
returns satisfies `0 ≤ min < max`. -/
theorem ValidEnergyRange_fatal_or_proper {W : Type} (env : Env W) (d : GEVGDriver) :
    (env.fEvGenList = [] → ∃ f, d.ValidEnergyRange env = .error f) ∧
    ((ValidEnergyRangeLoop env.fEvGenList ⟨9999, -9999⟩).max ≤
        (ValidEnergyRangeLoop env.fEvGenList ⟨9999, -9999⟩).min →
      ∃ f, d.ValidEnergyRange env = .error f) ∧
    (∀ r, d.ValidEnergyRange env = .ok r → 0 ≤ r.min ∧ r.min < r.max) := by
  have hinv : ∀ r, d.ValidEnergyRange env = .ok r →
      r = ValidEnergyRangeLoop env.fEvGenList ⟨9999, -9999⟩ ∧ r.min < r.max ∧ 0 ≤ r.min :=
    fun r h => ValidEnergyRange_ok env d r h
  have hbad : (ValidEnergyRangeLoop env.fEvGenList ⟨9999, -9999⟩).max ≤
      (ValidEnergyRangeLoop env.fEvGenList ⟨9999, -9999⟩).min →
      ∃ f, d.ValidEnergyRange env = .error f := by
    intro hle
    cases hres : d.ValidEnergyRange env with
    | error f => exact ⟨f, rfl⟩
    | ok r =>
      obtain ⟨hr, hlt, _⟩ := hinv r hres
      rw [hr] at hlt
      exact absurd hlt (not_lt.mpr hle)
  refine ⟨fun hnil => hbad ?_, hbad, fun r h => ⟨(hinv r h).2.2, (hinv r h).2.1⟩⟩
  rw [hnil]
  show (-9999 : ℚ) ≤ 9999
  norm_num

/-- C15 at the demonstration configuration: an empty generator list and a
single generator valid at one energy only both abort; the two demonstration
generators give [0.01, 100]. -/
theorem ValidEnergyRange_fatal_or_proper_witness :
    (∃ f, demoDriver.ValidEnergyRange { demoEnv with fEvGenList := [] } = .error f) ∧
    (∃ f, demoDriver.ValidEnergyRange pointEnv = .error f) ∧
    demoDriver.ValidEnergyRange demoEnv = .ok ⟨1 / 100, 100⟩ ∧
    (0 : ℚ) ≤ (⟨1 / 100, 100⟩ : Range1D_t).min ∧
      (⟨1 / 100, 100⟩ : Range1D_t).min < (⟨1 / 100, 100⟩ : Range1D_t).max :=
  ⟨(ValidEnergyRange_fatal_or_proper { demoEnv with fEvGenList := [] } demoDriver).1 rfl,
    (ValidEnergyRange_fatal_or_proper pointEnv demoDriver).2.1
      (by with_unfolding_all decide),
    by with_unfolding_all rfl,
    (ValidEnergyRange_fatal_or_proper demoEnv demoDriver).2.2 ⟨1 / 100, 100⟩
      (by with_unfolding_all rfl)⟩

/-- C16, as the code has it: on a valid initial state, when some registered
generator's validity context with its lower end raised to the floor 0.01
contains `E` and is not a single point, `ValidEnergyRange` returns a non-empty
range `[min, max]` with `min ≤ E ≤ max`. -/
theorem ValidEnergyRange_covers {W : Type} (env : Env W) (d : GEVGDriver) (E : ℚ)
    (g : EventGeneratorI W) (hv : d.IsValidInitState env = true) (hg : g ∈ env.fEvGenList)
    (hlo : max (1 / 100) g.Emin ≤ E) (hhi : E ≤ g.Emax)
    (hproper : max (1 / 100) g.Emin < g.Emax) :
    ∃ r, d.ValidEnergyRange env = .ok r ∧ r.min ≤ E ∧ E ≤ r.max ∧ r.min < r.max := by
  obtain ⟨_, _, hall⟩ := ValidEnergyRangeLoop_bounds env.fEvGenList ⟨9999, -9999⟩
  have hfloor := ValidEnergyRangeLoop_floor env.fEvGenList ⟨9999, -9999⟩
    (by show (1 : ℚ) / 100 ≤ 9999; norm_num)
  obtain ⟨h1, h2⟩ := hall g hg
  have hlt : (ValidEnergyRangeLoop env.fEvGenList ⟨9999, -9999⟩).min <
      (ValidEnergyRangeLoop env.fEvGenList ⟨9999, -9999⟩).max :=
    lt_of_le_of_lt h1 (lt_of_lt_of_le hproper h2)
  have hpos : (ValidEnergyRangeLoop env.fEvGenList ⟨9999, -9999⟩).min ≥ 0 :=
    le_trans (by norm_num) hfloor
  refine ⟨ValidEnergyRangeLoop env.fEvGenList ⟨9999, -9999⟩, ?_, le_trans h1 hlo,
    le_trans hhi h2, hlt⟩
  rw [ValidEnergyRange_eq env d hv, if_pos ⟨hlt, hpos⟩]

/-- The amended C16 for muon neutrinos on carbon (Z = 6, A = 12) at 1 GeV: the
range [0.01, 100] covers 1. -/
theorem ValidEnergyRange_covers_witness :
    demoDriver.ValidEnergyRange demoEnv = .ok ⟨1 / 100, 100⟩ ∧
    ∃ r, demoDriver.ValidEnergyRange demoEnv = .ok r ∧ r.min ≤ 1 ∧ 1 ≤ r.max ∧
      r.min < r.max :=
  ⟨by with_unfolding_all rfl,
    ValidEnergyRange_covers demoEnv demoDriver 1 demoGen (by decide) (by simp [demoEnv])
      (by with_unfolding_all decide) (by with_unfolding_all decide)
      (by with_unfolding_all decide)⟩

/-- C16 fails as stated, in two ways. At 5 MeV a registered generator's
validity context [0, 100] contains the energy, yet the range returned for
carbon is [0.01, 100] and does not. With a single generator valid on [1, 1]
the context contains 1 GeV, yet the call aborts. -/
theorem ValidEnergyRange_covers_counterexample :
    (∃ g ∈ demoEnv.fEvGenList, g.Emin ≤ 1 / 200 ∧ 1 / 200 ≤ g.Emax) ∧
    (∃ r, demoDriver.ValidEnergyRange demoEnv = .ok r ∧ ¬ r.min ≤ 1 / 200) ∧
    (∃ g ∈ pointEnv.fEvGenList, g.Emin ≤ 1 ∧ 1 ≤ g.Emax) ∧
    (∃ f, demoDriver.ValidEnergyRange pointEnv = .error f) := by
  refine ⟨⟨demoGen, by simp [demoEnv], by with_unfolding_all decide,
      by with_unfolding_all decide⟩,
    ⟨⟨1 / 100, 100⟩, by with_unfolding_all rfl, by with_unfolding_all decide⟩,
    ⟨{ demoGen with Emin := 1, Emax := 1 }, by simp [pointEnv],
      by with_unfolding_all decide, by with_unfolding_all decide⟩,
    ⟨.badEnergyRange, by with_unfolding_all rfl⟩⟩

/-! ## `SetInitialState` and `IsValidInitState` -/

/-- C17: when the species is a neutrino or antineutrino code and `Target(Z, A)`
is a valid nucleus or a free nucleon, `SetInitialState` returns and
`IsValidInitState` is then true; when the species is neither, every driver
`SetInitialState` returns has `IsValidInitState` false, whatever the target
(and so has the driver as written just before the target assertion). -/
theorem SetInitialState_then_IsValidInitState {W : Type} (env : Env W) (d : GEVGDriver)
    (nu_pdgc Z A : Int) :
    ((env.IsNeutrino nu_pdgc || env.IsAntiNeutrino nu_pdgc) = true →
      (env.IsValidNucleus ⟨Z, A⟩ || env.IsFreeNucleon ⟨Z, A⟩) = true →
      ∃ d1, d.SetInitialState env nu_pdgc Z A = .ok d1 ∧ d1.IsValidInitState env = true) ∧
    ((env.IsNeutrino nu_pdgc || env.IsAntiNeutrino nu_pdgc) = false →
      (∀ d1, d.SetInitialState env nu_pdgc Z A = .ok d1 → d1.IsValidInitState env = false) ∧
      IsValidInitState env { d with fNuPDG := nu_pdgc, fNuclTarget := some ⟨Z, A⟩ } = false) := by
  constructor
  · intro hnu htgt
    refine ⟨{ d with fNuPDG := nu_pdgc, fNuclTarget := some ⟨Z, A⟩ }, ?_, ?_⟩
    · simp only [GEVGDriver.SetInitialState, htgt, ↓reduceIte]
    · simp only [IsValidInitState, hnu, Bool.not_true, Bool.false_eq_true, ↓reduceIte]
  · intro hnu
    have hfalse : IsValidInitState env
        { d with fNuPDG := nu_pdgc, fNuclTarget := some ⟨Z, A⟩ } = false := by
      simp only [IsValidInitState, hnu, Bool.not_false, ↓reduceIte]
    refine ⟨fun d1 h => ?_, hfalse⟩
    simp only [GEVGDriver.SetInitialState] at h
    split at h
    · cases h
      exact hfalse
    · cases h

/-- C17 at the demonstration configuration: a muon neutrino on carbon and an
electron antineutrino on a free proton are valid; a muon on carbon is not. -/
theorem SetInitialState_then_IsValidInitState_witness :
    (∃ d1, (GEVGDriver.Initialize 0).SetInitialState demoEnv 14 6 12 = .ok d1 ∧
      d1.IsValidInitState demoEnv = true) ∧
    (∃ d1, (GEVGDriver.Initialize 0).SetInitialState demoEnv (-12) 1 1 = .ok d1 ∧
      d1.IsValidInitState demoEnv = true) ∧
    ((∀ d1, (GEVGDriver.Initialize 0).SetInitialState demoEnv 13 6 12 = .ok d1 →
        d1.IsValidInitState demoEnv = false) ∧
      IsValidInitState demoEnv
        { (GEVGDriver.Initialize 0) with fNuPDG := 13, fNuclTarget := some ⟨6, 12⟩ } = false) ∧
    ((GEVGDriver.Initialize 0).SetInitialState demoEnv 13 6 12).toOption.map
      (fun d1 => d1.IsValidInitState demoEnv) = some false :=
  ⟨(SetInitialState_then_IsValidInitState demoEnv (GEVGDriver.Initialize 0) 14 6 12).1
      (by decide) (by decide),
    (SetInitialState_then_IsValidInitState demoEnv (GEVGDriver.Initialize 0) (-12) 1 1).1
      (by decide) (by decide),
    (SetInitialState_then_IsValidInitState demoEnv (GEVGDriver.Initialize 0) 13 6 12).2
      (by decide),
    by decide⟩

/-! ## Spline mode against direct mode -/

/-- On a valid initial state `XSecSum` returns the sum of the interface
description. -/
theorem XSecSum_ok {W : Type} (env : Env W) (d : GEVGDriver) (xssl : XSecSplineList)
    (nup4 : TLorentzVector) (tgt : Target) (hv : d.IsValidInitState env = true)
    (ht : d.fNuclTarget = some tgt) :
    d.XSecSum env xssl nup4 =
      .ok (xsecSumSpec env d xssl nup4 (InitialState.create tgt d.fNuPDG)) := by
  unfold XSecSum xsecSumSpec
  simp only [AssertIsValidInitState, hv, ht, ↓reduceIte]
  rw [XSecSum_loop_eq]
  simp

theorem mem_reachableChannels {W : Type} (env : Env W) (init_state : InitialState)
    (p : EventGeneratorI W × Interaction) :
    p ∈ reachableChannels env init_state ↔
      p.1 ∈ env.fEvGenList ∧
        ∃ ilst, p.1.CreateInteractionList init_state = some ilst ∧ p.2 ∈ ilst := by
  unfold reachableChannels
  simp only [List.mem_flatten, List.mem_map]
  constructor
  · rintro ⟨l, ⟨g, hg, rfl⟩, hp⟩
    cases hl : g.CreateInteractionList init_state with
    | none => rw [hl] at hp; cases hp
    | some ilst =>
      rw [hl] at hp
      simp only [List.mem_map] at hp
      obtain ⟨i, hi, rfl⟩ := hp
      exact ⟨hg, ilst, hl, hi⟩
  · rintro ⟨hg, ilst, hl, hi⟩
    refine ⟨_, ⟨p.1, hg, rfl⟩, ?_⟩
    rw [hl]
    simp only [List.mem_map]
    exact ⟨p.2, hi, rfl⟩

/-- The sum of the interface description is a sum over the reachable
channels. -/
theorem xsecSumSpec_eq_channels {W : Type} (env : Env W) (d : GEVGDriver)
    (xssl : XSecSplineList) (nup4 : TLorentzVector) (init_state : InitialState) :
    xsecSumSpec env d xssl nup4 init_state =
      ((reachableChannels env init_state).map
        (fun p => xsecTerm env d xssl nup4 p.1 p.2)).sum := by
  unfold xsecSumSpec reachableChannels
  induction env.fEvGenList with
  | nil => rfl
  | cons g rest ih =>
    simp only [List.map_cons, List.flatten_cons, List.sum_append, List.map_append, ih]
    cases g.CreateInteractionList init_state with
    | none => rfl
    | some ilst => simp only [List.map_map, Function.comp_def]

theorem sum_map_sub_le {α : Type} (f g : α → ℚ) (eps : ℚ) (l : List α)
    (h : ∀ x ∈ l, |f x - g x| ≤ eps) :
    |(l.map f).sum - (l.map g).sum| ≤ l.length * eps := by
  induction l with
  | nil => simp
  | cons x rest ih =>
    have h1 := h x (List.mem_cons_self _ _)
    have h2 := ih (fun y hy => h y (List.mem_cons_of_mem _ hy))
    simp only [List.map_cons, List.sum_cons, List.length_cons, Nat.cast_add, Nat.cast_one]
    have hsplit : f x + (rest.map f).sum - (g x + (rest.map g).sum) =
        (f x - g x) + ((rest.map f).sum - (rest.map g).sum) := by ring
    rw [hsplit]
    calc |f x - g x + ((rest.map f).sum - (rest.map g).sum)|
        ≤ |f x - g x| + |(rest.map f).sum - (rest.map g).sum| := abs_add _ _
      _ ≤ eps + rest.length * eps := add_le_add h1 h2
      _ = (rest.length + 1) * eps := by ring

/-- C11: on a valid initial state, when every reachable channel (every entry
of the non-null interaction lists, `n` of them) has a cache entry whose curve
at the probe energy is within `eps` of the algorithm's direct cross section
for that probe 4-momentum, `XSecSum` in spline mode and `XSecSum` in direct
mode both return and differ by at most `n * eps`; they are equal when
`eps = 0`. -/
theorem XSecSum_spline_close_to_direct {W : Type} (env : Env W) (d : GEVGDriver)
    (xssl : XSecSplineList) (nup4 : TLorentzVector) (tgt : Target) (eps : ℚ)
    (hv : d.IsValidInitState env = true) (ht : d.fNuclTarget = some tgt)
    (hclose : ∀ evgen ∈ env.fEvGenList, ∀ ilst,
      evgen.CreateInteractionList (InitialState.create tgt d.fNuPDG) = some ilst →
        ∀ interaction ∈ ilst, ∃ spl,
          xssl.GetSpline evgen.CrossSectionAlg interaction = some spl ∧
          |env.Evaluate spl nup4.Energy -
            evgen.CrossSectionAlg.XSec (interaction.SetProbeP4 nup4)| ≤ eps) :
    ∃ spline direct,
      ({ d with fUseSplines := true } : GEVGDriver).XSecSum env xssl nup4 = .ok spline ∧
      ({ d with fUseSplines := false } : GEVGDriver).XSecSum env xssl nup4 = .ok direct ∧
      |spline - direct| ≤
        (reachableChannels env (InitialState.create tgt d.fNuPDG)).length * eps ∧
      (eps = 0 → spline = direct) := by
  have hbound : |xsecSumSpec env { d with fUseSplines := true } xssl nup4
        (InitialState.create tgt d.fNuPDG) -
      xsecSumSpec env { d with fUseSplines := false } xssl nup4
        (InitialState.create tgt d.fNuPDG)| ≤
      (reachableChannels env (InitialState.create tgt d.fNuPDG)).length * eps := by
    rw [xsecSumSpec_eq_channels, xsecSumSpec_eq_channels]
    apply sum_map_sub_le
    intro p hp
    obtain ⟨hg, ilst, hl, hi⟩ := (mem_reachableChannels env _ p).mp hp
    obtain ⟨spl, hspl, hle⟩ := hclose p.1 hg ilst hl p.2 hi
    simp only [xsecTerm, hspl, ↓reduceIte, Bool.false_eq_true]
    exact hle
  refine ⟨_, _, XSecSum_ok env { d with fUseSplines := true } xssl nup4 tgt (by exact hv)
    (by exact ht), XSecSum_ok env { d with fUseSplines := false } xssl nup4 tgt (by exact hv)
    (by exact ht), hbound, fun h0 => ?_⟩
  rw [h0, mul_zero] at hbound
  exact sub_eq_zero.mp (abs_nonpos_iff.mp hbound)

/-! ## `CreateXSecSumSpline` -/

/-- On a valid initial state the sampling loop visits every index, calls
`XSecSum` once per index and appends one knot per index. -/
theorem CreateXSecSumSplineLoop_valid {W : Type} (env : Env W) (d : GEVGDriver)
    (xssl : XSecSplineList) (tgt : Target) (hv : d.IsValidInitState env = true)
    (ht : d.fNuclTarget = some tgt) (inlogE : Bool) (Emin logEmin dE : ℚ) (l : List Nat) :
    ∀ (knots : List (ℚ × ℚ)) (sampled : List TLorentzVector),
      CreateXSecSumSplineLoop env d xssl inlogE Emin logEmin dE l ⟨knots, sampled, none⟩ =
        ⟨knots ++ l.map (fun (i : Nat) =>
            ((if inlogE then env.Exp (logEmin + i * dE) else Emin + i * dE),
              xsecSumSpec env d xssl
                ⟨0, 0, (if inlogE then env.Exp (logEmin + i * dE) else Emin + i * dE),
                  (if inlogE then env.Exp (logEmin + i * dE) else Emin + i * dE)⟩
                (InitialState.create tgt d.fNuPDG))),
          sampled ++ l.map (fun (i : Nat) =>
            ⟨0, 0, (if inlogE then env.Exp (logEmin + i * dE) else Emin + i * dE),
              (if inlogE then env.Exp (logEmin + i * dE) else Emin + i * dE)⟩),
          none⟩ := by
  induction l with
  | nil => intro knots sampled; simp [CreateXSecSumSplineLoop]
  | cons i rest ih =>
    intro knots sampled
    rw [CreateXSecSumSplineLoop]
    simp only [TLorentzVector.SetPxPyPzE, XSecSum_ok env d xssl _ tgt hv ht]
    rw [ih]
    simp only [List.map_cons, List.append_assoc, List.singleton_append]

/-- On an invalid initial state the first `XSecSum` call aborts the loop. -/
theorem CreateXSecSumSplineLoop_invalid {W : Type} (env : Env W) (d : GEVGDriver)
    (xssl : XSecSplineList) (hv : d.IsValidInitState env = false) (inlogE : Bool)
    (Emin logEmin dE : ℚ) (i : Nat) (rest : List Nat) (scan : SumSplineScan) :
    (CreateXSecSumSplineLoop env d xssl inlogE Emin logEmin dE (i :: rest) scan).abort =
        some .invalidInitState ∧
      (CreateXSecSumSplineLoop env d xssl inlogE Emin logEmin dE (i :: rest) scan).sampled.length
        = scan.sampled.length + 1 := by
  have hx : ∀ p4, d.XSecSum env xssl p4 = .error .invalidInitState := by
    intro p4
    unfold XSecSum
    simp only [AssertIsValidInitState, hv]
    rfl
  rw [CreateXSecSumSplineLoop]
  simp only [hx, List.length_append, List.length_singleton, and_self]

/-- The result of `CreateXSecSumSpline` when its assertions hold on a valid
initial state, written out. -/
theorem CreateXSecSumSplineRun_valid {W : Type} (env : Env W) (d : GEVGDriver)
    (xssl : XSecSplineList) (tgt : Target) (nk : Int) (Emin Emax : ℚ) (inlogE : Bool)
    (hv : d.IsValidInitState env = true) (ht : d.fNuclTarget = some tgt)
    (hflag : d.fUseSplines = true) (hnk : 2 < nk) (hmin : 0 < Emin) (hlt : Emin < Emax) :
    d.CreateXSecSumSplineRun env xssl nk Emin Emax inlogE =
      ⟨{ d with fXSecSumSpl := some ⟨(List.range nk.toNat).map (fun (i : Nat) =>
          (knotEnergy env nk Emin Emax inlogE i,
            xsecSumSpec env d xssl
              ⟨0, 0, knotEnergy env nk Emin Emax inlogE i, knotEnergy env nk Emin Emax inlogE i⟩
              (InitialState.create tgt d.fNuPDG)))⟩ },
        (List.range nk.toNat).map (fun (i : Nat) =>
          ⟨0, 0, knotEnergy env nk Emin Emax inlogE i, knotEnergy env nk Emin Emax inlogE i⟩),
        .ok ()⟩ := by
  unfold CreateXSecSumSplineRun
  have hc : (decide (Emin < Emax) && decide (Emin > 0) && decide (nk > 2)) = true := by
    simp [hlt, hmin, hnk]
  simp only [hflag, hc, Bool.not_true, Bool.false_eq_true, ↓reduceIte]
  rw [CreateXSecSumSplineLoop_valid env d xssl tgt hv ht]
  cases inlogE <;>
    simp only [List.nil_append, knotEnergy, knotEnergyIn, mul_div_assoc, ↓reduceIte,
      Bool.false_eq_true]

/-- The knot energies over any ordered field: the first is `Emin`, the last is
`Emax` and they increase strictly; in the logarithmic mode provided the
exponential undoes the logarithm on positive numbers and both increase
strictly. -/
theorem knotEnergyIn_endpoints_increasing {K : Type} [LinearOrderedField K] (Exp Log : K → K)
    (nk : Int) (Emin Emax : K) (inlogE : Bool) (hnk : 2 < nk) (hmin : 0 < Emin)
    (hlt : Emin < Emax)
    (hlaws : inlogE = true → (∀ x, 0 < x → Exp (Log x) = x) ∧ StrictMono Exp ∧
      ∀ x y, 0 < x → x < y → Log x < Log y) :
    knotEnergyIn Exp Log nk Emin Emax inlogE 0 = Emin ∧
      knotEnergyIn Exp Log nk Emin Emax inlogE (nk.toNat - 1) = Emax ∧
      ∀ i j : Nat, i < j →
        knotEnergyIn Exp Log nk Emin Emax inlogE i < knotEnergyIn Exp Log nk Emin Emax inlogE j := by
  have hnk1 : (0 : K) < (nk : K) - 1 := by
    have : (2 : K) < (nk : K) := by exact_mod_cast hnk
    linarith
  have hlast : (((nk.toNat - 1 : Nat) : K)) = (nk : K) - 1 := by
    have h1 : 1 ≤ nk.toNat := by omega
    have h2 : ((nk.toNat : Int)) = nk := Int.toNat_of_nonneg (by omega)
    rw [Nat.cast_sub h1, Nat.cast_one]
    congr 1
    exact_mod_cast h2
  unfold knotEnergyIn
  cases inlogE with
  | false =>
    simp only [Bool.false_eq_true, ↓reduceIte]
    refine ⟨by simp, ?_, ?_⟩
    · rw [hlast, mul_comm, mul_div_assoc, div_self (ne_of_gt hnk1)]
      ring
    · intro i j hij
      have hij' : (i : K) < (j : K) := by exact_mod_cast hij
      have hpos : 0 < Emax - Emin := by linarith
      have := mul_lt_mul_of_pos_right hij' hpos
      have := div_lt_div_of_pos_right this hnk1
      linarith
  | true =>
    obtain ⟨hinv, hexp, hlog⟩ := hlaws rfl
    simp only [↓reduceIte]
    refine ⟨by simp [hinv Emin hmin], ?_, ?_⟩
    · rw [hlast, mul_comm, mul_div_assoc, div_self (ne_of_gt hnk1)]
      have : Log Emin + (Log Emax - Log Emin) * 1 = Log Emax := by ring
      rw [this]
      exact hinv Emax (lt_trans hmin hlt)
    · intro i j hij
      apply hexp
      have hij' : (i : K) < (j : K) := by exact_mod_cast hij
      have hpos : 0 < Log Emax - Log Emin := by linarith [hlog Emin Emax hmin hlt]
      have := mul_lt_mul_of_pos_right hij' hpos
      have := div_lt_div_of_pos_right this hnk1
      linarith

theorem mapM_except_ok {α β : Type} (f : α → Except Fatal β) (g : α → β) (l : List α)
    (h : ∀ x ∈ l, f x = .ok (g x)) : l.mapM f = .ok (l.map g) := by
  induction l with
  | nil => rfl
  | cons x rest ih =>
    rw [List.mapM_cons, h x (List.mem_cons_self _ _),
      ih (fun y hy => h y (List.mem_cons_of_mem _ hy))]
    rfl

theorem mapM_except_error {α β : Type} (f : α → Except Fatal β) (x : α) (rest : List α)
    (e : Fatal) (h : f x = .error e) : (x :: rest).mapM f = .error e := by
  rw [List.mapM_cons, h]
  rfl

/-- The guards of `CreateXSecSumSpline`: with the flag off or bad arguments the
call aborts at once, having sampled nothing and changed nothing. -/
theorem CreateXSecSumSplineRun_rejected {W : Type} (env : Env W) (d : GEVGDriver)
    (xssl : XSecSplineList) (nk : Int) (Emin Emax : ℚ) (inlogE : Bool)
    (h : d.fUseSplines = false ∨ Emin ≤ 0 ∨ Emax ≤ Emin ∨ nk ≤ 2) :
    ∃ f, d.CreateXSecSumSplineRun env xssl nk Emin Emax inlogE = ⟨d, [], .error f⟩ ∧
      d.CreateXSecSumSpline env xssl nk Emin Emax inlogE = .error f := by
  unfold CreateXSecSumSplineRun CreateXSecSumSpline
  cases hflag : d.fUseSplines with
  | false => exact ⟨.noSplinesLoaded, rfl, rfl⟩
  | true =>
    have hc : (decide (Emin < Emax) && decide (Emin > 0) && decide (nk > 2)) = false := by
      rcases h with h | h | h | h
      · rw [hflag] at h; cases h
      · simp [not_lt.mpr h]
      · simp [not_lt.mpr h]
      · simp [not_lt.mpr h]
    simp only [hc, Bool.not_true, Bool.not_false, Bool.false_eq_true, ↓reduceIte]
    exact ⟨.badSplineRange, rfl, rfl⟩

/-- The model of `CreateXSecSumSpline` without the call log returns what the
logged run returns. -/
theorem CreateXSecSumSpline_eq_run {W : Type} (env : Env W) (d : GEVGDriver)
    (xssl : XSecSplineList) (nk : Int) (Emin Emax : ℚ) (inlogE : Bool) :
    d.CreateXSecSumSpline env xssl nk Emin Emax inlogE =
      match (d.CreateXSecSumSplineRun env xssl nk Emin Emax inlogE).ret with
      | .ok _ => .ok (d.CreateXSecSumSplineRun env xssl nk Emin Emax inlogE).driver
      | .error f => .error f := by
  by_cases hrej : d.fUseSplines = false ∨ Emin ≤ 0 ∨ Emax ≤ Emin ∨ nk ≤ 2
  · obtain ⟨f, h1, h2⟩ := CreateXSecSumSplineRun_rejected env d xssl nk Emin Emax inlogE hrej
    rw [h1, h2]
  · simp only [not_or, not_le, Bool.not_eq_false] at hrej
    obtain ⟨hflag, hmin, hlt, hnk⟩ := hrej
    have hc : (decide (Emin < Emax) && decide (Emin > 0) && decide (nk > 2)) = true := by
      simp [hlt, hmin, hnk]
    cases hv : d.IsValidInitState env with
    | true =>
      obtain ⟨tgt, ht⟩ := IsValidInitState_target env d hv
      rw [CreateXSecSumSplineRun_valid env d xssl tgt nk Emin Emax inlogE hv ht hflag hnk hmin hlt]
      unfold CreateXSecSumSpline
      simp only [hflag, hc, Bool.not_true, Bool.false_eq_true, ↓reduceIte]
      rw [mapM_except_ok _ (fun (i : Nat) =>
          (knotEnergy env nk Emin Emax inlogE i,
            xsecSumSpec env d xssl
              ⟨0, 0, knotEnergy env nk Emin Emax inlogE i, knotEnergy env nk Emin Emax inlogE i⟩
              (InitialState.create tgt d.fNuPDG)))]
      intro i _
      simp only [TLorentzVector.SetPxPyPzE, XSecSum_ok env d xssl _ tgt hv ht]
      cases inlogE <;>
        simp only [knotEnergy, knotEnergyIn, mul_div_assoc, ↓reduceIte, Bool.false_eq_true,
          Except.map]
    | false =>
      obtain ⟨m, hm⟩ : ∃ m, nk.toNat = m + 1 := ⟨nk.toNat - 1, by omega⟩
      have hx : ∀ p4, d.XSecSum env xssl p4 = .error .invalidInitState := by
        intro p4
        unfold XSecSum
        simp only [AssertIsValidInitState, hv]
        rfl
      unfold CreateXSecSumSpline CreateXSecSumSplineRun
      simp only [hflag, hc, Bool.not_true, Bool.false_eq_true, ↓reduceIte]
      rw [hm, List.range_succ_eq_map]
      rw [mapM_except_error _ _ _ .invalidInitState (by rw [hx]; rfl)]
      have habort := (CreateXSecSumSplineLoop_invalid env d xssl hv inlogE Emin
        (if inlogE then env.Log Emin else 0)
        (if inlogE then
          ((if inlogE then env.Log Emax else 0) - (if inlogE then env.Log Emin else 0)) /
            (nk - 1)
          else (Emax - Emin) / (nk - 1)) 0 (List.map Nat.succ (List.range m))
        ⟨[], [], none⟩).1
      simp only [habort]

/-- C12: `CreateXSecSumSpline(nk, Emin, Emax, inlogE)` aborts whenever the
use-splines flag is false, or `Emin ≤ 0`, or `Emin ≥ Emax`, or `nk ≤ 2`; it has
then made no `XSecSum` call, and the driver, its stored sum-spline included,
is as it was. -/
theorem CreateXSecSumSpline_rejects_before_sampling {W : Type} (env : Env W)
    (d : GEVGDriver) (xssl : XSecSplineList) (nk : Int) (Emin Emax : ℚ) (inlogE : Bool)
    (h : d.fUseSplines = false ∨ Emin ≤ 0 ∨ Emax ≤ Emin ∨ nk ≤ 2) :
    ∃ f, (d.CreateXSecSumSplineRun env xssl nk Emin Emax inlogE).ret = .error f ∧
      (d.CreateXSecSumSplineRun env xssl nk Emin Emax inlogE).sampled = [] ∧
      (d.CreateXSecSumSplineRun env xssl nk Emin Emax inlogE).driver = d ∧
      (d.CreateXSecSumSplineRun env xssl nk Emin Emax inlogE).driver.fXSecSumSpl =
        d.fXSecSumSpl ∧
      d.CreateXSecSumSpline env xssl nk Emin Emax inlogE = .error f := by
  obtain ⟨f, h1, h2⟩ := CreateXSecSumSplineRun_rejected env d xssl nk Emin Emax inlogE h
  rw [h1]
  exact ⟨f, rfl, rfl, rfl, rfl, h2⟩

/-- C12 at the demonstration configuration, once for each guard: flag off,
`Emin = 0`, `Emin = 2 ≥ Emax = 1`, `nk = 2`. The stored sum-spline stays. -/
theorem CreateXSecSumSpline_rejects_before_sampling_witness :
    (∃ f, (({ demoDriver with fXSecSumSpl := some ⟨[(1, 1)]⟩ } : GEVGDriver).CreateXSecSumSplineRun
          demoEnv emptyCache 3 1 2 false).ret = .error f ∧
      (({ demoDriver with fXSecSumSpl := some ⟨[(1, 1)]⟩ } : GEVGDriver).CreateXSecSumSplineRun
          demoEnv emptyCache 3 1 2 false).sampled = [] ∧
      (({ demoDriver with fXSecSumSpl := some ⟨[(1, 1)]⟩ } : GEVGDriver).CreateXSecSumSplineRun
          demoEnv emptyCache 3 1 2 false).driver =
        { demoDriver with fXSecSumSpl := some ⟨[(1, 1)]⟩ } ∧
      (({ demoDriver with fXSecSumSpl := some ⟨[(1, 1)]⟩ } : GEVGDriver).CreateXSecSumSplineRun
          demoEnv emptyCache 3 1 2 false).driver.fXSecSumSpl =
        ({ demoDriver with fXSecSumSpl := some ⟨[(1, 1)]⟩ } : GEVGDriver).fXSecSumSpl ∧
      ({ demoDriver with fXSecSumSpl := some ⟨[(1, 1)]⟩ } : GEVGDriver).CreateXSecSumSpline
          demoEnv emptyCache 3 1 2 false = .error f) ∧
    (∃ f, (({ demoDriver with fUseSplines := true } : GEVGDriver).CreateXSecSumSplineRun
          demoEnv emptyCache 3 0 2 false).ret = .error f ∧
      (({ demoDriver with fUseSplines := true } : GEVGDriver).CreateXSecSumSplineRun
          demoEnv emptyCache 3 0 2 false).sampled = []) ∧
    (∃ f, (({ demoDriver with fUseSplines := true } : GEVGDriver).CreateXSecSumSplineRun
          demoEnv emptyCache 3 2 1 true).ret = .error f ∧
      (({ demoDriver with fUseSplines := true } : GEVGDriver).CreateXSecSumSplineRun
          demoEnv emptyCache 3 2 1 true).sampled = []) ∧
    (∃ f, (({ demoDriver with fUseSplines := true } : GEVGDriver).CreateXSecSumSplineRun
          demoEnv emptyCache 2 1 2 false).ret = .error f ∧
      (({ demoDriver with fUseSplines := true } : GEVGDriver).CreateXSecSumSplineRun
          demoEnv emptyCache 2 1 2 false).sampled = []) :=
  ⟨CreateXSecSumSpline_rejects_before_sampling demoEnv
      { demoDriver with fXSecSumSpl := some ⟨[(1, 1)]⟩ } emptyCache 3 1 2 false (Or.inl rfl),
    (CreateXSecSumSpline_rejects_before_sampling demoEnv
      { demoDriver with fUseSplines := true } emptyCache 3 0 2 false
      (Or.inr (Or.inl (le_refl 0)))).imp (fun _ h => ⟨h.1, h.2.1⟩),
    (CreateXSecSumSpline_rejects_before_sampling demoEnv
      { demoDriver with fUseSplines := true } emptyCache 3 2 1 true
      (Or.inr (Or.inr (Or.inl (by norm_num))))).imp (fun _ h => ⟨h.1, h.2.1⟩),
    (CreateXSecSumSpline_rejects_before_sampling demoEnv
      { demoDriver with fUseSplines := true } emptyCache 2 1 2 false
      (Or.inr (Or.inr (Or.inr (le_refl 2))))).imp (fun _ h => ⟨h.1, h.2.1⟩)⟩

/-- C13: with spline mode on, `nk > 2` and `0 < Emin < Emax`, on a valid
initial state, `CreateXSecSumSpline` returns and stores a curve built from
exactly `nk` knots; knot `i` is `(E_i, XSecSum` at the 4-momentum
`(0, 0, E_i, E_i))`, where `E_i = Emin + i*(Emax-Emin)/(nk-1)` in linear mode
and `E_i = exp(ln Emin + i*(ln Emax - ln Emin)/(nk-1))` in log mode, and
`XSecSum` is called exactly at these 4-momenta, in order. `E_0 = Emin`,
`E_(nk-1) = Emax` and the energies increase strictly: always in linear mode,
and in log mode when the configuration's exponential undoes its logarithm on
positive numbers and both increase strictly, as the real exponential and
logarithm (last part) do. -/
theorem CreateXSecSumSpline_knots {W : Type} (env : Env W) (d : GEVGDriver)
    (xssl : XSecSplineList) (tgt : Target) (nk : Int) (Emin Emax : ℚ) (inlogE : Bool)
    (hv : d.IsValidInitState env = true) (ht : d.fNuclTarget = some tgt)
    (hflag : d.fUseSplines = true) (hnk : 2 < nk) (hmin : 0 < Emin) (hlt : Emin < Emax)
    (hlaws : inlogE = true → (∀ x, 0 < x → env.Exp (env.Log x) = x) ∧ StrictMono env.Exp ∧
      ∀ x y, 0 < x → x < y → env.Log x < env.Log y) :
    (∃ knots,
      (d.CreateXSecSumSplineRun env xssl nk Emin Emax inlogE).ret = .ok () ∧
      (d.CreateXSecSumSplineRun env xssl nk Emin Emax inlogE).driver =
        { d with fXSecSumSpl := some ⟨knots⟩ } ∧
      d.CreateXSecSumSpline env xssl nk Emin Emax inlogE =
        .ok { d with fXSecSumSpl := some ⟨knots⟩ } ∧
      (knots.length : Int) = nk ∧
      (d.CreateXSecSumSplineRun env xssl nk Emin Emax inlogE).sampled =
        (List.range nk.toNat).map (fun (i : Nat) =>
          ⟨0, 0, knotEnergy env nk Emin Emax inlogE i, knotEnergy env nk Emin Emax inlogE i⟩) ∧
      ∀ i : Nat, i < nk.toNat → ∃ xs,
        d.XSecSum env xssl
          ⟨0, 0, knotEnergy env nk Emin Emax inlogE i, knotEnergy env nk Emin Emax inlogE i⟩ =
            .ok xs ∧
        knots[i]? = some (knotEnergy env nk Emin Emax inlogE i, xs)) ∧
    (knotEnergy env nk Emin Emax inlogE 0 = Emin ∧
      knotEnergy env nk Emin Emax inlogE (nk.toNat - 1) = Emax ∧
      ∀ i j : Nat, i < j →
        knotEnergy env nk Emin Emax inlogE i < knotEnergy env nk Emin Emax inlogE j) ∧
    (∀ a b : ℝ, 0 < a → a < b →
      knotEnergyIn Real.exp Real.log nk a b true 0 = a ∧
      knotEnergyIn Real.exp Real.log nk a b true (nk.toNat - 1) = b ∧
      ∀ i j : Nat, i < j →
        knotEnergyIn Real.exp Real.log nk a b true i <
          knotEnergyIn Real.exp Real.log nk a b true j) := by
  have hrun := CreateXSecSumSplineRun_valid env d xssl tgt nk Emin Emax inlogE hv ht hflag hnk
    hmin hlt
  have hold := CreateXSecSumSpline_eq_run env d xssl nk Emin Emax inlogE
  rw [hrun] at hold
  refine ⟨⟨_, by rw [hrun], by rw [hrun], hold, ?_, by rw [hrun], ?_⟩,
    knotEnergyIn_endpoints_increasing env.Exp env.Log nk Emin Emax inlogE hnk hmin hlt hlaws,
    fun a b ha hab => knotEnergyIn_endpoints_increasing Real.exp Real.log nk a b true hnk ha hab
      (fun _ => ⟨fun x hx => Real.exp_log hx, Real.exp_strictMono,
        fun x y hx hxy => Real.log_lt_log hx hxy⟩)⟩
  · simp only [List.length_map, List.length_range]
    exact Int.toNat_of_nonneg (by omega)
  · intro i hi
    refine ⟨_, XSecSum_ok env d xssl _ tgt hv ht, ?_⟩
    simp only [List.getElem?_map, List.getElem?_range hi, Option.map_some']

/-- The stand-ins of `kinkEnv` behave like an exponential and a logarithm. -/
theorem kinkEnv_laws :
    (∀ x : ℚ, 0 < x → kinkEnv.Exp (kinkEnv.Log x) = x) ∧ StrictMono kinkEnv.Exp ∧
      ∀ x y : ℚ, 0 < x → x < y → kinkEnv.Log x < kinkEnv.Log y := by
  refine ⟨?_, ?_, ?_⟩
  · intro x _
    simp only [kinkEnv]
    split_ifs <;> linarith
  · intro a b hab
    simp only [kinkEnv]
    split_ifs <;> linarith
  · intro x y _ hxy
    simp only [kinkEnv]
    split_ifs <;> linarith

/-- C13 at the demonstration configuration with a kinked exponential: four
knots between 0.5 and 3 GeV; in log mode the energies are 1/2, 1, 2, 3, in
linear mode 1/2, 4/3, 13/6, 3; the sum of the three direct cross sections is 4
at each of them. -/
theorem CreateXSecSumSpline_knots_witness :
    (knotEnergy kinkEnv 4 (1 / 2) 3 true 0 = 1 / 2 ∧
      knotEnergy kinkEnv 4 (1 / 2) 3 true ((4 : Int).toNat - 1) = 3 ∧
      ∀ i j : Nat, i < j →
        knotEnergy kinkEnv 4 (1 / 2) 3 true i < knotEnergy kinkEnv 4 (1 / 2) 3 true j) ∧
    (({ demoDriver with fUseSplines := true } : GEVGDriver).CreateXSecSumSplineRun kinkEnv
        emptyCache 4 (1 / 2) 3 true).driver.fXSecSumSpl =
      some ⟨[(1 / 2, 4), (1, 4), (2, 4), (3, 4)]⟩ ∧
    (({ demoDriver with fUseSplines := true } : GEVGDriver).CreateXSecSumSplineRun kinkEnv
        emptyCache 4 (1 / 2) 3 true).sampled =
      [⟨0, 0, 1 / 2, 1 / 2⟩, ⟨0, 0, 1, 1⟩, ⟨0, 0, 2, 2⟩, ⟨0, 0, 3, 3⟩] ∧
    (({ demoDriver with fUseSplines := true } : GEVGDriver).CreateXSecSumSplineRun kinkEnv
        emptyCache 4 (1 / 2) 3 false).driver.fXSecSumSpl =
      some ⟨[(1 / 2, 4), (4 / 3, 4), (13 / 6, 4), (3, 4)]⟩ :=
  ⟨(CreateXSecSumSpline_knots kinkEnv { demoDriver with fUseSplines := true } emptyCache
      ⟨6, 12⟩ 4 (1 / 2) 3 true (by decide) rfl rfl (by decide) (by norm_num) (by norm_num)
      (fun _ => kinkEnv_laws)).2.1,
    by with_unfolding_all decide, by with_unfolding_all decide, by with_unfolding_all decide⟩

/-- C11 at the demonstration configuration: the curve cached for process 1
gives 1 (its direct value) and the curve for process 2 gives 3 (direct value
2), so with `eps = 1` the sums 5 and 4 differ by at most `3 * 1`. -/
theorem XSecSum_spline_close_to_direct_witness :
    (∃ spline direct,
      ({ demoDriver with fUseSplines := true } : GEVGDriver).XSecSum demoEnv
        ⟨false, [(⟨"DemoXSec", 14, 6, 12, 1⟩, ⟨[(1, 1)]⟩),
          (⟨"DemoXSec", 14, 6, 12, 2⟩, ⟨[(1, 2), (2, 2), (3, 2)]⟩)]⟩ demoP4 = .ok spline ∧
      ({ demoDriver with fUseSplines := false } : GEVGDriver).XSecSum demoEnv
        ⟨false, [(⟨"DemoXSec", 14, 6, 12, 1⟩, ⟨[(1, 1)]⟩),
          (⟨"DemoXSec", 14, 6, 12, 2⟩, ⟨[(1, 2), (2, 2), (3, 2)]⟩)]⟩ demoP4 = .ok direct ∧
      |spline - direct| ≤
        (reachableChannels demoEnv (InitialState.create ⟨6, 12⟩ demoDriver.fNuPDG)).length * 1 ∧
      ((1 : ℚ) = 0 → spline = direct)) ∧
    (reachableChannels demoEnv (InitialState.create ⟨6, 12⟩ 14)).length = 3 ∧
    (({ demoDriver with fUseSplines := true } : GEVGDriver).XSecSum demoEnv
        ⟨false, [(⟨"DemoXSec", 14, 6, 12, 1⟩, ⟨[(1, 1)]⟩),
          (⟨"DemoXSec", 14, 6, 12, 2⟩, ⟨[(1, 2), (2, 2), (3, 2)]⟩)]⟩ demoP4).toOption =
      some 5 ∧
    (demoDriver.XSecSum demoEnv
        ⟨false, [(⟨"DemoXSec", 14, 6, 12, 1⟩, ⟨[(1, 1)]⟩),
          (⟨"DemoXSec", 14, 6, 12, 2⟩, ⟨[(1, 2), (2, 2), (3, 2)]⟩)]⟩ demoP4).toOption =
      some 4 :=
  ⟨XSecSum_spline_close_to_direct demoEnv demoDriver _ demoP4 ⟨6, 12⟩ 1 (by decide) rfl
      (by
        intro evgen hg ilst hl i hi
        simp only [demoEnv, List.mem_cons, List.mem_singleton, List.not_mem_nil,
          or_false] at hg
        rcases hg with rfl | rfl
        · cases hl
        · simp only [demoGen, Option.some.injEq] at hl
          subst hl
          simp only [List.mem_cons, List.mem_singleton, List.not_mem_nil, or_false] at hi
          rcases hi with rfl | rfl | rfl
          · exact ⟨⟨[(1, 1)]⟩, by with_unfolding_all rfl, by with_unfolding_all decide⟩
          · exact ⟨⟨[(1, 2), (2, 2), (3, 2)]⟩, by with_unfolding_all rfl,
              by with_unfolding_all decide⟩
          · exact ⟨⟨[(1, 1)]⟩, by with_unfolding_all rfl, by with_unfolding_all decide⟩),
    by decide, by with_unfolding_all decide, by with_unfolding_all decide⟩

/-! ## Event generation: what the selector is handed, and the retry counter -/

/-- A failed attempt consults the selector at most once, with the configured
species and target and the supplied 4-momentum. -/
theorem GenerateEventFuel_attempt_none_selects {W : Type} (env : Env W)
    (nu4p : TLorentzVector) (d : GEVGDriver) (w : W)
    (h : attemptOnce env d nu4p w = none) :
    ∃ r, (∀ n, GenerateEventFuel env nu4p (n + 1) d w = some r) ∧
      ∀ init, Call.select init ∈ r.calls →
        some init.fTarget = d.fNuclTarget ∧ init.fProbePdgC = d.fNuPDG ∧
          init.fProbeP4 = nu4p := by
  unfold attemptOnce at h
  cases hv : d.IsValidInitState env
  · refine ⟨⟨d, w, [], .error .invalidInitState⟩, fun n => ?_, fun init hi => by cases hi⟩
    rw [GenerateEventFuel]
    simp only [AssertIsValidInitState, hv]
    rfl
  · rw [hv] at h
    simp only [if_true] at h
    rcases Option.eq_none_or_eq_some d.fNuclTarget with ht | ⟨tgt, ht⟩
    · refine ⟨⟨d, w, [], .error .invalidInitState⟩, fun n => ?_, fun init hi => by cases hi⟩
      rw [GenerateEventFuel]
      simp only [AssertIsValidInitState, hv, ht, ↓reduceIte]
    · rw [ht] at h
      simp only at h
      rcases hs : env.SelectInteraction d.fFilter
          ((InitialState.create tgt d.fNuPDG).SetProbeP4 nu4p) w with ⟨_ | rec0, w1⟩
      · refine ⟨⟨{ d with fCurrentRecord := none }, w1,
          [.select ((InitialState.create tgt d.fNuPDG).SetProbeP4 nu4p)],
          .error .noInteractionSelected⟩, fun n => ?_, fun init hi => ?_⟩
        · rw [GenerateEventFuel]
          simp only [AssertIsValidInitState, hv, ht, hs, ↓reduceIte]
        · simp only [List.mem_singleton, Call.select.injEq] at hi
          subst hi
          exact ⟨ht.symm, rfl, rfl⟩
      · rw [hs] at h
        simp only at h
        cases hg : env.FindGenerator rec0.GetInteraction with
        | none =>
          refine ⟨⟨{ d with fCurrentRecord := some rec0 }, w1,
            [.select ((InitialState.create tgt d.fNuPDG).SetProbeP4 nu4p),
              .find rec0.GetInteraction],
            .error .noEventGenerator⟩, fun n => ?_, fun init hi => ?_⟩
          · rw [GenerateEventFuel]
            simp only [AssertIsValidInitState, hv, ht, hs, hg, ↓reduceIte]
          · simp only [List.mem_cons, Call.select.injEq, List.mem_singleton, reduceCtorEq,
              List.not_mem_nil, or_false] at hi
            subst hi
            exact ⟨ht.symm, rfl, rfl⟩
        | some evgen =>
          rw [hg] at h
          simp at h

/-- An attempt that builds a record consulted the selector once, with the
configured species and target and the supplied 4-momentum. -/
theorem GenerateEventFuel_attempt_some_selects {W : Type} (env : Env W)
    (nu4p : TLorentzVector) (d : GEVGDriver) (w : W) (out : EventRecord × W)
    (h : attemptOnce env d nu4p w = some out) :
    ∃ calls,
      (∀ init, Call.select init ∈ calls →
        some init.fTarget = d.fNuclTarget ∧ init.fProbePdgC = d.fNuPDG ∧
          init.fProbeP4 = nu4p) ∧
      ∀ n, GenerateEventFuel env nu4p (n + 1) d w =
        if !d.fFilterUnphysical then
          some ⟨{ d with fCurrentRecord := some out.1 }, out.2, calls, .ok out.1⟩
        else if out.1.IsUnphysical then
          if d.fNRecLevel + 1 ≤ env.kRecursiveModeMaxDepth then
            (GenerateEventFuel env nu4p n
              { d with fCurrentRecord := none, fNRecLevel := d.fNRecLevel + 1 } out.2).map
              (fun r => { r with calls := calls ++ r.calls })
          else
            some ⟨{ d with fCurrentRecord := none, fNRecLevel := d.fNRecLevel + 1 }, out.2,
              calls, .error .recursiveModeMaxDepth⟩
        else some ⟨{ d with fCurrentRecord := some out.1, fNRecLevel := 0 }, out.2, calls,
          .ok out.1⟩ := by
  unfold attemptOnce at h
  cases hv : d.IsValidInitState env
  · rw [hv] at h
    simp at h
  · rw [hv] at h
    simp only [if_true] at h
    rcases Option.eq_none_or_eq_some d.fNuclTarget with ht | ⟨tgt, ht⟩
    · rw [ht] at h
      simp at h
    · rw [ht] at h
      simp only at h
      rcases hs : env.SelectInteraction d.fFilter
          ((InitialState.create tgt d.fNuPDG).SetProbeP4 nu4p) w with ⟨_ | rec0, w1⟩
      · rw [hs] at h
        simp at h
      · rw [hs] at h
        simp only at h
        cases hg : env.FindGenerator rec0.GetInteraction with
        | none =>
          rw [hg] at h
          simp at h
        | some evgen =>
          rw [hg] at h
          simp only [Option.some.injEq] at h
          subst h
          refine ⟨[Call.select ((InitialState.create tgt d.fNuPDG).SetProbeP4 nu4p),
            .find rec0.GetInteraction, .process evgen.Id rec0], fun init hi => ?_, fun n => ?_⟩
          · simp only [List.mem_cons, Call.select.injEq, List.mem_singleton, reduceCtorEq,
              List.not_mem_nil, or_false] at hi
            subst hi
            exact ⟨ht.symm, rfl, rfl⟩
          · rw [GenerateEventFuel]
            simp only [AssertIsValidInitState, hv, ht, hs, hg, ↓reduceIte]

/-- Every selector call of a `GenerateEvent` run, regenerations included, is
handed the configured species and target and the supplied 4-momentum. -/
theorem GenerateEventFuel_selects {W : Type} (env : Env W) (nu4p : TLorentzVector) (n : Nat) :
    ∀ (d : GEVGDriver) (w : W) (r : GenResult W), GenerateEventFuel env nu4p n d w = some r →
      ∀ init, Call.select init ∈ r.calls →
        some init.fTarget = d.fNuclTarget ∧ init.fProbePdgC = d.fNuPDG ∧
          init.fProbeP4 = nu4p := by
  induction n with
  | zero => intro d w r h; simp [GenerateEventFuel] at h
  | succ n ih =>
    intro d w r h init hi
    cases ha : attemptOnce env d nu4p w with
    | none =>
      obtain ⟨r1, hr1, hsel⟩ := GenerateEventFuel_attempt_none_selects env nu4p d w ha
      rw [hr1 n] at h
      cases h
      exact hsel init hi
    | some out =>
      obtain ⟨calls, hsel, hr⟩ := GenerateEventFuel_attempt_some_selects env nu4p d w out ha
      rw [hr n] at h
      split at h
      · cases h; exact hsel init hi
      · split at h
        · split at h
          · cases hr1 : GenerateEventFuel env nu4p n
                { d with fCurrentRecord := none, fNRecLevel := d.fNRecLevel + 1 } out.2 with
            | none => rw [hr1] at h; simp at h
            | some r1 =>
              rw [hr1] at h
              simp only [Option.map_some', Option.some.injEq] at h
              subst h
              rcases List.mem_append.mp hi with hi | hi
              · exact hsel init hi
              · exact ih { d with fCurrentRecord := none, fNRecLevel := d.fNRecLevel + 1 }
                  out.2 r1 hr1 init hi
          · cases h; exact hsel init hi
        · cases h; exact hsel init hi

/-- C18: `GenerateEvent` terminates, and at every attempt it makes (the first
and every regeneration after an unphysical outcome) the initial state handed
to the Interaction Selector carries the driver's configured target, its
configured probe species and exactly the probe 4-momentum the caller
supplied. -/
theorem GenerateEvent_selector_initial_state {W : Type} (env : Env W) (d : GEVGDriver)
    (w : W) (nu4p : TLorentzVector) :
    ∃ r, d.GenerateEvent env w nu4p = some r ∧
      ∀ init, Call.select init ∈ r.calls →
        some init.fTarget = d.fNuclTarget ∧ init.fProbePdgC = d.fNuPDG ∧
          init.fProbeP4 = nu4p := by
  obtain ⟨r, hr⟩ := GenerateEventFuel_total env nu4p
    (env.kRecursiveModeMaxDepth + 1 - d.fNRecLevel + 1) d w (by omega)
  exact ⟨r, hr, GenerateEventFuel_selects env nu4p _ d w r hr⟩

/-- C18 at the demonstration configuration: three attempts for a muon neutrino
on carbon at 1 GeV, each handing the same initial state to the selector. -/
theorem GenerateEvent_selector_initial_state_witness :
    (∃ r, demoDriver.GenerateEvent demoEnv 6 demoP4 = some r ∧
      ∀ init, Call.select init ∈ r.calls →
        some init.fTarget = demoDriver.fNuclTarget ∧ init.fProbePdgC = demoDriver.fNuPDG ∧
          init.fProbeP4 = demoP4) ∧
    (demoDriver.GenerateEvent demoEnv 6 demoP4).map
        (fun r => r.calls.filterMap (fun c => match c with
          | .select init => some init
          | _ => none)) =
      some [⟨⟨6, 12⟩, 14, demoP4⟩, ⟨⟨6, 12⟩, 14, demoP4⟩, ⟨⟨6, 12⟩, 14, demoP4⟩] :=
  ⟨GenerateEvent_selector_initial_state demoEnv demoDriver 6 demoP4, by decide⟩

/-- A run that ends in the depth abort made one attempt per level from the
entry level up to `kRecursiveModeMaxDepth`, and leaves the counter one above
that constant. -/
theorem GenerateEventFuel_depth_abort {W : Type} (env : Env W) (nu4p : TLorentzVector)
    (n : Nat) :
    ∀ (d : GEVGDriver) (w : W) (r : GenResult W), GenerateEventFuel env nu4p n d w = some r →
      r.ret = .error .recursiveModeMaxDepth → d.fNRecLevel ≤ env.kRecursiveModeMaxDepth →
        selectCount r.calls = env.kRecursiveModeMaxDepth - d.fNRecLevel + 1 ∧
        processCount r.calls = env.kRecursiveModeMaxDepth - d.fNRecLevel + 1 ∧
        r.driver.fNRecLevel = env.kRecursiveModeMaxDepth + 1 := by
  induction n with
  | zero => intro d w r h; simp [GenerateEventFuel] at h
  | succ n ih =>
    intro d w r h hret hle
    cases ha : attemptOnce env d nu4p w with
    | none =>
      obtain ⟨r1, f, hr1, hf, hne, _⟩ := GenerateEventFuel_attempt_none env nu4p d w ha
      rw [hr1 n] at h
      cases h
      rw [hf] at hret
      cases hret
      exact absurd rfl hne
    | some out =>
      obtain ⟨calls, hsel, hproc, hr⟩ := GenerateEventFuel_attempt_some env nu4p d w out ha
      rw [hr n] at h
      split at h
      · cases h; cases hret
      · split at h
        · split at h
          · rename_i hl
            cases hr1 : GenerateEventFuel env nu4p n
                { d with fCurrentRecord := none, fNRecLevel := d.fNRecLevel + 1 } out.2 with
            | none => rw [hr1] at h; simp at h
            | some r1 =>
              rw [hr1] at h
              simp only [Option.map_some', Option.some.injEq] at h
              subst h
              obtain ⟨h1, h2, h3⟩ :=
                ih { d with fCurrentRecord := none, fNRecLevel := d.fNRecLevel + 1 } out.2 r1
                  hr1 hret hl
              simp only at h1 h2
              refine ⟨?_, ?_, h3⟩
              · simp only [selectCount_append, hsel, h1]
                omega
              · simp only [processCount_append, hproc, h2]
                omega
          · rename_i hl
            cases h
            refine ⟨?_, ?_, ?_⟩
            · simp only [hsel]; omega
            · simp only [hproc]; omega
            · simp only; omega
        · cases h; cases hret

/-- C19 does not hold of the code: when `GenerateEvent`, entered with the retry
counter at 0, aborts because no physical event could be produced, it has made
`kRecursiveModeMaxDepth + 1` generation attempts (selections and
constructions), one more than the `kRecursiveModeMaxDepth` its abort message
reports. -/
theorem GenerateEvent_depth_abort_attempts {W : Type} (env : Env W) (d : GEVGDriver)
    (w : W) (nu4p : TLorentzVector) (r : GenResult W) (h0 : d.fNRecLevel = 0)
    (hr : d.GenerateEvent env w nu4p = some r)
    (habort : r.ret = .error .recursiveModeMaxDepth) :
    selectCount r.calls = env.kRecursiveModeMaxDepth + 1 ∧
      processCount r.calls = env.kRecursiveModeMaxDepth + 1 := by
  obtain ⟨h1, h2, _⟩ := GenerateEventFuel_depth_abort env nu4p _ d w r hr habort (by omega)
  rw [h0] at h1 h2
  exact ⟨h1, h2⟩

/-- C19 at the demonstration configuration, where `kRecursiveModeMaxDepth` is
2: from world 0 every attempt is unphysical and the abort comes after 3
attempts. -/
theorem GenerateEvent_depth_abort_attempts_witness :
    demoEnv.kRecursiveModeMaxDepth = 2 ∧
    ∃ r, demoDriver.GenerateEvent demoEnv 0 demoP4 = some r ∧
      r.ret = .error .recursiveModeMaxDepth ∧
      selectCount r.calls = 3 ∧ processCount r.calls = 3 := by
  have hev : (demoDriver.GenerateEvent demoEnv 0 demoP4).map (fun r => r.ret) =
      some (.error .recursiveModeMaxDepth) := rfl
  cases h : demoDriver.GenerateEvent demoEnv 0 demoP4 with
  | none =>
    rw [h] at hev
    cases hev
  | some r =>
    rw [h] at hev
    simp only [Option.map_some', Option.some.injEq] at hev
    exact ⟨rfl, r, rfl, hev,
      GenerateEvent_depth_abort_attempts demoEnv demoDriver 0 demoP4 r rfl h hev⟩

/-- A call that returns a record leaves the retry counter at 0 when filtering
is on and as it was when filtering is off. -/
theorem GenerateEventFuel_level_on_return {W : Type} (env : Env W) (nu4p : TLorentzVector)
    (n : Nat) :
    ∀ (d : GEVGDriver) (w : W) (r : GenResult W) (rec : EventRecord),
      GenerateEventFuel env nu4p n d w = some r → r.ret = .ok rec →
        r.driver.fNRecLevel = if d.fFilterUnphysical then 0 else d.fNRecLevel := by
  induction n with
  | zero => intro d w r rec h; simp [GenerateEventFuel] at h
  | succ n ih =>
    intro d w r rec h hret
    cases ha : attemptOnce env d nu4p w with
    | none =>
      obtain ⟨r1, f, hr1, hf, _⟩ := GenerateEventFuel_attempt_none env nu4p d w ha
      rw [hr1 n] at h
      cases h
      rw [hf] at hret
      cases hret
    | some out =>
      obtain ⟨calls, _, _, hr⟩ := GenerateEventFuel_attempt_some env nu4p d w out ha
      rw [hr n] at h
      cases hf : d.fFilterUnphysical with
      | false =>
        rw [hf] at h
        simp only [Bool.not_false, ↓reduceIte, Option.some.injEq] at h
        subst h
        simp
      | true =>
        have hnf : ¬ ((!d.fFilterUnphysical) = true) := by simp [hf]
        rw [if_neg hnf] at h
        split at h
        · split at h
          · cases hr1 : GenerateEventFuel env nu4p n
                { d with fCurrentRecord := none, fNRecLevel := d.fNRecLevel + 1 } out.2 with
            | none => rw [hr1] at h; simp at h
            | some r1 =>
              rw [hr1] at h
              simp only [Option.map_some', Option.some.injEq] at h
              subst h
              have := ih { d with fCurrentRecord := none, fNRecLevel := d.fNRecLevel + 1 }
                out.2 r1 rec hr1 hret
              simp only [hf, ↓reduceIte] at this ⊢
              exact this
          · cases h; cases hret
        · cases h
          simp

theorem UseSplines_level {W : Type} (env : Env W) (d : GEVGDriver) (xsl : XSecSplineList)
    (r : UseSplinesResult) (h : d.UseSplines env xsl = .ok r) :
    r.driver.fNRecLevel = d.fNRecLevel := by
  have hv := UseSplines_ok_valid env d xsl r h
  obtain ⟨tgt, ht⟩ := IsValidInitState_target env d hv
  rw [UseSplines_eq env d xsl tgt hv ht] at h
  cases h
  rfl

theorem CreateSplines_level {W : Type} (env : Env W) (d : GEVGDriver) (xsl : XSecSplineList)
    (b : Bool) (r : CreateSplinesResult) (h : d.CreateSplines env xsl b = .ok r) :
    r.driver.fNRecLevel = d.fNRecLevel := by
  have hv := CreateSplines_ok_valid env d xsl b r h
  obtain ⟨tgt, ht⟩ := IsValidInitState_target env d hv
  rw [CreateSplines_eq env d xsl b tgt hv ht] at h
  cases h
  rfl

theorem CreateXSecSumSpline_level {W : Type} (env : Env W) (d d1 : GEVGDriver)
    (xsl : XSecSplineList) (nk : Int) (a b : ℚ) (l : Bool)
    (h : d.CreateXSecSumSpline env xsl nk a b l = .ok d1) :
    d1.fNRecLevel = d.fNRecLevel := by
  unfold CreateXSecSumSpline at h
  split at h
  · cases h
  · split at h
    · cases h
    · simp only at h
      split at h
      · cases h
        rfl
      · cases h

/-- No operation that returns leaves the retry counter above 0 when it found
it at 0. -/
theorem step_level_zero {W : Type} (env : Env W) (s s1 : Sys W) (op : Op)
    (h0 : s.driver.fNRecLevel = 0) (hstep : s.step env op = some s1) :
    s1.driver.fNRecLevel = 0 := by
  cases op with
  | SetInitialState nu_pdgc Z A =>
    simp only [Sys.step, GEVGDriver.SetInitialState] at hstep
    split at hstep
    · rename_i d1 heq
      split at heq
      · cases heq
        cases hstep
        exact h0
      · cases heq
    · cases hstep
  | SetFilter filter =>
    simp only [Sys.step] at hstep
    cases hstep
    exact h0
  | FilterUnphysical on_off =>
    simp only [Sys.step] at hstep
    cases hstep
    exact h0
  | UseSplines =>
    simp only [Sys.step] at hstep
    split at hstep
    · rename_i r heq
      cases hstep
      exact (UseSplines_level env s.driver s.xsl r heq).trans h0
    · cases hstep
  | CreateSplines useLogE =>
    simp only [Sys.step] at hstep
    split at hstep
    · rename_i r heq
      cases hstep
      exact (CreateSplines_level env s.driver s.xsl useLogE r heq).trans h0
    · cases hstep
  | XSecSum nup4 =>
    simp only [Sys.step] at hstep
    split at hstep
    · cases hstep
      exact h0
    · cases hstep
  | CreateXSecSumSpline nk Emin Emax inlogE =>
    simp only [Sys.step] at hstep
    split at hstep
    · rename_i d1 heq
      cases hstep
      exact (CreateXSecSumSpline_level env s.driver d1 s.xsl nk Emin Emax inlogE heq).trans h0
    · cases hstep
  | GenerateEvent nu4p =>
    simp only [Sys.step] at hstep
    split at hstep
    · rename_i r heq
      split at hstep
      · rename_i rec hret
        cases hstep
        have := GenerateEventFuel_level_on_return env nu4p _ s.driver s.world r rec heq hret
        simp only
        rw [this, h0]
        simp
      · cases hstep
    · cases hstep
  | cacheInsert key spl =>
    simp only [Sys.step] at hstep
    cases hstep
    exact h0

theorem run_level_zero {W : Type} (env : Env W) (ops : List Op) :
    ∀ (s s1 : Sys W), s.driver.fNRecLevel = 0 → Sys.run env ops s = some s1 →
      s1.driver.fNRecLevel = 0 := by
  induction ops with
  | nil =>
    intro s s1 h0 hrun
    simp only [Sys.run, Option.some.injEq] at hrun
    subst hrun
    exact h0
  | cons op rest ih =>
    intro s s1 h0 hrun
    simp only [Sys.run] at hrun
    cases hstep : s.step env op with
    | none => rw [hstep] at hrun; cases hrun
    | some s2 =>
      rw [hstep] at hrun
      exact ih s2 s1 (step_level_zero env s s2 op h0 hstep) hrun

/-- C20: the retry counter `fNRecLevel` is 0 whenever `GenerateEvent` is not
executing: in every state reached from a freshly constructed driver by a
sequence of public operations that returned (`GenerateEvent` calls with
filtering on or off, interleaved in any way with `FilterUnphysical`,
`SetInitialState`, `SetFilter`, `UseSplines`, `CreateSplines`, `XSecSum`, also
`CreateXSecSumSpline`), the counter is 0, so the next event starts with the
full retry budget. -/
theorem retry_counter_zero_between_events {W : Type} (env : Env W) (nu0 : Int)
    (xsl : XSecSplineList) (w : W) (ops : List Op) (s : Sys W)
    (hrun : Sys.run env ops (Sys.fresh nu0 xsl w) = some s) :
    s.driver.fNRecLevel = 0 :=
  run_level_zero env ops (Sys.fresh nu0 xsl w) s rfl hrun

/-- C20 at the demonstration configuration: with filtering off an unphysical
event is returned; with filtering on again an event needs two regenerations;
a third event follows, with other operations in between. -/
theorem retry_counter_zero_between_events_witness :
    (Sys.fresh 0 emptyCache (4 : Nat)).driver.fNRecLevel = 0 ∧
    ∃ s, Sys.run demoEnv
        [.SetInitialState 14 6 12, .FilterUnphysical false, .GenerateEvent demoP4,
          .FilterUnphysical true, .SetInitialState 14 8 16, .CreateSplines false,
          .GenerateEvent demoP4, .XSecSum demoP4, .UseSplines, .SetFilter ⟨1⟩,
          .GenerateEvent demoP4]
        (Sys.fresh 0 emptyCache 4) = some s ∧
      s.driver.fNRecLevel = 0 := by
  refine ⟨rfl, ?_⟩
  cases h : Sys.run demoEnv
      [.SetInitialState 14 6 12, .FilterUnphysical false, .GenerateEvent demoP4,
        .FilterUnphysical true, .SetInitialState 14 8 16, .CreateSplines false,
        .GenerateEvent demoP4, .XSecSum demoP4, .UseSplines, .SetFilter ⟨1⟩,
        .GenerateEvent demoP4]
      (Sys.fresh 0 emptyCache 4) with
  | none =>
    have hev : (Sys.run demoEnv
        [.SetInitialState 14 6 12, .FilterUnphysical false, .GenerateEvent demoP4,
          .FilterUnphysical true, .SetInitialState 14 8 16, .CreateSplines false,
          .GenerateEvent demoP4, .XSecSum demoP4, .UseSplines, .SetFilter ⟨1⟩,
          .GenerateEvent demoP4]
        (Sys.fresh 0 emptyCache 4)).isSome = true := by
      with_unfolding_all decide
    rw [h] at hev
    cases hev
  | some s =>
    exact ⟨s, rfl, retry_counter_zero_between_events demoEnv 0 emptyCache 4 _ s h⟩

/-! ## GCylindTH1Flux: species selection -/

theorem SelectNeutrinoFill_exact (Ev : ℚ) (sp : List TH1D) (pre : List ℚ) :
    GCylindTH1Flux.SelectNeutrinoFill Ev sp pre.length
        (pre.map some ++ List.replicate sp.length none)
      = .ok ((pre ++ sp.map (fun s => s.GetBinContent (s.FindBin Ev))).map some) := by
  induction sp generalizing pre with
  | nil => simp [GCylindTH1Flux.SelectNeutrinoFill]
  | cons s rest ih =>
    rw [GCylindTH1Flux.SelectNeutrinoFill]
    have hlt : pre.length < (pre.map some ++ List.replicate (s :: rest).length none).length := by
      simp
    rw [if_pos hlt]
    have hset : (pre.map some ++ List.replicate (s :: rest).length (none : Option ℚ)).set pre.length
          (some (s.GetBinContent (s.FindBin Ev)))
        = (pre ++ [s.GetBinContent (s.FindBin Ev)]).map some ++ List.replicate rest.length none := by
      rw [List.set_append_right _ _ (by simp)]
      simp [List.replicate_succ]
    rw [hset]
    have := ih (pre ++ [s.GetBinContent (s.FindBin Ev)])
    simp only [List.length_append, List.length_singleton] at this
    rw [this]
    simp

theorem SelectNeutrinoSum_some (f : List ℚ) (sum : ℚ) :
    GCylindTH1Flux.SelectNeutrinoSum (f.map some) sum
      = .ok (runningSums sum f, sum + f.sum) := by
  induction f generalizing sum with
  | nil => simp [GCylindTH1Flux.SelectNeutrinoSum, runningSums]
  | cons a rest ih =>
    simp only [List.map_cons, GCylindTH1Flux.SelectNeutrinoSum, ih, runningSums, List.sum_cons]
    rw [add_assoc]

theorem SelectNeutrino_eq_scan (flux : GCylindTH1Flux) (Ev rndm : ℚ)
    (hlen : flux.fSpectrum.length = flux.fPdgCList.length) :
    flux.SelectNeutrino Ev rndm
      = match GCylindTH1Flux.SelectNeutrinoScan ((flux.binContents Ev).sum * rndm)
            (runningSums 0 (flux.binContents Ev)) 0 with
        | some inu => .ok inu
        | none => .error .couldNotSelect := by
  have h := SelectNeutrinoFill_exact Ev flux.fSpectrum []
  simp only [List.length_nil, List.map_nil, List.nil_append] at h
  unfold GCylindTH1Flux.SelectNeutrino
  simp only [← hlen, h, SelectNeutrinoSum_some, zero_add]
  rfl

theorem SelectNeutrinoScan_none (R : ℚ) (f : List ℚ) (sum : ℚ) (inu : Nat)
    (hnn : ∀ x ∈ f, 0 ≤ x) (hR : sum + f.sum ≤ R) :
    GCylindTH1Flux.SelectNeutrinoScan R (runningSums sum f) inu = none := by
  induction f generalizing sum inu with
  | nil => rfl
  | cons a rest ih =>
    have hrest : 0 ≤ rest.sum := List.sum_nonneg (fun x hx => hnn x (List.mem_cons_of_mem _ hx))
    simp only [List.sum_cons] at hR
    simp only [runningSums, GCylindTH1Flux.SelectNeutrinoScan]
    rw [if_neg (by linarith)]
    exact ih (sum + a) (inu + 1) (fun x hx => hnn x (List.mem_cons_of_mem _ hx)) (by linarith)

theorem SelectNeutrinoScan_least (R : ℚ) (f : List ℚ) (sum : ℚ) (inu : Nat)
    (hnn : ∀ x ∈ f, 0 ≤ x) (hlo : sum ≤ R) (hhi : R < sum + f.sum) :
    ∃ i, GCylindTH1Flux.SelectNeutrinoScan R (runningSums sum f) inu = some (inu + i) ∧
      i < f.length ∧ R < sum + (f.take (i + 1)).sum ∧
      (∀ j, j < i → sum + (f.take (j + 1)).sum ≤ R) ∧ 0 < f.getD i 0 := by
  induction f generalizing sum inu with
  | nil => simp at hhi; linarith
  | cons a rest ih =>
    simp only [List.sum_cons] at hhi
    simp only [runningSums, GCylindTH1Flux.SelectNeutrinoScan]
    by_cases h : R < sum + a
    · refine ⟨0, by simp [h], by simp, by simpa using h, by simp, ?_⟩
      simp only [List.getD_cons_zero]
      linarith
    · rw [if_neg h]
      push_neg at h
      obtain ⟨i, hs, hi, hlt, hleast, hpos⟩ :=
        ih (sum + a) (inu + 1) (fun x hx => hnn x (List.mem_cons_of_mem _ hx)) h (by linarith)
      refine ⟨i + 1, ?_, by simpa using hi, ?_, ?_, by simpa using hpos⟩
      · rw [hs]; congr 1; omega
      · simp only [List.take_succ_cons, List.sum_cons]; linarith
      · intro j hj
        cases j with
        | zero => simpa using h
        | succ j =>
          have := hleast j (by omega)
          simp only [List.take_succ_cons, List.sum_cons]; linarith

/-- C21: with one stored spectrum per listed species, non-negative bin contents
f_0..f_(n-1) at the energy and a draw u in [0,1): when the sum S of the contents is
positive, SelectNeutrino returns the least index i with u*S < f_0 + ... + f_i, that index
is below n, its content f_i is positive and the failure assertion is not reached; when
every content is 0, SelectNeutrino reaches the failure assertion and returns no index. -/
theorem SelectNeutrino_least_index (flux : GCylindTH1Flux) (Ev u : ℚ)
    (hlen : flux.fSpectrum.length = flux.fPdgCList.length)
    (hnn : ∀ x ∈ flux.binContents Ev, 0 ≤ x)
    (hu0 : 0 ≤ u) (hu1 : u < 1) :
    (0 < (flux.binContents Ev).sum →
      ∃ i, flux.SelectNeutrino Ev u = .ok i ∧ i < flux.fPdgCList.length ∧
        u * (flux.binContents Ev).sum < ((flux.binContents Ev).take (i + 1)).sum ∧
        (∀ j, j < i →
          ¬ u * (flux.binContents Ev).sum < ((flux.binContents Ev).take (j + 1)).sum) ∧
        0 < (flux.binContents Ev).getD i 0) ∧
    ((∀ x ∈ flux.binContents Ev, x = 0) →
      flux.SelectNeutrino Ev u = .error .couldNotSelect) := by
  rw [SelectNeutrino_eq_scan flux Ev u hlen]
  constructor
  · intro hS
    have hlo : (0 : ℚ) ≤ (flux.binContents Ev).sum * u := mul_nonneg hS.le hu0
    have hhi : (flux.binContents Ev).sum * u < 0 + (flux.binContents Ev).sum := by
      rw [zero_add]; nlinarith
    obtain ⟨i, hs, hi, hlt, hleast, hpos⟩ :=
      SelectNeutrinoScan_least _ (flux.binContents Ev) 0 0 hnn hlo hhi
    refine ⟨i, ?_, ?_, ?_, ?_, hpos⟩
    · rw [hs, zero_add]
    · rw [← hlen]; simpa [GCylindTH1Flux.binContents] using hi
    · rw [mul_comm]; simpa using hlt
    · intro j hj
      have := hleast j hj
      rw [mul_comm]; simpa using this
  · intro hz
    have hsum : (flux.binContents Ev).sum = 0 := List.sum_eq_zero hz
    rw [SelectNeutrinoScan_none _ (flux.binContents Ev) 0 0 hnn (by rw [hsum]; simp)]

theorem SelectNeutrino_least_index_witness :
    (demoFlux.fSpectrum.length = demoFlux.fPdgCList.length ∧
      (∀ x ∈ demoFlux.binContents 3, 0 ≤ x) ∧ (0 : ℚ) ≤ 1 / 4 ∧ (1 / 4 : ℚ) < 1) ∧
    ((0 < (demoFlux.binContents 3).sum →
      ∃ i, demoFlux.SelectNeutrino 3 (1 / 4) = .ok i ∧ i < demoFlux.fPdgCList.length ∧
        1 / 4 * (demoFlux.binContents 3).sum < ((demoFlux.binContents 3).take (i + 1)).sum ∧
        (∀ j, j < i →
          ¬ 1 / 4 * (demoFlux.binContents 3).sum
              < ((demoFlux.binContents 3).take (j + 1)).sum) ∧
        0 < (demoFlux.binContents 3).getD i 0) ∧
    ((∀ x ∈ demoFlux.binContents 3, x = 0) →
      demoFlux.SelectNeutrino 3 (1 / 4) = .error .couldNotSelect)) :=
  have h1 : demoFlux.fSpectrum.length = demoFlux.fPdgCList.length := by decide
  have h2 : ∀ x ∈ demoFlux.binContents 3, 0 ≤ x := by with_unfolding_all decide
  have h3 : (0 : ℚ) ≤ 1 / 4 := by norm_num
  have h4 : (1 / 4 : ℚ) < 1 := by norm_num
  ⟨⟨h1, h2, h3, h4⟩, SelectNeutrino_least_index demoFlux 3 (1 / 4) h1 h2 h3 h4⟩

/-! ## GCylindTH1Flux: spectra and listed codes -/

theorem AddAllFluxes_lists (flux : GCylindTH1Flux) :
    flux.AddAllFluxes.fPdgCList = flux.fPdgCList ∧
      flux.AddAllFluxes.fSpectrum = flux.fSpectrum := by
  unfold GCylindTH1Flux.AddAllFluxes
  split <;> exact ⟨rfl, rfl⟩

theorem AddEnergySpectrum_lists (push_back : PDGCodeList → Int → PDGCodeList)
    (flux : GCylindTH1Flux) (c : Int) (s : TH1D) :
    (flux.AddEnergySpectrum push_back c s).fPdgCList = push_back flux.fPdgCList c ∧
      (flux.AddEnergySpectrum push_back c s).fSpectrum
        = if (push_back flux.fPdgCList c).count c = 1 then flux.fSpectrum ++ [s]
          else flux.fSpectrum := by
  unfold GCylindTH1Flux.AddEnergySpectrum
  by_cases h : (push_back flux.fPdgCList c).count c = 1
  · simp only [h, decide_True, Bool.not_true, Bool.false_eq_true, ↓reduceIte]
    exact ⟨(AddAllFluxes_lists _).1, (AddAllFluxes_lists _).2⟩
  · simp only [h, decide_False, Bool.not_false, ↓reduceIte]
    exact ⟨trivial, trivial⟩

/-- A code that the list does not hold yet keeps the two counts equal, whether `push_back`
appends it or rejects it. -/
theorem AddEnergySpectrum_fresh_keeps_count (push_back : PDGCodeList → Int → PDGCodeList)
    (hpb : ∀ l c, push_back l c = l ∨ push_back l c = l ++ [c])
    (flux : GCylindTH1Flux) (c : Int) (s : TH1D)
    (hinv : flux.fSpectrum.length = flux.fPdgCList.length)
    (hc : c ∉ flux.fPdgCList) :
    (flux.AddEnergySpectrum push_back c s).fSpectrum.length
      = (flux.AddEnergySpectrum push_back c s).fPdgCList.length := by
  obtain ⟨hl, hs⟩ := AddEnergySpectrum_lists push_back flux c s
  rw [hl, hs]
  have h0 : flux.fPdgCList.count c = 0 := List.count_eq_zero_of_not_mem hc
  rcases hpb flux.fPdgCList c with h | h
  · rw [h, h0]; simpa using hinv
  · rw [h]; simp [h0, hinv]

theorem SelectNeutrinoFill_overrun (Ev : ℚ) (sp : List TH1D) (pre : List ℚ) (m : Nat)
    (h : m < sp.length) :
    GCylindTH1Flux.SelectNeutrinoFill Ev sp pre.length
        (pre.map some ++ List.replicate m none) = .error .fractionOverrun := by
  induction sp generalizing pre m with
  | nil => simp at h
  | cons s rest ih =>
    rw [GCylindTH1Flux.SelectNeutrinoFill]
    cases m with
    | zero => simp
    | succ m =>
      have hlt : pre.length < (pre.map some ++ List.replicate (m + 1) (none : Option ℚ)).length := by
        simp
      rw [if_pos hlt]
      have hset : (pre.map some ++ List.replicate (m + 1) (none : Option ℚ)).set pre.length
            (some (s.GetBinContent (s.FindBin Ev)))
          = (pre ++ [s.GetBinContent (s.FindBin Ev)]).map some ++ List.replicate m none := by
        rw [List.set_append_right _ _ (by simp)]
        simp [List.replicate_succ]
      rw [hset]
      have := ih (pre ++ [s.GetBinContent (s.FindBin Ev)]) m (by simpa using h)
      simpa using this

theorem SelectNeutrinoFill_short (Ev : ℚ) (sp : List TH1D) (pre : List ℚ) (m : Nat) :
    GCylindTH1Flux.SelectNeutrinoFill Ev sp pre.length
        (pre.map some ++ List.replicate (sp.length + m) none)
      = .ok ((pre ++ sp.map (fun s => s.GetBinContent (s.FindBin Ev))).map some
          ++ List.replicate m none) := by
  induction sp generalizing pre with
  | nil => simp [GCylindTH1Flux.SelectNeutrinoFill]
  | cons s rest ih =>
    rw [GCylindTH1Flux.SelectNeutrinoFill]
    have hlt : pre.length
        < (pre.map some ++ List.replicate ((s :: rest).length + m) (none : Option ℚ)).length := by
      simp only [List.length_append, List.length_map, List.length_replicate, List.length_cons]
      omega
    rw [if_pos hlt]
    have hset : (pre.map some ++ List.replicate ((s :: rest).length + m) (none : Option ℚ)).set
            pre.length (some (s.GetBinContent (s.FindBin Ev)))
          = (pre ++ [s.GetBinContent (s.FindBin Ev)]).map some
              ++ List.replicate (rest.length + m) none := by
      rw [List.set_append_right _ _ (by simp)]
      have : (s :: rest).length + m = (rest.length + m) + 1 := by simp; omega
      rw [this]
      simp [List.replicate_succ]
    rw [hset]
    have := ih (pre ++ [s.GetBinContent (s.FindBin Ev)])
    simp only [List.length_append, List.length_singleton] at this
    rw [this]
    simp

theorem SelectNeutrinoSum_uninitialised (f : List ℚ) (rest : List (Option ℚ)) (sum : ℚ) :
    GCylindTH1Flux.SelectNeutrinoSum (f.map some ++ none :: rest) sum
      = .error .fractionUninitialised := by
  induction f generalizing sum with
  | nil => simp [GCylindTH1Flux.SelectNeutrinoSum]
  | cons a f ih =>
    rw [List.map_cons, List.cons_append, GCylindTH1Flux.SelectNeutrinoSum, ih]

theorem SelectNeutrino_more_spectra (flux : GCylindTH1Flux) (Ev rndm : ℚ)
    (h : flux.fPdgCList.length < flux.fSpectrum.length) :
    flux.SelectNeutrino Ev rndm = .error .fractionOverrun := by
  have := SelectNeutrinoFill_overrun Ev flux.fSpectrum [] flux.fPdgCList.length h
  simp only [List.length_nil, List.map_nil, List.nil_append] at this
  unfold GCylindTH1Flux.SelectNeutrino
  simp only [this]

theorem SelectNeutrino_fewer_spectra (flux : GCylindTH1Flux) (Ev rndm : ℚ)
    (h : flux.fSpectrum.length < flux.fPdgCList.length) :
    flux.SelectNeutrino Ev rndm = .error .fractionUninitialised := by
  obtain ⟨m, hm⟩ := Nat.exists_eq_add_of_lt h
  have hfill := SelectNeutrinoFill_short Ev flux.fSpectrum [] (m + 1)
  simp only [List.length_nil, List.map_nil, List.nil_append] at hfill
  unfold GCylindTH1Flux.SelectNeutrino
  have hn : flux.fPdgCList.length = flux.fSpectrum.length + (m + 1) := by omega
  simp only [hn, hfill, List.replicate_succ, SelectNeutrinoSum_uninitialised]

/-- C22: what AddEnergySpectrum does on a repeated species code. Whenever the flux
holds one spectrum per listed code and the code is listed once, adding a spectrum for
that code again leaves the number of stored spectra different from the number of
listed codes, whether push_back appends the repeated code or rejects it; SelectNeutrino
then writes past the end of its fraction array or reads an entry it never filled,
for every energy and draw. -/
theorem AddEnergySpectrum_repeat_breaks_count
    (push_back : PDGCodeList → Int → PDGCodeList)
    (hpb : ∀ l c, push_back l c = l ∨ push_back l c = l ++ [c])
    (flux : GCylindTH1Flux) (c : Int) (s : TH1D)
    (hinv : flux.fSpectrum.length = flux.fPdgCList.length)
    (hc : flux.fPdgCList.count c = 1) :
    (flux.AddEnergySpectrum push_back c s).fSpectrum.length
        ≠ (flux.AddEnergySpectrum push_back c s).fPdgCList.length ∧
      ∀ Ev rndm : ℚ,
        (flux.AddEnergySpectrum push_back c s).SelectNeutrino Ev rndm
            = .error .fractionOverrun ∨
          (flux.AddEnergySpectrum push_back c s).SelectNeutrino Ev rndm
            = .error .fractionUninitialised := by
  obtain ⟨hl, hs⟩ := AddEnergySpectrum_lists push_back flux c s
  rcases hpb flux.fPdgCList c with h | h
  · have hlt : (flux.AddEnergySpectrum push_back c s).fPdgCList.length
        < (flux.AddEnergySpectrum push_back c s).fSpectrum.length := by
      rw [hl, hs, h, if_pos hc]; simp [hinv]
    exact ⟨by omega, fun Ev rndm => Or.inl (SelectNeutrino_more_spectra _ Ev rndm hlt)⟩
  · have hcount : (flux.fPdgCList ++ [c]).count c ≠ 1 := by simp [hc]
    have hlt : (flux.AddEnergySpectrum push_back c s).fSpectrum.length
        < (flux.AddEnergySpectrum push_back c s).fPdgCList.length := by
      rw [hl, hs, h, if_neg hcount]; simp [hinv]
    exact ⟨by omega, fun Ev rndm => Or.inr (SelectNeutrino_fewer_spectra _ Ev rndm hlt)⟩

theorem AddEnergySpectrum_repeat_breaks_count_witness :
    ((GCylindTH1Flux.Initialize.AddEnergySpectrum uniquePushBack 14 (flatSpectrum 2)).fSpectrum.length
        = (GCylindTH1Flux.Initialize.AddEnergySpectrum uniquePushBack 14
            (flatSpectrum 2)).fPdgCList.length ∧
      (GCylindTH1Flux.Initialize.AddEnergySpectrum uniquePushBack 14
          (flatSpectrum 2)).fPdgCList.count 14 = 1) ∧
    (((GCylindTH1Flux.Initialize.AddEnergySpectrum uniquePushBack 14
          (flatSpectrum 2)).AddEnergySpectrum uniquePushBack 14 (flatSpectrum 3)).fSpectrum.length
        ≠ ((GCylindTH1Flux.Initialize.AddEnergySpectrum uniquePushBack 14
          (flatSpectrum 2)).AddEnergySpectrum uniquePushBack 14
            (flatSpectrum 3)).fPdgCList.length ∧
      ∀ Ev rndm : ℚ,
        ((GCylindTH1Flux.Initialize.AddEnergySpectrum uniquePushBack 14
            (flatSpectrum 2)).AddEnergySpectrum uniquePushBack 14
              (flatSpectrum 3)).SelectNeutrino Ev rndm = .error .fractionOverrun ∨
          ((GCylindTH1Flux.Initialize.AddEnergySpectrum uniquePushBack 14
            (flatSpectrum 2)).AddEnergySpectrum uniquePushBack 14
              (flatSpectrum 3)).SelectNeutrino Ev rndm = .error .fractionUninitialised) :=
  have hpb : ∀ l c, uniquePushBack l c = l ∨ uniquePushBack l c = l ++ [c] := by
    intro l c
    unfold uniquePushBack
    by_cases h : c ∈ l
    · left; simp [h]
    · right; simp [h]
  have h1 : (GCylindTH1Flux.Initialize.AddEnergySpectrum uniquePushBack 14
        (flatSpectrum 2)).fSpectrum.length
      = (GCylindTH1Flux.Initialize.AddEnergySpectrum uniquePushBack 14
        (flatSpectrum 2)).fPdgCList.length := by decide
  have h2 : (GCylindTH1Flux.Initialize.AddEnergySpectrum uniquePushBack 14
        (flatSpectrum 2)).fPdgCList.count 14 = 1 := by decide
  ⟨⟨h1, h2⟩, AddEnergySpectrum_repeat_breaks_count uniquePushBack hpb _ 14 (flatSpectrum 3) h1 h2⟩

/-! ## NuXSecData: the graphs of a key string -/

theorem SplitChars_no_delimiter (delimiter p : List Char) (hp : ∀ c ∈ p, c ∉ delimiter) :
    SplitChars delimiter p = [p] := by
  induction p with
  | nil => rfl
  | cons c rest ih =>
    have hc : c ∉ delimiter := hp c (List.mem_cons_self _ _)
    have hrest := ih (fun x hx => hp x (List.mem_cons_of_mem _ hx))
    simp only [SplitChars, hc, ↓reduceIte, hrest]

theorem SplitChars_append (delimiter p r : List Char) (d : Char) (hd : d ∈ delimiter)
    (hp : ∀ c ∈ p, c ∉ delimiter) :
    SplitChars delimiter (p ++ d :: r) = p :: SplitChars delimiter r := by
  induction p with
  | nil => simp only [List.nil_append, SplitChars, hd, ↓reduceIte]
  | cons c rest ih =>
    have hc : c ∉ delimiter := hp c (List.mem_cons_self _ _)
    have hrest := ih (fun x hx => hp x (List.mem_cons_of_mem _ hx))
    rw [List.cons_append, SplitChars, if_neg hc, hrest]

theorem Split_joinKeys (keyv : List String) (hne : keyv ≠ [])
    (hsep : ∀ key ∈ keyv, ';' ∉ key.data) :
    Split (joinKeys keyv) ";" = keyv := by
  have hdel : ∀ c : Char, c ∈ (";" : String).data ↔ c = ';' := by
    intro c
    show c ∈ [';'] ↔ c = ';'
    simp
  induction keyv with
  | nil => exact absurd rfl hne
  | cons key rest ih =>
    have hkey : ∀ c ∈ key.data, c ∉ (";" : String).data := by
      intro c hc hmem
      rw [hdel] at hmem
      exact hsep key (List.mem_cons_self _ _) (hmem ▸ hc)
    cases rest with
    | nil =>
      simp only [joinKeys, Split, SplitChars_no_delimiter _ _ hkey, List.map_cons, List.map_nil]
    | cons key2 rest2 =>
      have ih2 := ih (by simp) (fun k hk => hsep k (List.mem_cons_of_mem _ hk))
      simp only [Split] at ih2
      have hdata : (key ++ ";" ++ joinKeys (key2 :: rest2)).data
          = key.data ++ ';' :: (joinKeys (key2 :: rest2)).data := by
        simp only [String.data_append, List.append_assoc]
        rfl
      simp only [joinKeys, Split, hdata]
      rw [SplitChars_append _ _ _ ';' ((hdel ';').2 rfl) hkey, List.map_cons, ih2]

theorem foldl_push_back {α β : Type} (f : β → α) (l : List β) (init : List α) :
    l.foldl (fun data i => data ++ [f i]) init = init ++ l.map f := by
  induction l generalizing init with
  | nil => simp
  | cons b rest ih => simp [ih]

/-- C23: what NuXSecData::Data returns. For a key string made of n ';'-separated dataset
keys (n at least 1, no key containing ';') and a loaded tree, the returned vector has 2n
entries, not n: the first n are null pointers, and entry n+i is the graph built from
the data points whose dataset name equals the i-th key. -/
theorem Data_returns_nulls_then_graphs (kDataPointStyle kDataPointColor : Nat → Int)
    (self : NuXSecData) (tree : List NuXSecDataEntry) (keyv : List String) (Emin Emax : ℚ)
    (htree : self.fNuXSecDataTree = some tree)
    (hne : keyv ≠ [])
    (hsep : ∀ key ∈ keyv, ';' ∉ key.data) :
    ∃ data, self.Data kDataPointStyle kDataPointColor (joinKeys keyv) Emin Emax = some data ∧
      data.length = 2 * keyv.length ∧
      (∀ i, i < keyv.length → data.getD i none = none) ∧
      (∀ i, i < keyv.length →
        ∃ gr, data.getD (keyv.length + i) none = some gr ∧
          gr = NuXSecData.DataGraph kDataPointStyle kDataPointColor tree (keyv.getD i "") i ∧
          gr.points
            = (tree.filter (fun e => decide (e.fDataset = keyv.getD i ""))).map
                NuXSecDataEntry.point) := by
  refine ⟨List.replicate keyv.length none ++ (List.range keyv.length).map (fun i =>
    some (NuXSecData.DataGraph kDataPointStyle kDataPointColor tree (keyv.getD i "") i)),
    ?_, ?_, ?_, ?_⟩
  · unfold NuXSecData.Data
    simp only [Split_joinKeys keyv hne hsep, htree]
    rw [foldl_push_back (fun i => some (NuXSecData.DataGraph kDataPointStyle kDataPointColor
      tree (keyv.getD i "") i))]
  · simp; omega
  · intro i hi
    rw [List.getD_append _ _ _ _ (by simpa using hi)]
    simp [List.getD_eq_getElem?_getD, hi]
  · intro i hi
    refine ⟨NuXSecData.DataGraph kDataPointStyle kDataPointColor tree (keyv.getD i "") i,
      ?_, rfl, ?_⟩
    · rw [List.getD_append_right _ _ _ _ (by simp)]
      simp [List.getD_eq_getElem?_getD, hi]
    · simp only [NuXSecData.DataGraph, TGraphAsymmErrors.points, List.take_of_length_le,
        List.length_map, le_refl]
      induction tree.filter (fun e => decide (e.fDataset = keyv.getD i "")) with
      | nil => rfl
      | cons e rest ih => simp [NuXSecDataEntry.point, ih]

theorem Data_returns_nulls_then_graphs_witness :
    (demoData.fNuXSecDataTree = some demoTree ∧ ["a", "b"] ≠ [] ∧
      ∀ key ∈ ["a", "b"], ';' ∉ key.data) ∧
    ∃ data, demoData.Data demoStyle demoColor (joinKeys ["a", "b"]) 0 100 = some data ∧
      data.length = 2 * ["a", "b"].length ∧
      (∀ i, i < ["a", "b"].length → data.getD i none = none) ∧
      (∀ i, i < ["a", "b"].length →
        ∃ gr, data.getD (["a", "b"].length + i) none = some gr ∧
          gr = NuXSecData.DataGraph demoStyle demoColor demoTree (["a", "b"].getD i "") i ∧
          gr.points
            = (demoTree.filter (fun e => decide (e.fDataset = ["a", "b"].getD i ""))).map
                NuXSecDataEntry.point) :=
  have h1 : demoData.fNuXSecDataTree = some demoTree := rfl
  have h2 : ["a", "b"] ≠ ([] : List String) := by simp
  have h3 : ∀ key ∈ ["a", "b"], ';' ∉ key.data := by decide
  ⟨⟨h1, h2, h3⟩,
    Data_returns_nulls_then_graphs demoStyle demoColor demoData demoTree ["a", "b"] 0 100 h1 h2 h3⟩

end Genie
